import Mathlib

/-!
# Visual test harness (rbfx, `Source/Urho3D/VisualTest`)

A shallow embedding of the image comparison engine
(`VisualTestImageCompare.cpp`), of the capture scheduler
(`VisualTestCapture.cpp`), of the test controller (`VisualTest.cpp`) and of
the harness (`VisualTestHarness.cpp`), with the properties of the
specification proved or refuted on it.

Conventions of the embedding.

* `float` values are rational numbers (exact arithmetic).  The one place
  where the code can leave the finite numbers, the quotient
  `float(matchedPixelsCount) / (w * h)`, produces a `FloatVal`, which also
  has the IEEE results of a division by zero.
* Where a property holds in exact arithmetic and fails for the single
  precision of the code, the rounding to `float` is `roundFloat32`, and
  the definitions named `...Float32` are the code with that rounding.
* `sqrtf`, used by `Vector4::Length`, is a parameter `sqrt : ℚ → ℚ` of
  every definition that reaches it.
* Pointers that may be null are `Option`s.
* Events sent and subscriptions made by a capture are recorded in the
  capture state (`trace`, `subscribedRenderSurfaceUpdate`,
  `subscribedEndRendering`).
* A test records its subscriptions and the calls of its hooks in its
  state; the file system, the resource cache and the harness it reaches
  are a `Context` passed along.  Formatted messages are given as the text
  their placeholders, filled in order, produce.
* The engine is a parameter of the harness (`EngineFrame`); the loop of
  `RunOneTest` is run for a bounded number of engine steps.
-/

namespace Urho3D

/-! ## Floating point results -/

/-- Value of a `float` expression: a finite number, a signed infinity or NaN. -/
inductive FloatVal where
  | finite (q : ℚ)
  | infinite (negative : Bool)
  | nan
deriving DecidableEq

/-- The quotient `float(n) / d` of the C++ code, `d` an `int` converted to
`float`, in exact arithmetic: the exact quotient when `d ≠ 0`, NaN for `0 / 0` and a
signed infinity for `n / 0` with `n ≠ 0`. -/
def FloatVal.div (n d : ℚ) : FloatVal :=
  if d = 0 then
    if n = 0 then FloatVal.nan else FloatVal.infinite (decide (n < 0))
  else FloatVal.finite (n / d)

/-- The comparison `v == q` of a float against a finite constant (false for NaN). -/
def FloatVal.eqConst (v : FloatVal) (q : ℚ) : Bool :=
  match v with
  | FloatVal.finite p => decide (p = q)
  | _ => false

/-- The comparison `v < q` of a float against a finite constant (false for NaN). -/
def FloatVal.ltConst (v : FloatVal) (q : ℚ) : Bool :=
  match v with
  | FloatVal.finite p => decide (p < q)
  | FloatVal.infinite negative => negative
  | FloatVal.nan => false

/-- A float lies in the closed interval `[lo, hi]`: it is finite and between the bounds. -/
def FloatVal.InRange (v : FloatVal) (lo hi : ℚ) : Prop :=
  ∃ q : ℚ, v = FloatVal.finite q ∧ lo ≤ q ∧ q ≤ hi

/-- Search for the unit in the last place of a positive number `m * u`: `u` is doubled or
halved until `m` has 24 binary digits before the point. -/
def floatUlp : ℕ → ℚ → ℚ → ℚ
  | 0, _, u => u
  | fuel + 1, m, u =>
    if m < 2 ^ 23 then floatUlp fuel (m * 2) (u / 2)
    else if 2 ^ 24 ≤ m then floatUlp fuel (m / 2) (u * 2)
    else u

/-- The integer nearest to a rational that is not negative, ties to even. -/
def roundHalfEven (m : ℚ) : ℤ :=
  let f := Rat.floor m
  let r := m - f
  if r < 1 / 2 then f
  else if 1 / 2 < r then f + 1
  else if f % 2 = 0 then f else f + 1

/-- The `float` (IEEE single precision: 24 binary digits, round to nearest, ties to
even) nearest to a rational in the range of the normal numbers. -/
def roundFloat32 (q : ℚ) : ℚ :=
  if q = 0 then 0
  else
    let u := floatUlp 300 |q| 1
    (if q < 0 then -1 else 1) * (roundHalfEven (|q| / u) : ℚ) * u

/-- The quotient `float(n) / d` as the code computes it in single precision, `n` and `d`
being `int`s: both are converted to `float` and the quotient is rounded to `float`. -/
def FloatVal.divFloat32 (n d : ℚ) : FloatVal :=
  match FloatVal.div (roundFloat32 n) (roundFloat32 d) with
  | FloatVal.finite q => FloatVal.finite (roundFloat32 q)
  | v => v

/-! ## Colours, vectors and images (engine types) -/

/-- Modelled from the spec: the engine's `Vector4` (Math/Vector4.h) is not
part of the sources; four float components. -/
structure Vector4 where
  x_ : ℚ
  y_ : ℚ
  z_ : ℚ
  w_ : ℚ
deriving DecidableEq

/-- Modelled from the spec: the engine's `Vector4::operator -`, the componentwise
difference. -/
def Vector4.sub (u v : Vector4) : Vector4 :=
  ⟨u.x_ - v.x_, u.y_ - v.y_, u.z_ - v.z_, u.w_ - v.w_⟩

/-- Modelled from the spec: the engine's `Vector4::Length`, the Euclidean length, `sqrtf`
of the sum of the squares of the components. -/
def Vector4.Length (sqrt : ℚ → ℚ) (v : Vector4) : ℚ :=
  sqrt (v.x_ * v.x_ + v.y_ * v.y_ + v.z_ * v.z_ + v.w_ * v.w_)

/-- Modelled from the spec: the engine's `Color` (Math/Color.h) is not part
of the sources; a colour has the four float components r, g, b, a. -/
structure Color where
  r_ : ℚ
  g_ : ℚ
  b_ : ℚ
  a_ : ℚ
deriving DecidableEq

/-- Modelled from the spec: the engine's constructor `Color(r, g, b)`, whose alpha
defaults to 1. -/
def Color.rgb (r g b : ℚ) : Color := ⟨r, g, b, 1⟩

/-- Modelled from the spec: the engine's constant `Color::TRANSPARENT_BLACK`. -/
def Color.TRANSPARENT_BLACK : Color := ⟨0, 0, 0, 0⟩

/-- Modelled from the spec: the engine's constant `Color::BLACK`. -/
def Color.BLACK : Color := ⟨0, 0, 0, 1⟩

/-- Modelled from the spec: the engine's conversion `Color::ToVector4`. -/
def Color.ToVector4 (c : Color) : Vector4 := ⟨c.r_, c.g_, c.b_, c.a_⟩

/-- Modelled from the spec: the engine's `Image` (Resource/Image.h) is not
part of the sources; an image is its size, its number of components and the
colour `GetPixel(x, y)` returns at each coordinate. The dimensions are natural
numbers (the engine holds no negative size) whose product fits an `int`, and
a pixel read back is the colour that was written. -/
structure Image where
  width_ : ℕ
  height_ : ℕ
  depth_ : ℕ
  components_ : ℕ
  pixel : ℕ → ℕ → Color

/-- Modelled from the spec: a newly constructed image, `MakeShared<Image>(context)`,
which has width 0, height 0 and no pixels. -/
def Image.new : Image := ⟨0, 0, 0, 0, fun _ _ => Color.BLACK⟩

/-- Modelled from the spec: the engine's `Image::GetSize()`, width, height and depth. -/
def Image.GetSize (img : Image) : ℕ × ℕ × ℕ := (img.width_, img.height_, img.depth_)

/-- Modelled from the spec: the engine's `Image::GetWidth()`. -/
def Image.GetWidth (img : Image) : ℕ := img.width_

/-- Modelled from the spec: the engine's `Image::GetHeight()`. -/
def Image.GetHeight (img : Image) : ℕ := img.height_

/-- Modelled from the spec: the engine's `Image::GetComponents()`. -/
def Image.GetComponents (img : Image) : ℕ := img.components_

/-- Modelled from the spec: the engine's `Image::GetPixel(x, y)`. -/
def Image.GetPixel (img : Image) (x y : ℕ) : Color := img.pixel x y

/-- Modelled from the spec: the engine's two-dimensional
`Image::SetSize(width, height, components)`. -/
def Image.SetSize (img : Image) (width height components : ℕ) : Image :=
  { img with width_ := width, height_ := height, depth_ := 1, components_ := components }

/-- Modelled from the spec: the engine's `Image::Clear(color)`, after which every pixel
is `color`. -/
def Image.Clear (img : Image) (color : Color) : Image :=
  { img with pixel := fun _ _ => color }

/-- Modelled from the spec: the engine's `Image::SetPixel(x, y, color)`. -/
def Image.SetPixel (img : Image) (x y : ℕ) (color : Color) : Image :=
  { img with pixel := fun x1 y1 => if x1 = x ∧ y1 = y then color else img.pixel x1 y1 }

/-! ## Image comparison (`VisualTestImageCompare`) -/

/-- Options of an image comparison, `VisualTestImageCompareOptions`, with
the defaults of the header. -/
structure VisualTestImageCompareOptions where
  enableSSIM_ : Bool := true
  enableDifferenceImage_ : Bool := false
  pixelMatchTolerance_ : ℚ := 0
  ssimBlockSize_ : ℤ := 8

/-- Result of an image comparison, `VisualTestImageCompareResult`, with the
defaults of the header. -/
structure VisualTestImageCompareResult where
  pixelMatchPercent_ : FloatVal := FloatVal.finite 0
  ssim_ : FloatVal := FloatVal.finite 0
  differenceImage_ : Option Image := none

/-- The stub `ComputeSSIM`: always 1. -/
def ComputeSSIM (_image1 _image2 : Image) (_blockSize : ℕ) : ℚ := 1

/-- The predicate `WithinTolerance`: exact equality for tolerance 0, else
the length of the difference strictly below the tolerance. -/
def WithinTolerance (sqrt : ℚ → ℚ) (pixelA pixelB : Color) (tolerance : ℚ) : Bool :=
  if tolerance = 0 then
    decide (pixelA = pixelB)
  else
    let delta := pixelA.ToVector4.sub pixelB.ToVector4
    decide (delta.Length sqrt < tolerance)

/-- The colour `GetDifferenceImageColor`: grey of half the length of the difference. -/
def GetDifferenceImageColor (sqrt : ℚ → ℚ) (pixelA pixelB : Color) : Color :=
  let delta := pixelA.ToVector4.sub pixelB.ToVector4
  let value := delta.Length sqrt / 2
  Color.rgb value value value

/-- Loop state of `CompareImages`: the counter and the difference image. -/
structure CompareState where
  matchedPixelsCount : ℕ
  differenceImage_ : Option Image

/-- Body of the inner loop of `CompareImages` at the coordinate `(x, y)`. -/
def comparePixel (sqrt : ℚ → ℚ) (options : VisualTestImageCompareOptions) (a b : Image)
    (x y : ℕ) (st : CompareState) : CompareState :=
  let pixelA := a.GetPixel x y
  let pixelB := b.GetPixel x y
  if WithinTolerance sqrt pixelA pixelB options.pixelMatchTolerance_ then
    { st with matchedPixelsCount := st.matchedPixelsCount + 1 }
  else
    match st.differenceImage_ with
    | some d =>
      let d1 := d.SetPixel x y (GetDifferenceImageColor sqrt pixelA pixelB)
      { st with differenceImage_ := some d1 }
    | none => st

/-- The inner loop `for (int y = 0; y < h; ++y)` at a fixed `x`. -/
def compareColumn (sqrt : ℚ → ℚ) (options : VisualTestImageCompareOptions) (a b : Image)
    (h x : ℕ) (st : CompareState) : CompareState :=
  (List.range h).foldl (fun acc y => comparePixel sqrt options a b x y acc) st

/-- The outer loop `for (int x = 0; x < w; ++x)`. -/
def compareLoop (sqrt : ℚ → ℚ) (options : VisualTestImageCompareOptions) (a b : Image)
    (w h : ℕ) (st : CompareState) : CompareState :=
  (List.range w).foldl (fun acc x => compareColumn sqrt options a b h x acc) st

/-- The function `CompareImages`; the two image pointers may be null. -/
def CompareImages (sqrt : ℚ → ℚ) (options : VisualTestImageCompareOptions)
    (a b : Option Image) : VisualTestImageCompareResult :=
  let result : VisualTestImageCompareResult := {}
  match a, b with
  | some a, some b =>
    if a.GetSize ≠ b.GetSize then
      result
    else
      let w := a.GetWidth
      let h := a.GetHeight
      let differenceImage : Option Image :=
        if options.enableDifferenceImage_ then
          some ((Image.new.SetSize w h a.GetComponents).Clear Color.TRANSPARENT_BLACK)
        else none
      let st := compareLoop sqrt options a b w h ⟨0, differenceImage⟩
      let pixelMatchPercent := FloatVal.div (st.matchedPixelsCount : ℚ) ((w * h : ℕ) : ℚ)
      let ssim : ℚ :=
        if pixelMatchPercent.eqConst 1 then 1
        else ComputeSSIM a b (options.ssimBlockSize_ % 2 ^ 32).toNat
      { pixelMatchPercent_ := pixelMatchPercent
        ssim_ := FloatVal.finite ssim
        differenceImage_ := st.differenceImage_ }
  | _, _ => result

/-- The function `CompareImages` with the match fraction computed in single precision as
in the code; the comparison of the pixels is as in `CompareImages`. -/
def CompareImagesFloat32 (sqrt : ℚ → ℚ) (options : VisualTestImageCompareOptions)
    (a b : Option Image) : VisualTestImageCompareResult :=
  let result : VisualTestImageCompareResult := {}
  match a, b with
  | some a, some b =>
    if a.GetSize ≠ b.GetSize then
      result
    else
      let w := a.GetWidth
      let h := a.GetHeight
      let differenceImage : Option Image :=
        if options.enableDifferenceImage_ then
          some ((Image.new.SetSize w h a.GetComponents).Clear Color.TRANSPARENT_BLACK)
        else none
      let st := compareLoop sqrt options a b w h ⟨0, differenceImage⟩
      let pixelMatchPercent :=
        FloatVal.divFloat32 (st.matchedPixelsCount : ℚ) ((w * h : ℕ) : ℚ)
      let ssim : ℚ :=
        if pixelMatchPercent.eqConst 1 then 1
        else ComputeSSIM a b (options.ssimBlockSize_ % 2 ^ 32).toNat
      { pixelMatchPercent_ := pixelMatchPercent
        ssim_ := FloatVal.finite ssim
        differenceImage_ := st.differenceImage_ }
  | _, _ => result

/-! ## Capture scheduler (`VisualTestCapture`) -/

/-- The enumeration `VisualTestCaptureState` of `VisualTestDefs.h`. -/
inductive VisualTestCaptureState where
  | Pending
  | Queued
  | Complete
  | Failed
deriving DecidableEq, Repr

/-- The enumeration `VisualTestCaptureFormat` of `VisualTestDefs.h`. -/
inductive VisualTestCaptureFormat where
  | BMP
  | PNG
  | TGA
  | JPG
deriving DecidableEq, Repr

/-- The table `captureFormatExts`, indexed by the format. -/
def captureFormatExts : VisualTestCaptureFormat → String
  | VisualTestCaptureFormat.BMP => "bmp"
  | VisualTestCaptureFormat.PNG => "png"
  | VisualTestCaptureFormat.TGA => "tga"
  | VisualTestCaptureFormat.JPG => "jpg"

/-- Modelled from the spec: the engine's `Camera` component is not part of
the sources; a camera is an opaque handle. -/
structure Camera where
  id : ℕ
deriving DecidableEq, Repr

/-- Modelled from the spec: the engine's `Viewport` is not part of the
sources; the viewport of a capture records the scene (an opaque handle) and
the camera it renders. -/
structure Viewport where
  scene : ℕ
  camera : Camera
deriving DecidableEq, Repr

/-- Modelled from the spec: the engine's `Texture2D` is not part of the
sources; the render target of a capture records the size it was given. -/
structure Texture2D where
  width : ℤ
  height : ℤ
deriving DecidableEq, Repr

/-- What a capture does towards its collaborators, in the order it does it. -/
inductive CaptureEvent where
  /-- The subscription to `E_RENDERSURFACEUPDATE` made by `Update`, with the elapsed time. -/
  | renderRequested (timeElapsed : ℚ)
  /-- The call `renderer->QueueViewport(texture_->GetRenderSurface(), viewport_)`. -/
  | viewportQueued (texture : Texture2D) (viewport : Viewport)
  /-- The event `E_VISUALTESTCAPTUREFAILED` with its reason. -/
  | captureFailed (reason : String)
  /-- The event `E_VISUALTESTCAPTUREIMAGEREADY`, with the value `GetImageFileName()` has
  when it is sent. -/
  | imageReady (fileName : String)
  /-- The event `E_VISUALTESTCAPTURECOMPLETE`. -/
  | captureComplete
deriving DecidableEq, Repr

/-- The members of `VisualTestCapture`, with the initial values of the
header, the camera `GetComponent<Camera>()` finds on the node, the scene of
the node (an opaque handle), the two event subscriptions of the capture and
the record of what it has sent. -/
structure VisualTestCapture where
  state_ : VisualTestCaptureState := VisualTestCaptureState.Pending
  delay_ : ℚ := 0
  duration_ : ℚ := 0
  frequency_ : ℚ := 0
  timeElapsed_ : ℚ := 0
  timeLastCapture_ : ℚ := 0
  frameNumber_ : ℤ := 0
  name_ : String := ""
  format_ : VisualTestCaptureFormat := VisualTestCaptureFormat.PNG
  imageSize_ : ℤ × ℤ := (1000, 1000)
  camera_ : Option Camera := none
  siblingCamera : Option Camera := none
  nodeScene : ℕ := 0
  viewport_ : Option Viewport := none
  texture_ : Option Texture2D := none
  image_ : Option Image := none
  subscribedRenderSurfaceUpdate : Bool := false
  subscribedEndRendering : Bool := false
  trace : List CaptureEvent := []

namespace VisualTestCapture

/-- The accessor `IsState`. -/
def IsState (c : VisualTestCapture) (state : VisualTestCaptureState) : Bool :=
  decide (c.state_ = state)

/-- The accessor `IsFailed`. -/
def IsFailed (c : VisualTestCapture) : Bool := c.IsState VisualTestCaptureState.Failed

/-- The accessor `IsComplete`. -/
def IsComplete (c : VisualTestCapture) : Bool := c.IsState VisualTestCaptureState.Complete

/-- The accessor `IsDone`. -/
def IsDone (c : VisualTestCapture) : Bool := c.IsFailed || c.IsComplete

/-- The setter `SetDelay`. -/
def SetDelay (c : VisualTestCapture) (seconds : ℚ) : VisualTestCapture :=
  { c with delay_ := max seconds 0, timeElapsed_ := 0 }

/-- The setter `SetDuration`. -/
def SetDuration (c : VisualTestCapture) (seconds : ℚ) : VisualTestCapture :=
  { c with duration_ := seconds }

/-- The setter `SetFrequency`. -/
def SetFrequency (c : VisualTestCapture) (seconds : ℚ) : VisualTestCapture :=
  { c with frequency_ := seconds }

/-- The setter `SetCamera`; a null pointer is `none`. -/
def SetCamera (c : VisualTestCapture) (camera : Option Camera) : VisualTestCapture :=
  { c with camera_ := camera }

/-- The setter `SetName`. -/
def SetName (c : VisualTestCapture) (name : String) : VisualTestCapture :=
  { c with name_ := name }

/-- The setter `SetFormat`. -/
def SetFormat (c : VisualTestCapture) (format : VisualTestCaptureFormat) : VisualTestCapture :=
  { c with format_ := format }

/-- The setter `SetImageSize`. -/
def SetImageSize (c : VisualTestCapture) (size : ℤ × ℤ) : VisualTestCapture :=
  { c with imageSize_ := size }

/-- The value of the local `queueForRender` of `Update`, computed on the
capture whose elapsed time has already been advanced. -/
def queueForRender (c : VisualTestCapture) : Bool :=
  if c.duration_ > 0 ∧ c.frameNumber_ > 0 then
    let timeSinceLastCapture := c.timeElapsed_ - c.timeLastCapture_
    if timeSinceLastCapture < c.frequency_ then false else true
  else true

/-- The method `Update(timeStep)`. -/
def Update (c : VisualTestCapture) (timeStep : ℚ) : VisualTestCapture :=
  if c.IsDone then c
  else
    let c1 := { c with timeElapsed_ := c.timeElapsed_ + timeStep }
    if c1.timeElapsed_ < c1.delay_ then c1
    else if c1.queueForRender then
      { c1 with
        timeLastCapture_ := c1.timeElapsed_
        subscribedRenderSurfaceUpdate := true
        trace := c1.trace ++ [CaptureEvent.renderRequested c1.timeElapsed_] }
    else c1

/-- The predicate `IsMultiFrame`. -/
def IsMultiFrame (c : VisualTestCapture) : Bool := decide (c.duration_ > 0)

/-- The accessor `GetCamera`: the assigned camera unless it has expired,
else the camera component of the node. -/
def GetCamera (c : VisualTestCapture) : Option Camera :=
  match c.camera_ with
  | some cam => some cam
  | none => c.siblingCamera

/-- Modelled from the spec: the engine's `Component::GetScene`, the scene of the node
the capture is attached to. -/
@[simp]
def GetScene (c : VisualTestCapture) : ℕ := c.nodeScene

/-- The accessor `GetImage`. -/
def GetImage (c : VisualTestCapture) : Option Image := c.image_

/-- The accessor `GetImageFileName`. -/
def GetImageFileName (c : VisualTestCapture) : String :=
  let ext := captureFormatExts c.format_
  if c.IsMultiFrame then
    c.name_ ++ "_" ++ toString c.frameNumber_ ++ "." ++ ext
  else
    c.name_ ++ "." ++ ext

/-- The method `MarkFailed(reason)`. -/
def MarkFailed (c : VisualTestCapture) (reason : String) : VisualTestCapture :=
  { c with
    state_ := VisualTestCaptureState.Failed
    trace := c.trace ++ [CaptureEvent.captureFailed reason] }

/-- The method `MarkComplete`. -/
def MarkComplete (c : VisualTestCapture) : VisualTestCapture :=
  { c with
    state_ := VisualTestCaptureState.Complete
    trace := c.trace ++ [CaptureEvent.captureComplete] }

/-- The method `NotifyImageReady`. -/
def NotifyImageReady (c : VisualTestCapture) : VisualTestCapture :=
  { c with trace := c.trace ++ [CaptureEvent.imageReady c.GetImageFileName] }

/-- The method `QueueRender`. -/
def QueueRender (c : VisualTestCapture) : VisualTestCapture :=
  match c.GetCamera with
  | none => c.MarkFailed "No camera assigned for capture"
  | some camera =>
    if c.imageSize_.1 ≤ 0 ∨ c.imageSize_.2 ≤ 0 then
      c.MarkFailed "Invalid image size"
    else if c.name_.isEmpty then
      c.MarkFailed "No name provided for capture"
    else
      let viewport : Viewport := ⟨c.GetScene, camera⟩
      let texture : Texture2D := ⟨c.imageSize_.1, c.imageSize_.2⟩
      { c with
        viewport_ := some viewport
        texture_ := some texture
        state_ := VisualTestCaptureState.Queued
        subscribedEndRendering := true
        trace := c.trace ++ [CaptureEvent.viewportQueued texture viewport] }

/-- The method `ReadRenderedImage`; `readback` is what `texture_->GetImage`
delivers, `none` when it returns false. -/
def ReadRenderedImage (c : VisualTestCapture) (readback : Option Image) : VisualTestCapture :=
  let c1 :=
    match c.texture_, readback with
    | some _, some img => { c with image_ := some img }
    | _, _ => ({ c with image_ := none }).MarkFailed "Texture read failed"
  { c1 with viewport_ := none, texture_ := none }

/-- The handler `HandleRenderSurfaceUpdate`. -/
def HandleRenderSurfaceUpdate (c : VisualTestCapture) : VisualTestCapture :=
  { c.QueueRender with subscribedRenderSurfaceUpdate := false }

/-- The handler `HandleEndRendering`. -/
def HandleEndRendering (c : VisualTestCapture) (readback : Option Image) : VisualTestCapture :=
  let c1 := c.ReadRenderedImage readback
  let c2 := if c1.IsMultiFrame then { c1 with frameNumber_ := c1.frameNumber_ + 1 } else c1
  let c3 := if c2.GetImage.isSome then c2.NotifyImageReady else c2
  let c4 :=
    if !c3.IsDone then
      if c3.timeElapsed_ ≥ c3.duration_ + c3.delay_ then c3.MarkComplete else c3
    else c3
  { c4 with subscribedEndRendering := false }

/-- One engine frame as seen by a capture whose renders are read back before
the next tick: the scene update calls `Update`, the renderer then sends
`E_RENDERSURFACEUPDATE` and `E_ENDRENDERING` to the handlers subscribed to
them, the readback delivering `image`. -/
def frame (image : Image) (timeStep : ℚ) (c : VisualTestCapture) : VisualTestCapture :=
  let c1 := c.Update timeStep
  let c2 := if c1.subscribedRenderSurfaceUpdate then c1.HandleRenderSurfaceUpdate else c1
  if c2.subscribedEndRendering then c2.HandleEndRendering (some image) else c2

/-- The capture after `n` engine frames of the fixed step `timeStep`. -/
def run (image : Image) (timeStep : ℚ) (n : ℕ) (c : VisualTestCapture) : VisualTestCapture :=
  (frame image timeStep)^[n] c

/-- The elapsed times of the render requests recorded in a trace, in order. -/
def renderRequests : List CaptureEvent → List ℚ
  | [] => []
  | CaptureEvent.renderRequested t :: rest => t :: renderRequests rest
  | _ :: rest => renderRequests rest

/-- The file names of the image-ready notifications recorded in a trace, in order. -/
def imageFileNames : List CaptureEvent → List String
  | [] => []
  | CaptureEvent.imageReady f :: rest => f :: imageFileNames rest
  | _ :: rest => imageFileNames rest

end VisualTestCapture


/-- The method `Update(timeStep)` with the sum `timeElapsed_ += timeStep` and the
difference `timeElapsed_ - timeLastCapture_` rounded to `float` as in the code. -/
def VisualTestCapture.UpdateFloat32 (c : VisualTestCapture) (timeStep : ℚ) :
    VisualTestCapture :=
  if c.IsDone then c
  else
    let c1 := { c with timeElapsed_ := roundFloat32 (c.timeElapsed_ + timeStep) }
    if c1.timeElapsed_ < c1.delay_ then c1
    else
      let queueForRender : Bool :=
        if c1.duration_ > 0 ∧ c1.frameNumber_ > 0 then
          let timeSinceLastCapture := roundFloat32 (c1.timeElapsed_ - c1.timeLastCapture_)
          if timeSinceLastCapture < c1.frequency_ then false else true
        else true
      if queueForRender then
        { c1 with
          timeLastCapture_ := c1.timeElapsed_
          subscribedRenderSurfaceUpdate := true
          trace := c1.trace ++ [CaptureEvent.renderRequested c1.timeElapsed_] }
      else c1

/-- The capture after `n` ticks of the step `timeStep` in single precision, as long as no
render is requested (no renderer event reaches the capture between its updates). -/
def VisualTestCapture.ticksFloat32 (timeStep : ℚ) (n : ℕ) (c : VisualTestCapture) :
    VisualTestCapture :=
  (fun x => VisualTestCapture.UpdateFloat32 x timeStep)^[n] c

/-! ## Test controller (`VisualTest`) and harness paths -/

/-- The enumeration `VisualTestState` of `VisualTestDefs.h`. -/
inductive VisualTestState where
  | NotStarted
  | Starting
  | Running
  | Failed
  | Passed
deriving DecidableEq, Repr

/-- Modelled from the spec: the engine's `Variant` is not part of the sources; a typed
value, of which the empty, boolean, integer, float and string cases are kept. -/
inductive Variant where
  | EMPTY
  | ofBool (value : Bool)
  | ofInt (value : ℤ)
  | ofFloat (value : ℚ)
  | ofString (value : String)
deriving DecidableEq, Repr

/-- Modelled from the spec: the engine's `Variant::GetBool`, the boolean a value holds,
false for a value of any other type. -/
def Variant.GetBool : Variant → Bool
  | Variant.ofBool value => value
  | _ => false

/-- Modelled from the spec: the engine's `Scene` is not part of the sources; a scene is
an opaque handle together with the capture components `GetDerivedComponents` finds in it. -/
structure Scene where
  id : ℕ
  captures : List VisualTestCapture

/-- What a call of a scene loader does: the messages of its calls of `test->Fail`, in
order, and the scene pointer it returns. -/
structure SceneLoaderResult where
  failures : List String
  scene : Option Scene

/-- The type `VisualTest::SceneLoader`; of the test it is given a loader reads the name
and the variables. -/
abbrev SceneLoader := String → (String → Option Variant) → SceneLoaderResult

/-- Modelled from the spec: the engine's `FileSystem` is not part of the sources. The
directories that exist, the files that exist (each under the directory it was scanned
from, with its path relative to it), and whether a directory can be created and a file
deleted or written. -/
structure FileSystem where
  dirs : List String := []
  files : List (String × String) := []
  creatable : String → Bool := fun _ => true
  deletable : String → Bool := fun _ => true
  writable : String → Bool := fun _ => true

namespace FileSystem

/-- Modelled from the spec: the engine's `FileSystem::DirExists`. -/
def DirExists (fs : FileSystem) (path : String) : Bool := decide (path ∈ fs.dirs)

/-- Modelled from the spec: the engine's `FileSystem::CreateDirsRecursive`, with its result. -/
def CreateDirsRecursive (fs : FileSystem) (path : String) : FileSystem × Bool :=
  if fs.creatable path then ({ fs with dirs := path :: fs.dirs }, true) else (fs, false)

/-- Modelled from the spec: the engine's `FileSystem::ScanDir` for files, recursively:
the relative paths of the files under `path`. -/
def ScanDir (fs : FileSystem) (path : String) : List String :=
  (fs.files.filter (fun f => decide (f.1 = path))).map (fun f => f.2)

/-- Modelled from the spec: the engine's `FileSystem::Delete`, with its result. -/
def Delete (fs : FileSystem) (fileName : String) : FileSystem × Bool :=
  if fs.deletable fileName ∧ ∃ f ∈ fs.files, f.1 ++ "/" ++ f.2 = fileName then
    ({ fs with files := fs.files.filter (fun f => decide (f.1 ++ "/" ++ f.2 ≠ fileName)) }, true)
  else (fs, false)

end FileSystem

/-- The members of `VisualTestHarness` the test controller uses, with the initial values
of the header, and the messages given to `OnError`, in order. -/
structure VisualTestHarness where
  timeStep_ : ℚ := 1 / 60
  outputRoot_ : String := ""
  goldenRoot_ : String := ""
  errors : List String := []

namespace VisualTestHarness

/-- The method `GetOutputPath(test)`, given the name of the test. -/
def GetOutputPath (h : VisualTestHarness) (testName : String) : String :=
  h.outputRoot_ ++ "/" ++ testName

/-- The method `GetOutputPath(test, subpath)`, given the name of the test. -/
def GetOutputPathSub (h : VisualTestHarness) (testName subpath : String) : String :=
  h.outputRoot_ ++ "/" ++ testName ++ "/" ++ subpath

/-- The method `GetGoldenPath(test, subpath)`, given the name of the test. -/
def GetGoldenPath (_h : VisualTestHarness) (testName subpath : String) : String :=
  testName ++ "/" ++ subpath

/-- The accessor `GetEngineTimeStep`. -/
def GetEngineTimeStep (h : VisualTestHarness) : ℚ := h.timeStep_

/-- The method `SetEngineTimeStep`. -/
def SetEngineTimeStep (h : VisualTestHarness) (step : ℚ) : VisualTestHarness :=
  { h with timeStep_ := max (1 / 10000) step }

/-- The method `SetEngineFPS`, in exact arithmetic (which has no quotient for `fps = 0`,
where the code divides by zero). -/
def SetEngineFPS (h : VisualTestHarness) (fps : ℤ) : VisualTestHarness :=
  h.SetEngineTimeStep (1 / (fps : ℚ))

/-- The method `Error`, with the message already formatted: `OnError` logs it. -/
def Error (h : VisualTestHarness) (message : String) : VisualTestHarness :=
  { h with errors := h.errors ++ [message] }

end VisualTestHarness

/-- The subsystems a test reaches through its context: the harness, the file system
and the images the resource cache finds under a resource name. -/
structure Context where
  harness : VisualTestHarness := {}
  fileSystem : FileSystem := {}
  resources : String → Option Image := fun _ => none

/-- The calls a test makes to its scene loader and to its overridable hooks. -/
inductive TestCall where
  | sceneLoader
  | OnStartup
  | OnFinish
  | OnFail (reason : String)
deriving DecidableEq, Repr

/-- The members of `VisualTest`, with the initial values of the header, its four event
subscriptions and the record of the calls it has made. -/
structure VisualTest where
  state_ : VisualTestState := VisualTestState.NotStarted
  name_ : String := ""
  sceneLoader_ : Option SceneLoader := none
  scene_ : Option Scene := none
  variables_ : String → Option Variant := fun _ => none
  subscribedCaptureFailed : Bool := false
  subscribedCaptureImageReady : Bool := false
  subscribedSceneUpdate : Bool := false
  subscribedEndFrame : Bool := false
  calls : List TestCall := []

namespace VisualTest

/-- The accessor `IsState`. -/
def IsState (t : VisualTest) (state : VisualTestState) : Bool := decide (t.state_ = state)

/-- The accessor `IsFailed`. -/
def IsFailed (t : VisualTest) : Bool := t.IsState VisualTestState.Failed

/-- The accessor `IsPassed`. -/
def IsPassed (t : VisualTest) : Bool := t.IsState VisualTestState.Passed

/-- The accessor `IsComplete`. -/
def IsComplete (t : VisualTest) : Bool := t.IsFailed || t.IsPassed

/-- The accessor `GetScene`. -/
def GetScene (t : VisualTest) : Option Scene := t.scene_

/-- The method `GetVariable`. -/
def GetVariable (t : VisualTest) (var : String) : Variant :=
  match t.variables_ var with
  | some value => value
  | none => Variant.EMPTY

/-- The method `SetVariable`. -/
def SetVariable (t : VisualTest) (var : String) (value : Variant) : VisualTest :=
  { t with variables_ := fun name => if name = var then some value else t.variables_ name }

/-- The method `GetSwitch`. -/
def GetSwitch (t : VisualTest) (name : String) : Bool := (t.GetVariable name).GetBool

/-- The method `SetSwitch`. -/
def SetSwitch (t : VisualTest) (name : String) (switchOn : Bool) : VisualTest :=
  t.SetVariable name (Variant.ofBool switchOn)

/-- The method `HasCapturesRemaining`. -/
def HasCapturesRemaining (t : VisualTest) : Bool :=
  match t.scene_ with
  | none => false
  | some scene => scene.captures.any (fun capture => !capture.IsDone)

/-- The method `GetOutputPath(subpath)`. -/
def GetOutputPath (t : VisualTest) (ctx : Context) (subpath : String) : String :=
  if subpath.isEmpty then ctx.harness.GetOutputPath t.name_
  else ctx.harness.GetOutputPathSub t.name_ subpath

/-- The method `GetGoldenPath(subpath)`. -/
def GetGoldenPath (t : VisualTest) (ctx : Context) (subpath : String) : String :=
  ctx.harness.GetGoldenPath t.name_ subpath

/-- The method `GetGoldenImage`. -/
def GetGoldenImage (t : VisualTest) (ctx : Context) (imageFileName : String) : Option Image :=
  ctx.resources (t.GetGoldenPath ctx imageFileName)

/-- The hook `OnStartup`, which does nothing by default. -/
def OnStartup (t : VisualTest) : VisualTest :=
  { t with calls := t.calls ++ [TestCall.OnStartup] }

/-- The hook `OnFinish`, which does nothing by default. -/
def OnFinish (t : VisualTest) : VisualTest :=
  { t with calls := t.calls ++ [TestCall.OnFinish] }

/-- The hook `OnFail`, which by default reports the failure to the harness. -/
def OnFail (t : VisualTest) (ctx : Context) (reason : String) : VisualTest × Context :=
  ({ t with calls := t.calls ++ [TestCall.OnFail reason] },
    { ctx with harness := ctx.harness.Error (t.name_ ++ " Failed: " ++ reason) })

/-- The method `Finish`. -/
def Finish (t : VisualTest) : VisualTest :=
  let t1 := t.OnFinish
  { t1 with
    subscribedSceneUpdate := false
    subscribedCaptureFailed := false
    subscribedCaptureImageReady := false
    scene_ := none }

/-- The method `FailInternal`. -/
def FailInternal (t : VisualTest) (ctx : Context) (message : String) : VisualTest × Context :=
  let t1 := { t with state_ := VisualTestState.Failed }
  let r := t1.OnFail ctx message
  (r.1.Finish, r.2)

/-- The method `Fail`, with the message already formatted. -/
def Fail (t : VisualTest) (ctx : Context) (message : String) : VisualTest × Context :=
  t.FailInternal ctx message

/-- The method `EnsureOutputDirectoryExists`, with the file system it leaves. -/
def EnsureOutputDirectoryExists (t : VisualTest) (ctx : Context) : Bool × Context :=
  let path := t.GetOutputPath ctx ""
  let fs := ctx.fileSystem
  let fs1 := if !fs.DirExists path then (fs.CreateDirsRecursive path).1 else fs
  (fs1.DirExists path, { ctx with fileSystem := fs1 })

/-- The loop of `CleanOutputDirectory` over the scanned files: it stops at the first file
that cannot be deleted. -/
def deleteFiles (t : VisualTest) (ctx : Context) : List String → FileSystem → Bool × FileSystem
  | [], fs => (true, fs)
  | file :: rest, fs =>
    let r := fs.Delete (t.GetOutputPath ctx file)
    if !r.2 then (false, r.1) else deleteFiles t ctx rest r.1

/-- The method `CleanOutputDirectory`, with the file system it leaves. -/
def CleanOutputDirectory (t : VisualTest) (ctx : Context) : Bool × Context :=
  let path := t.GetOutputPath ctx ""
  let fs := ctx.fileSystem
  if !fs.DirExists path then (true, ctx)
  else
    let files := fs.ScanDir path
    let r := deleteFiles t ctx files fs
    (r.1, { ctx with fileSystem := r.2 })

/-- The calls of `Fail` a scene loader makes while it runs, in order. -/
def applyLoaderFailures (t : VisualTest) (ctx : Context) :
    List String → VisualTest × Context
  | [] => (t, ctx)
  | message :: rest =>
    let r := t.Fail ctx message
    applyLoaderFailures r.1 r.2 rest

/-- The method `Start`. -/
def Start (t : VisualTest) (ctx : Context) : VisualTest × Context :=
  let t1 := { t with state_ := VisualTestState.Starting }
  if t1.name_.isEmpty then t1.Fail ctx "No name assigned for test"
  else if (t1.GetOutputPath ctx "").isEmpty then t1.Fail ctx "No output path for test"
  else
    let ensured := t1.EnsureOutputDirectoryExists ctx
    if !ensured.1 then t1.Fail ensured.2 "Couldn't create output directory"
    else
      let cleaned := t1.CleanOutputDirectory ensured.2
      if !cleaned.1 then t1.Fail cleaned.2 "Couldn't clean output directory"
      else
        match t1.sceneLoader_ with
        | none => t1.Fail cleaned.2 "No scene loader assigned for test"
        | some sceneLoader =>
          let result := sceneLoader t1.name_ t1.variables_
          let called := { t1 with calls := t1.calls ++ [TestCall.sceneLoader] }
          let loaded := applyLoaderFailures called cleaned.2 result.failures
          let t2 := { loaded.1 with scene_ := result.scene }
          if t2.IsFailed then (t2, loaded.2)
          else
            match t2.scene_ with
            | none => t2.Fail loaded.2 "No scene loaded"
            | some _ =>
              let t3 :=
                { t2 with
                  subscribedCaptureFailed := true
                  subscribedCaptureImageReady := true
                  subscribedSceneUpdate := true
                  subscribedEndFrame := true
                  state_ := VisualTestState.Running }
              (t3.OnStartup, loaded.2)

/-- The hook `OnCaptureFailed`; the format string has two placeholders for the three
arguments name of the test, name of the capture and reason. -/
def OnCaptureFailed (t : VisualTest) (ctx : Context) (capture : VisualTestCapture)
    (_reason : String) : VisualTest × Context :=
  t.Fail ctx ("Capture (" ++ t.name_ ++ ") failed, " ++ capture.name_)

/-- The method `SaveCaptureImageToFile`. -/
def SaveCaptureImageToFile (t : VisualTest) (ctx : Context) (capture : VisualTestCapture) :
    Context :=
  let filePath := t.GetOutputPath ctx capture.GetImageFileName
  match capture.GetImage with
  | none =>
    { ctx with harness := ctx.harness.Error ("No image produced for file (" ++ filePath ++ ")") }
  | some _ =>
    if !ctx.fileSystem.writable filePath then
      { ctx with harness := ctx.harness.Error ("Image write (" ++ filePath ++ ") failed ") }
    else
      { ctx with
        fileSystem :=
          { ctx.fileSystem with
            files := (t.GetOutputPath ctx "", capture.GetImageFileName) :: ctx.fileSystem.files } }

/-- The method `CompareCaptureImage`. -/
def CompareCaptureImage (sqrt : ℚ → ℚ) (t : VisualTest) (ctx : Context)
    (capture : VisualTestCapture) : VisualTest × Context :=
  let imageFile := capture.GetImageFileName
  let captureImage := capture.GetImage
  let goldenImage := t.GetGoldenImage ctx imageFile
  match goldenImage with
  | none =>
    (t, { ctx with
          harness := ctx.harness.Error
            ("Capture (" ++ t.name_ ++ "/" ++ imageFile ++
              ") doesn't have a golden image for comparison") })
  | some golden =>
    let options : VisualTestImageCompareOptions := {}
    let result := CompareImages sqrt options captureImage (some golden)
    if result.pixelMatchPercent_.ltConst 1 then
      t.Fail ctx ("Image (" ++ imageFile ++ ") did not match golden data")
    else (t, ctx)

/-- The hook `OnCaptureImageReady`. -/
def OnCaptureImageReady (sqrt : ℚ → ℚ) (t : VisualTest) (ctx : Context)
    (capture : VisualTestCapture) : VisualTest × Context :=
  let ctx1 := t.SaveCaptureImageToFile ctx capture
  CompareCaptureImage sqrt t ctx1 capture

/-- The method `CheckComplete`. -/
def CheckComplete (t : VisualTest) : VisualTest :=
  if t.IsState VisualTestState.Running then
    if !t.HasCapturesRemaining then
      VisualTest.Finish { t with state_ := VisualTestState.Passed }
    else t
  else t

/-- The handler `HandleCaptureFailed`, with the capture and the reason of the event. -/
def HandleCaptureFailed (t : VisualTest) (ctx : Context) (capture : VisualTestCapture)
    (reason : String) : VisualTest × Context :=
  t.OnCaptureFailed ctx capture reason

/-- The handler `HandleCaptureReady`, with the capture of the event. -/
def HandleCaptureReady (sqrt : ℚ → ℚ) (t : VisualTest) (ctx : Context)
    (capture : VisualTestCapture) : VisualTest × Context :=
  OnCaptureImageReady sqrt t ctx capture

/-- The handler `HandleFrameEnd`. -/
def HandleFrameEnd (t : VisualTest) : VisualTest :=
  if t.IsComplete then t else t.CheckComplete

end VisualTest

/-! ## Harness sequencing (`VisualTestHarness`) -/

/-- What the harness does with its tests and the engine, in the order it does it; a test
is given by its address. -/
inductive HarnessCall where
  /-- A call of `RunOneTest(test)` begins. -/
  | RunOneTest (test : ℕ)
  /-- The call `test->Start()`. -/
  | Start (test : ℕ)
  /-- A call of `StepEngine()`, with the time step given to the engine. -/
  | StepEngine (timeStep : ℚ)
  /-- The call of `RunOneTest(test)` returns. -/
  | Returned (test : ℕ)
deriving DecidableEq, Repr

/-- Modelled from the spec: the engine is not part of the sources. What
`engine_->SetNextTimeStep(timeStep)` followed by `engine_->RunFrame()` does to the test
objects and to the subsystems. -/
abbrev EngineFrame := ℚ → (ℕ → VisualTest) × Context → (ℕ → VisualTest) × Context

/-- A harness together with the objects it works on: the member `allTests_` (the
registered tests, by address), the test objects, the subsystems (`ctx.harness` holds the
other members of the harness) and the record of what the harness has called. -/
structure HarnessRun where
  allTests_ : List ℕ := []
  tests : ℕ → VisualTest := fun _ => {}
  ctx : Context := {}
  calls : List HarnessCall := []

namespace HarnessRun

/-- The method `AddTest`. -/
def AddTest (r : HarnessRun) (test : ℕ) : HarnessRun :=
  { r with allTests_ := r.allTests_ ++ [test] }

/-- The method `CreateTest`; `address` is where `new` places the test. -/
def CreateTest (r : HarnessRun) (address : ℕ) : HarnessRun :=
  HarnessRun.AddTest { r with tests := Function.update r.tests address {} } address

/-- The method `StepEngine`. -/
def StepEngine (engine : EngineFrame) (r : HarnessRun) : HarnessRun :=
  let w := engine r.ctx.harness.timeStep_ (r.tests, r.ctx)
  { r with
    tests := w.1
    ctx := w.2
    calls := r.calls ++ [HarnessCall.StepEngine r.ctx.harness.timeStep_] }

/-- The loop `while (!test->IsComplete()) StepEngine();` of `RunOneTest`, run for at most
`fuel` engine steps: `none` when the test is not complete after them. -/
def stepUntilComplete (engine : EngineFrame) (test : ℕ) : ℕ → HarnessRun → Option HarnessRun
  | 0, r => if (r.tests test).IsComplete then some r else none
  | fuel + 1, r =>
    if (r.tests test).IsComplete then some r
    else stepUntilComplete engine test fuel (r.StepEngine engine)

/-- The method `RunOneTest`, its loop run for at most `fuel` engine steps. The second
error message is a format string whose placeholder is given no argument. -/
def RunOneTest (engine : EngineFrame) (fuel : ℕ) (r : HarnessRun) (test : ℕ) :
    Option HarnessRun :=
  let r1 := { r with calls := r.calls ++ [HarnessCall.RunOneTest test] }
  if (r1.tests test).name_.isEmpty then
    some { r1 with
      ctx := { r1.ctx with harness := r1.ctx.harness.Error "Can't run unnamed test" }
      calls := r1.calls ++ [HarnessCall.Returned test] }
  else if !(r1.tests test).IsState VisualTestState.NotStarted then
    some { r1 with
      ctx := { r1.ctx with
        harness := r1.ctx.harness.Error "Test ({}) in invalid state, skipping" }
      calls := r1.calls ++ [HarnessCall.Returned test] }
  else
    let started := (r1.tests test).Start r1.ctx
    let r2 : HarnessRun :=
      { r1 with
        tests := Function.update r1.tests test started.1
        ctx := started.2
        calls := r1.calls ++ [HarnessCall.Start test] }
    match stepUntilComplete engine test fuel r2 with
    | none => none
    | some r3 => some { r3 with calls := r3.calls ++ [HarnessCall.Returned test] }

/-- The loop of `RunAllTests` over the elements of `allTests_` from a position on, in
index order: `none` when a call of `RunOneTest` does not return. -/
def runTests (engine : EngineFrame) (fuel : ℕ) : List ℕ → HarnessRun → Option HarnessRun
  | [], r => some r
  | test :: rest, r =>
    match r.RunOneTest engine fuel test with
    | none => none
    | some r1 => runTests engine fuel rest r1

/-- The method `RunAllTests`; each call of `RunOneTest` has `fuel` engine steps. -/
def RunAllTests (engine : EngineFrame) (fuel : ℕ) (r : HarnessRun) : Option HarnessRun :=
  runTests engine fuel r.allTests_ r

end HarnessRun

/-! ## Auxiliary definitions of the proofs -/

/-- The pixel pair of `a` and `b` at `(x, y)` matches under the tolerance of the options. -/
def pixelMatch (sqrt : ℚ → ℚ) (options : VisualTestImageCompareOptions) (a b : Image)
    (x y : ℕ) : Bool :=
  WithinTolerance sqrt (a.GetPixel x y) (b.GetPixel x y) options.pixelMatchTolerance_

/-- The colour `CompareImages` writes at `(x, y)` when the pixel pair does not match. -/
def pixelDifference (sqrt : ℚ → ℚ) (a b : Image) (x y : ℕ) : Color :=
  GetDifferenceImageColor sqrt (a.GetPixel x y) (b.GetPixel x y)

/-- Loop invariant of the difference image: `r` holds an image of the size of
`d0` that differs from `d0` exactly at the mismatching coordinates selected
by `sel`, where it holds the difference colour. -/
def DiffWritten (sqrt : ℚ → ℚ) (options : VisualTestImageCompareOptions) (a b : Image)
    (sel : ℕ → ℕ → Prop) (d0 : Image) (r : Option Image) : Prop :=
  ∃ d1 : Image, r = some d1 ∧ d1.width_ = d0.width_ ∧ d1.height_ = d0.height_ ∧
    ∀ x y, (sel x y ∧ pixelMatch sqrt options a b x y = false →
        d1.pixel x y = pixelDifference sqrt a b x y) ∧
      (¬ (sel x y ∧ pixelMatch sqrt options a b x y = false) → d1.pixel x y = d0.pixel x y)

/-- A 1x1 image with four components whose only pixel has the colour `c`. -/
def Image.solid (c : Color) : Image := ⟨1, 1, 1, 4, fun _ _ => c⟩

namespace VisualTestCapture

/-- No render request of the capture is outstanding: it is subscribed to
neither renderer event. -/
def Idle (c : VisualTestCapture) : Prop :=
  c.subscribedRenderSurfaceUpdate = false ∧ c.subscribedEndRendering = false

/-- The capture after a frame in which it requests a render that is queued
for `camera` and read back as `image`. -/
def captured (image : Image) (s : ℚ) (c : VisualTestCapture) (camera : Camera) :
    VisualTestCapture :=
  let t := c.timeElapsed_ + s
  let frameNumber := if c.duration_ > 0 then c.frameNumber_ + 1 else c.frameNumber_
  let fileName :=
    VisualTestCapture.GetImageFileName { c with frameNumber_ := frameNumber }
  let issued := [CaptureEvent.renderRequested t,
    CaptureEvent.viewportQueued ⟨c.imageSize_.1, c.imageSize_.2⟩ ⟨c.nodeScene, camera⟩,
    CaptureEvent.imageReady fileName]
  { c with
    timeElapsed_ := t
    timeLastCapture_ := t
    frameNumber_ := frameNumber
    viewport_ := none
    texture_ := none
    image_ := some image
    subscribedRenderSurfaceUpdate := false
    subscribedEndRendering := false
    state_ :=
      if t ≥ c.duration_ + c.delay_ then VisualTestCaptureState.Complete
      else VisualTestCaptureState.Queued
    trace :=
      if t ≥ c.duration_ + c.delay_ then c.trace ++ issued ++ [CaptureEvent.captureComplete]
      else c.trace ++ issued }

/-- A capture with no render outstanding, given by its configuration `c` and
the members that change while it runs. -/
def running (c : VisualTestCapture) (image : Option Image) (state : VisualTestCaptureState)
    (timeElapsed timeLastCapture : ℚ) (frameNumber : ℤ) (trace : List CaptureEvent) :
    VisualTestCapture :=
  { c with
    state_ := state
    timeElapsed_ := timeElapsed
    timeLastCapture_ := timeLastCapture
    frameNumber_ := frameNumber
    viewport_ := none
    texture_ := none
    image_ := image
    subscribedRenderSurfaceUpdate := false
    subscribedEndRendering := false
    trace := trace }

/-- A newly constructed capture that has been configured and not yet
updated: it is pending at elapsed time 0 and frame 0, holds no render
resource, has no subscription and has sent nothing. -/
def Fresh (c : VisualTestCapture) : Prop :=
  c = running c none VisualTestCaptureState.Pending 0 0 0 []

/-- The events of a frame in which a render is requested at elapsed time `t`,
queued for `camera` and read back when the frame index is `frameNumber`. -/
def captureEvents (c : VisualTestCapture) (camera : Camera) (t : ℚ) (frameNumber : ℤ) :
    List CaptureEvent :=
  [CaptureEvent.renderRequested t,
    CaptureEvent.viewportQueued ⟨c.imageSize_.1, c.imageSize_.2⟩ ⟨c.nodeScene, camera⟩,
    CaptureEvent.imageReady
      (if c.duration_ > 0 then
        c.name_ ++ "_" ++ toString frameNumber ++ "." ++ captureFormatExts c.format_
      else c.name_ ++ "." ++ captureFormatExts c.format_)]

end VisualTestCapture

/-! ## Concrete captures and tests -/

/-- A single-frame capture named "capture" with a 1x1 PNG image and the given delay. -/
def singleFrameCapture (delay : ℚ) : VisualTestCapture :=
  { delay_ := delay, name_ := "capture", imageSize_ := (1, 1), siblingCamera := some ⟨0⟩ }

/-- A multi-frame capture named "capture" with a 1x1 PNG image, no delay and
the given duration and frequency. -/
def multiFrameCapture (duration frequency : ℚ) : VisualTestCapture :=
  { duration_ := duration, frequency_ := frequency, name_ := "capture", imageSize_ := (1, 1),
    siblingCamera := some ⟨0⟩ }

/-- A single-frame capture without delay whose first render has been
requested and queued but not yet read back when the next tick arrives. -/
def queuedSingleFrameCapture : VisualTestCapture :=
  ((singleFrameCapture 0).Update 1).HandleRenderSurfaceUpdate

/-- A multi-frame capture (duration 1, frequency 0.25) whose first render has been
requested and queued and is about to be read back. -/
def queuedMultiFrameCapture : VisualTestCapture :=
  ((multiFrameCapture 1 (1 / 4)).Update (1 / 10)).HandleRenderSurfaceUpdate

/-- The capture after the calls `Update(timeStep)` for the steps of the list, in order. -/
def VisualTestCapture.updates (c : VisualTestCapture) (timeSteps : List ℚ) :
    VisualTestCapture :=
  timeSteps.foldl VisualTestCapture.Update c

/-- A scene loader that loads a scene without capture components. -/
def emptySceneLoader : SceneLoader := fun _ _ => ⟨[], some ⟨1, []⟩⟩

/-- A scene loader that fails the test and returns a scene nevertheless. -/
def failingSceneLoader : SceneLoader :=
  fun _ _ => ⟨["Couldn't find 'Lights' node in scene"], some ⟨1, []⟩⟩

/-- A configured test named "T" with the given scene loader. -/
def namedTest (sceneLoader : SceneLoader) : VisualTest :=
  { name_ := "T", sceneLoader_ := some sceneLoader }

/-- A context whose harness writes under the output root "Output". -/
def outputContext : Context :=
  { harness := { outputRoot_ := "Output" } }

/-- The test "T" after it has started on a scene without captures and passed at the first
end of a frame. -/
def passedTest : VisualTest :=
  (((namedTest emptySceneLoader).Start outputContext).1).HandleFrameEnd

/-- The running test "T" with one pending capture in its scene. -/
def runningTest : VisualTest :=
  ((namedTest (fun _ _ => ⟨[], some ⟨1, [singleFrameCapture 0]⟩⟩)).Start outputContext).1

/-- The test "T" after its scene loader has failed it. -/
def failedTest : VisualTest :=
  ((namedTest failingSceneLoader).Start outputContext).1

/-- The calls `SetVariable(var, value)` for the pairs of the list, in order. -/
def VisualTest.setVariables (t : VisualTest) (values : List (String × Variant)) : VisualTest :=
  values.foldl (fun test value => test.SetVariable value.1 value.2) t

/-- A context whose harness writes under the output root "Output" and whose resource
cache finds `golden` under the golden path "T/capture.png". -/
def goldenContext (golden : Image) : Context :=
  { harness := { outputRoot_ := "Output" }
    resources := fun name => if name = "T/capture.png" then some golden else none }

/-- The single-frame capture "capture" when it announces its image: its render was queued
and has been read back as `image`. -/
def readCapture (image : Image) : VisualTestCapture :=
  queuedSingleFrameCapture.ReadRenderedImage (some image)

/-- A registration of a test with the harness: `AddTest` of the test at an address, or
`CreateTest`, whose new test is placed at an address. -/
inductive Registration where
  | AddTest (test : ℕ)
  | CreateTest (address : ℕ)
deriving DecidableEq, Repr

/-- The address of the test a registration adds to the harness. -/
def Registration.test : Registration → ℕ
  | Registration.AddTest test => test
  | Registration.CreateTest address => address

/-- The harness after the registrations of the list, in order. -/
def HarnessRun.register (r : HarnessRun) (registrations : List Registration) : HarnessRun :=
  registrations.foldl
    (fun run registration =>
      match registration with
      | Registration.AddTest test => run.AddTest test
      | Registration.CreateTest address => run.CreateTest address)
    r

/-- The recorded call is the begin or the return of a call of `RunOneTest`. -/
def HarnessCall.isInvocation : HarnessCall → Bool
  | HarnessCall.RunOneTest _ => true
  | HarnessCall.Returned _ => true
  | _ => false

/-- An engine whose frame only sends the frame-end signal, to the tests subscribed to it. -/
def frameEndEngine : EngineFrame :=
  fun _ w =>
    (fun test => if (w.1 test).subscribedEndFrame then (w.1 test).HandleFrameEnd else w.1 test,
      w.2)

/-- A harness with two registered tests named "T": the scene loader of the test at
address 0 loads a scene without captures, that of the test at address 1 fails the test. -/
def twoTestRun : HarnessRun :=
  HarnessRun.register
    { tests := fun test =>
        if test = 0 then namedTest emptySceneLoader
        else if test = 1 then namedTest failingSceneLoader
        else {}
      ctx := outputContext }
    [Registration.AddTest 0, Registration.AddTest 1]

/-- A newly constructed capture on a node with the given camera component (if any) in the
given scene. -/
def newCapture (siblingCamera : Option Camera) (nodeScene : ℕ) : VisualTestCapture :=
  { siblingCamera := siblingCamera, nodeScene := nodeScene }

/-- An operation on a capture: a call of a setter, of `Update` or of `QueueRender`, or one
of the two renderer events reaching its handler. -/
inductive CaptureOperation where
  | SetCamera (camera : Option Camera)
  | SetName (name : String)
  | SetFormat (format : VisualTestCaptureFormat)
  | SetImageSize (size : ℤ × ℤ)
  | SetDelay (seconds : ℚ)
  | SetDuration (seconds : ℚ)
  | SetFrequency (seconds : ℚ)
  | Update (timeStep : ℚ)
  | QueueRender
  | HandleRenderSurfaceUpdate
  | HandleEndRendering (readback : Option Image)

/-- The operation is a call of a setter. -/
def CaptureOperation.isSetter : CaptureOperation → Bool
  | CaptureOperation.Update _ => false
  | CaptureOperation.QueueRender => false
  | CaptureOperation.HandleRenderSurfaceUpdate => false
  | CaptureOperation.HandleEndRendering _ => false
  | _ => true

/-- The capture after an operation. -/
def VisualTestCapture.apply (c : VisualTestCapture) : CaptureOperation → VisualTestCapture
  | CaptureOperation.SetCamera camera => c.SetCamera camera
  | CaptureOperation.SetName name => c.SetName name
  | CaptureOperation.SetFormat format => c.SetFormat format
  | CaptureOperation.SetImageSize size => c.SetImageSize size
  | CaptureOperation.SetDelay seconds => c.SetDelay seconds
  | CaptureOperation.SetDuration seconds => c.SetDuration seconds
  | CaptureOperation.SetFrequency seconds => c.SetFrequency seconds
  | CaptureOperation.Update timeStep => c.Update timeStep
  | CaptureOperation.QueueRender => c.QueueRender
  | CaptureOperation.HandleRenderSurfaceUpdate => c.HandleRenderSurfaceUpdate
  | CaptureOperation.HandleEndRendering readback => c.HandleEndRendering readback

/-- The capture after the operations of the list, in order. -/
def VisualTestCapture.applyAll (c : VisualTestCapture) (operations : List CaptureOperation) :
    VisualTestCapture :=
  operations.foldl VisualTestCapture.apply c

/-- The part of `Start` that follows the checks of the name and of the output path. -/
def VisualTest.startFromOutputDirectory (t1 : VisualTest) (ctx : Context) :
    VisualTest × Context :=
  let ensured := t1.EnsureOutputDirectoryExists ctx
  if !ensured.1 then t1.Fail ensured.2 "Couldn't create output directory"
  else
    let cleaned := t1.CleanOutputDirectory ensured.2
    if !cleaned.1 then t1.Fail cleaned.2 "Couldn't clean output directory"
    else
      match t1.sceneLoader_ with
      | none => t1.Fail cleaned.2 "No scene loader assigned for test"
      | some sceneLoader =>
        let result := sceneLoader t1.name_ t1.variables_
        let called := { t1 with calls := t1.calls ++ [TestCall.sceneLoader] }
        let loaded := VisualTest.applyLoaderFailures called cleaned.2 result.failures
        let t2 := { loaded.1 with scene_ := result.scene }
        if t2.IsFailed then (t2, loaded.2)
        else
          match t2.scene_ with
          | none => t2.Fail loaded.2 "No scene loaded"
          | some _ =>
            let t3 :=
              { t2 with
                subscribedCaptureFailed := true
                subscribedCaptureImageReady := true
                subscribedSceneUpdate := true
                subscribedEndFrame := true
                state_ := VisualTestState.Running }
            (t3.OnStartup, loaded.2)

namespace VisualTestCapture

/-- The state `x` has the timing parameters, the name, the image size and the camera of
the capture `c`. -/
def SameConfiguration (c x : VisualTestCapture) : Prop :=
  x.delay_ = c.delay_ ∧ x.duration_ = c.duration_ ∧ x.frequency_ = c.frequency_ ∧
    x.name_ = c.name_ ∧ x.imageSize_ = c.imageSize_ ∧ x.GetCamera = c.GetCamera

/-- Invariant of the render requests of a capture driven by frames of step `s`: no request
is outstanding, consecutive requests are `k` steps apart, and while the capture is not
done either nothing has been requested and the frame index is 0, or the frame index is
positive and the elapsed time is fewer than `k` steps past the last request. -/
def Cadence (s : ℚ) (k : ℕ) (x : VisualTestCapture) : Prop :=
  x.Idle ∧ List.Chain' (fun t1 t2 : ℚ => t2 - t1 = k * s) (renderRequests x.trace) ∧
    (x.IsDone = false →
      (renderRequests x.trace = [] ∧ x.frameNumber_ = 0) ∨
      (0 < x.frameNumber_ ∧ (renderRequests x.trace).getLast? = some x.timeLastCapture_ ∧
        x.delay_ ≤ x.timeElapsed_ ∧
        ∃ j : ℕ, j < k ∧ x.timeElapsed_ = x.timeLastCapture_ + j * s))

/-- Invariant of the progress of a valid capture after `n` frames of step `s`: no request
is outstanding, the capture has not failed, a Complete capture has stopped within the
bound, and a capture that is not done has the elapsed time `n * s` and either waits for
its delay at frame index 0 or is multi-frame, past its delay and before the end of its
duration at its last request, less than the frequency ago. -/
def Progress (s : ℚ) (n : ℕ) (x : VisualTestCapture) : Prop :=
  x.Idle ∧ x.state_ ≠ VisualTestCaptureState.Failed ∧
    (x.state_ = VisualTestCaptureState.Complete →
      x.timeElapsed_ ≤ x.delay_ + x.duration_ + x.frequency_ + s) ∧
    (x.IsDone = false →
      x.timeElapsed_ = n * s ∧
      ((x.frameNumber_ = 0 ∧ (x.timeElapsed_ < x.delay_ ∨ x.timeElapsed_ = 0)) ∨
        (0 < x.frameNumber_ ∧ 0 < x.duration_ ∧ x.delay_ ≤ x.timeElapsed_ ∧
          (x.timeElapsed_ - x.timeLastCapture_ < x.frequency_ ∨
            x.timeElapsed_ = x.timeLastCapture_) ∧
          x.timeLastCapture_ < x.delay_ + x.duration_)))

end VisualTestCapture

/-- A black image of 4097 x 4097 pixels. -/
def largeBlackImage : Image := ⟨4097, 4097, 1, 4, fun _ _ => Color.BLACK⟩

/-- The black image of 4097 x 4097 pixels with a red pixel at (0, 0). -/
def largeMarkedImage : Image :=
  ⟨4097, 4097, 1, 4, fun x y => if x = 0 ∧ y = 0 then Color.rgb 1 0 0 else Color.BLACK⟩

/-! ## Properties of the image comparison -/

section Compare
variable (sqrt : ℚ → ℚ) (options : VisualTestImageCompareOptions) (a b : Image)

theorem comparePixel_count (x y : ℕ) (st : CompareState) :
    (comparePixel sqrt options a b x y st).matchedPixelsCount =
      st.matchedPixelsCount + (if pixelMatch sqrt options a b x y then 1 else 0) := by
  unfold comparePixel pixelMatch
  by_cases hm : WithinTolerance sqrt (a.GetPixel x y) (b.GetPixel x y)
      options.pixelMatchTolerance_ = true
  · simp [hm]
  · cases hd : st.differenceImage_ <;> simp [hm, hd]

theorem compareColumn_count (h x : ℕ) (st : CompareState) :
    (compareColumn sqrt options a b h x st).matchedPixelsCount =
      st.matchedPixelsCount +
        ∑ y in Finset.range h, (if pixelMatch sqrt options a b x y then 1 else 0) := by
  induction h with
  | zero => simp [compareColumn]
  | succ n ih =>
    unfold compareColumn at ih ⊢
    rw [List.range_succ, List.foldl_append, List.foldl_cons, List.foldl_nil,
      comparePixel_count, ih, Finset.sum_range_succ, Nat.add_assoc]

theorem compareLoop_count (w h : ℕ) (st : CompareState) :
    (compareLoop sqrt options a b w h st).matchedPixelsCount =
      st.matchedPixelsCount +
        ∑ x in Finset.range w, ∑ y in Finset.range h,
          (if pixelMatch sqrt options a b x y then 1 else 0) := by
  induction w with
  | zero => simp [compareLoop]
  | succ n ih =>
    unfold compareLoop at ih ⊢
    rw [List.range_succ, List.foldl_append, List.foldl_cons, List.foldl_nil,
      compareColumn_count, ih, Finset.sum_range_succ, Nat.add_assoc]

/-- Number of coordinates of the `w × h` grid whose pixel pair matches. -/
theorem sum_match_eq_card (w h : ℕ) (p : ℕ → ℕ → Bool) :
    (∑ x in Finset.range w, ∑ y in Finset.range h, (if p x y then 1 else 0)) =
      ((Finset.range w ×ˢ Finset.range h).filter (fun c => p c.1 c.2 = true)).card := by
  rw [Finset.card_filter, Finset.sum_product]

theorem comparePixel_none (x y : ℕ) (st : CompareState) (hd : st.differenceImage_ = none) :
    (comparePixel sqrt options a b x y st).differenceImage_ = none := by
  unfold comparePixel
  by_cases hm : WithinTolerance sqrt (a.GetPixel x y) (b.GetPixel x y)
      options.pixelMatchTolerance_ = true
  · simp [hm, hd]
  · simp [hm, hd]

theorem compareColumn_none (h x : ℕ) (st : CompareState) (hd : st.differenceImage_ = none) :
    (compareColumn sqrt options a b h x st).differenceImage_ = none := by
  induction h with
  | zero => simpa [compareColumn] using hd
  | succ n ih =>
    unfold compareColumn at ih ⊢
    rw [List.range_succ, List.foldl_append, List.foldl_cons, List.foldl_nil]
    exact comparePixel_none sqrt options a b x n _ ih

theorem compareLoop_none (w h : ℕ) (st : CompareState) (hd : st.differenceImage_ = none) :
    (compareLoop sqrt options a b w h st).differenceImage_ = none := by
  induction w with
  | zero => simpa [compareLoop] using hd
  | succ n ih =>
    unfold compareLoop at ih ⊢
    rw [List.range_succ, List.foldl_append, List.foldl_cons, List.foldl_nil]
    exact compareColumn_none sqrt options a b h n _ ih

theorem comparePixel_some (sel : ℕ → ℕ → Prop) (d0 : Image) (x y : ℕ) (st : CompareState)
    (hd : DiffWritten sqrt options a b sel d0 st.differenceImage_) :
    DiffWritten sqrt options a b (fun x1 y1 => sel x1 y1 ∨ (x1 = x ∧ y1 = y)) d0
      (comparePixel sqrt options a b x y st).differenceImage_ := by
  obtain ⟨d1, h1, hw, hh, hp⟩ := hd
  unfold comparePixel
  by_cases hm : WithinTolerance sqrt (a.GetPixel x y) (b.GetPixel x y)
      options.pixelMatchTolerance_ = true
  · rw [if_pos hm]
    refine ⟨d1, h1, hw, hh, fun x1 y1 => ⟨?_, ?_⟩⟩
    · rintro ⟨hs | ⟨rfl, rfl⟩, hpm⟩
      · exact (hp x1 y1).1 ⟨hs, hpm⟩
      · simp [pixelMatch, hm] at hpm
    · intro hn
      exact (hp x1 y1).2 (fun hc => hn ⟨Or.inl hc.1, hc.2⟩)
  · rw [if_neg hm, h1]
    refine ⟨_, rfl, hw, hh, fun x1 y1 => ⟨?_, ?_⟩⟩
    · rintro ⟨hs, hpm⟩
      by_cases hxy : x1 = x ∧ y1 = y
      · obtain ⟨rfl, rfl⟩ := hxy
        simp [Image.SetPixel, pixelDifference]
      · simp only [Image.SetPixel, if_neg hxy]
        exact (hp x1 y1).1 ⟨hs.resolve_right hxy, hpm⟩
    · intro hn
      have hxy : ¬ (x1 = x ∧ y1 = y) := by
        rintro ⟨rfl, rfl⟩
        exact hn ⟨Or.inr ⟨rfl, rfl⟩, by simpa [pixelMatch] using hm⟩
      simp only [Image.SetPixel, if_neg hxy]
      exact (hp x1 y1).2 (fun hc => hn ⟨Or.inl hc.1, hc.2⟩)

theorem DiffWritten_congr {sel sel2 : ℕ → ℕ → Prop} (hsel : ∀ x y, sel x y ↔ sel2 x y)
    (d0 : Image) (r : Option Image) (hd : DiffWritten sqrt options a b sel d0 r) :
    DiffWritten sqrt options a b sel2 d0 r := by
  have : sel = sel2 := by
    funext x y
    exact propext (hsel x y)
  rw [← this]
  exact hd

theorem compareColumn_some (sel : ℕ → ℕ → Prop) (d0 : Image) (h x : ℕ) (st : CompareState)
    (hd : DiffWritten sqrt options a b sel d0 st.differenceImage_) :
    DiffWritten sqrt options a b (fun x1 y1 => sel x1 y1 ∨ (x1 = x ∧ y1 < h)) d0
      (compareColumn sqrt options a b h x st).differenceImage_ := by
  induction h with
  | zero =>
    refine DiffWritten_congr sqrt options a b ?_ d0 _ hd
    intro x1 y1
    simp
  | succ n ih =>
    unfold compareColumn at ih ⊢
    rw [List.range_succ, List.foldl_append, List.foldl_cons, List.foldl_nil]
    refine DiffWritten_congr sqrt options a b ?_ d0 _
      (comparePixel_some sqrt options a b _ d0 x n _ ih)
    intro x1 y1
    constructor
    · rintro ((hs | ⟨hx, hy⟩) | ⟨hx, hy⟩)
      · exact Or.inl hs
      · exact Or.inr ⟨hx, Nat.lt_succ_of_lt hy⟩
      · exact Or.inr ⟨hx, by omega⟩
    · rintro (hs | ⟨hx, hy⟩)
      · exact Or.inl (Or.inl hs)
      · rcases Nat.lt_succ_iff_lt_or_eq.mp hy with hlt | heq
        · exact Or.inl (Or.inr ⟨hx, hlt⟩)
        · exact Or.inr ⟨hx, heq⟩

theorem compareLoop_some (sel : ℕ → ℕ → Prop) (d0 : Image) (w h : ℕ) (st : CompareState)
    (hd : DiffWritten sqrt options a b sel d0 st.differenceImage_) :
    DiffWritten sqrt options a b (fun x1 y1 => sel x1 y1 ∨ (x1 < w ∧ y1 < h)) d0
      (compareLoop sqrt options a b w h st).differenceImage_ := by
  induction w with
  | zero =>
    refine DiffWritten_congr sqrt options a b ?_ d0 _ hd
    intro x1 y1
    simp
  | succ n ih =>
    unfold compareLoop at ih ⊢
    rw [List.range_succ, List.foldl_append, List.foldl_cons, List.foldl_nil]
    refine DiffWritten_congr sqrt options a b ?_ d0 _
      (compareColumn_some sqrt options a b _ d0 h n _ ih)
    intro x1 y1
    constructor
    · rintro ((hs | ⟨hx, hy⟩) | ⟨hx, hy⟩)
      · exact Or.inl hs
      · exact Or.inr ⟨Nat.lt_succ_of_lt hx, hy⟩
      · exact Or.inr ⟨by omega, hy⟩
    · rintro (hs | ⟨hx, hy⟩)
      · exact Or.inl (Or.inl hs)
      · rcases Nat.lt_succ_iff_lt_or_eq.mp hx with hlt | heq
        · exact Or.inl (Or.inr ⟨hlt, hy⟩)
        · exact Or.inr ⟨heq, hy⟩

end Compare

section CompareClaims
variable (sqrt : ℚ → ℚ) (options : VisualTestImageCompareOptions)

theorem CompareImages_of_size_eq (a b : Image) (hsize : a.GetSize = b.GetSize) :
    CompareImages sqrt options (some a) (some b) =
      (let st := compareLoop sqrt options a b a.width_ a.height_
        ⟨0, if options.enableDifferenceImage_ then
          some ((Image.new.SetSize a.width_ a.height_ a.GetComponents).Clear
            Color.TRANSPARENT_BLACK) else none⟩
      let pixelMatchPercent :=
        FloatVal.div (st.matchedPixelsCount : ℚ) ((a.width_ * a.height_ : ℕ) : ℚ)
      { pixelMatchPercent_ := pixelMatchPercent
        ssim_ := FloatVal.finite (if pixelMatchPercent.eqConst 1 then 1
          else ComputeSSIM a b (options.ssimBlockSize_ % 2 ^ 32).toNat)
        differenceImage_ := st.differenceImage_ }) := by
  simp [CompareImages, hsize, Image.GetWidth, Image.GetHeight]

theorem CompareImages_pixelMatchPercent (a b : Image) (hsize : a.GetSize = b.GetSize) :
    (CompareImages sqrt options (some a) (some b)).pixelMatchPercent_ =
      FloatVal.div
        (((Finset.range a.width_ ×ˢ Finset.range a.height_).filter
          (fun c => pixelMatch sqrt options a b c.1 c.2 = true)).card : ℚ)
        ((a.width_ * a.height_ : ℕ) : ℚ) := by
  rw [CompareImages_of_size_eq sqrt options a b hsize]
  simp only [compareLoop_count, Nat.zero_add, sum_match_eq_card]

theorem WithinTolerance_iff (pixelA pixelB : Color) (tolerance : ℚ) :
    WithinTolerance sqrt pixelA pixelB tolerance = true ↔
      (if tolerance = 0 then pixelA = pixelB
        else sqrt ((pixelA.r_ - pixelB.r_) * (pixelA.r_ - pixelB.r_) +
          (pixelA.g_ - pixelB.g_) * (pixelA.g_ - pixelB.g_) +
          (pixelA.b_ - pixelB.b_) * (pixelA.b_ - pixelB.b_) +
          (pixelA.a_ - pixelB.a_) * (pixelA.a_ - pixelB.a_)) < tolerance) := by
  unfold WithinTolerance
  by_cases h : tolerance = 0
  · simp [h]
  · simp [h, Vector4.Length, Vector4.sub, Color.ToVector4]

/-- For an image pair with at least one pixel the match fraction is the exact quotient. -/
theorem pixelMatchPercent_of_pos (a b : Image) (hsize : a.GetSize = b.GetSize)
    (hpos : 0 < a.width_ * a.height_) :
    (CompareImages sqrt options (some a) (some b)).pixelMatchPercent_ =
      FloatVal.finite
        ((((Finset.range a.width_ ×ˢ Finset.range a.height_).filter
          (fun c => pixelMatch sqrt options a b c.1 c.2 = true)).card : ℚ) /
          ((a.width_ * a.height_ : ℕ) : ℚ)) := by
  rw [CompareImages_pixelMatchPercent sqrt options a b hsize]
  have hne : ((a.width_ * a.height_ : ℕ) : ℚ) ≠ 0 := by
    exact_mod_cast hpos.ne'
  simp only [FloatVal.div, hne, if_false]

theorem card_grid (w h : ℕ) : (Finset.range w ×ˢ Finset.range h).card = w * h := by
  simp

/-- Identity on images with at least one pixel: every pixel matches itself. -/
theorem CompareImages_self_of_pos (img : Image) (hpos : 0 < img.width_ * img.height_)
    (htol : 0 ≤ options.pixelMatchTolerance_) (hsqrt : sqrt 0 = 0) :
    (CompareImages sqrt options (some img) (some img)).pixelMatchPercent_ = FloatVal.finite 1 ∧
      (CompareImages sqrt options (some img) (some img)).ssim_ = FloatVal.finite 1 := by
  have hall : ∀ x y, pixelMatch sqrt options img img x y = true := by
    intro x y
    rw [pixelMatch, WithinTolerance_iff]
    by_cases h0 : options.pixelMatchTolerance_ = 0
    · simp [h0]
    · simp only [h0, if_false, sub_self, mul_zero, add_zero, hsqrt]
      exact lt_of_le_of_ne htol (Ne.symm h0)
  have hpm : (CompareImages sqrt options (some img) (some img)).pixelMatchPercent_ =
      FloatVal.finite 1 := by
    rw [pixelMatchPercent_of_pos sqrt options img img rfl hpos]
    have hne : ((img.width_ * img.height_ : ℕ) : ℚ) ≠ 0 := by
      exact_mod_cast hpos.ne'
    simp only [hall, Finset.filter_True, card_grid]
    rw [div_self hne]
  refine ⟨hpm, ?_⟩
  have hs := congrArg VisualTestImageCompareResult.ssim_
    (CompareImages_of_size_eq sqrt options img img rfl)
  have hp := congrArg VisualTestImageCompareResult.pixelMatchPercent_
    (CompareImages_of_size_eq sqrt options img img rfl)
  simp only at hs hp
  rw [hs, ← hp, hpm]
  simp [FloatVal.eqConst]

/-- Claim C1 (identity), evaluated where the code departs from it: comparing a newly
constructed image, which has no pixels, with itself divides 0 by 0, so the match fraction
is NaN and not 1.0, whatever the options and tolerance. -/
theorem compare_identity_empty_image :
    (CompareImages sqrt options (some Image.new) (some Image.new)).pixelMatchPercent_ =
        FloatVal.nan ∧
      (CompareImages sqrt options (some Image.new) (some Image.new)).pixelMatchPercent_ ≠
        FloatVal.finite 1 := by
  have h : (CompareImages sqrt options (some Image.new) (some Image.new)).pixelMatchPercent_ =
      FloatVal.nan := by
    rw [CompareImages_pixelMatchPercent sqrt options Image.new Image.new rfl]
    simp [Image.new, FloatVal.div]
  rw [h]
  exact ⟨rfl, by decide⟩

/-- Claim C2: if either image is absent, or both are present and their sizes differ,
`CompareImages` returns the zero-valued result, match fraction 0, SSIM 0 and no difference
image, for every options value. -/
theorem compare_absent_or_mismatched (a b : Option Image)
    (h : a = none ∨ b = none ∨ ∃ x y, a = some x ∧ b = some y ∧ x.GetSize ≠ y.GetSize) :
    (CompareImages sqrt options a b).pixelMatchPercent_ = FloatVal.finite 0 ∧
      (CompareImages sqrt options a b).ssim_ = FloatVal.finite 0 ∧
      (CompareImages sqrt options a b).differenceImage_ = none := by
  rcases h with rfl | rfl | ⟨x, y, rfl, rfl, hne⟩
  · cases b <;> simp [CompareImages]
  · cases a <;> simp [CompareImages]
  · simp [CompareImages, hne]

/-- Witness of claim C2: a 0x0 image against a 1x1 image with the difference image
enabled. -/
theorem compare_absent_or_mismatched_witness :
    (Image.new.GetSize ≠ (Image.solid Color.BLACK).GetSize) ∧
      (CompareImages Rat.sqrt { enableDifferenceImage_ := true } (some Image.new)
          (some (Image.solid Color.BLACK))).pixelMatchPercent_ = FloatVal.finite 0 ∧
      (CompareImages Rat.sqrt { enableDifferenceImage_ := true } (some Image.new)
          (some (Image.solid Color.BLACK))).ssim_ = FloatVal.finite 0 ∧
      (CompareImages Rat.sqrt { enableDifferenceImage_ := true } (some Image.new)
          (some (Image.solid Color.BLACK))).differenceImage_ = none :=
  ⟨by decide, compare_absent_or_mismatched Rat.sqrt { enableDifferenceImage_ := true }
    (some Image.new) (some (Image.solid Color.BLACK))
    (Or.inr (Or.inr ⟨Image.new, Image.solid Color.BLACK, rfl, rfl, by decide⟩))⟩

/-- Claim C3, as amended: in exact arithmetic, for present images of equal size,
`pixelMatchPercent_` is the number of
coordinates of the `width x height` grid whose pixel pair matches, divided by
`width * height`; a pair matches iff the colours are equal when the tolerance is 0 and iff
the Euclidean length of the (r, g, b, a) difference is strictly below the tolerance
otherwise. With at least one pixel the quotient is the exact rational one, and a pair whose
distance equals a positive tolerance does not match. -/
theorem match_fraction (a b : Image) (hsize : a.GetSize = b.GetSize) :
    (CompareImages sqrt options (some a) (some b)).pixelMatchPercent_ =
        FloatVal.div
          (((Finset.range a.width_ ×ˢ Finset.range a.height_).filter
            (fun c =>
              if options.pixelMatchTolerance_ = 0 then a.GetPixel c.1 c.2 = b.GetPixel c.1 c.2
              else
                sqrt (((a.GetPixel c.1 c.2).r_ - (b.GetPixel c.1 c.2).r_) ^ 2 +
                  ((a.GetPixel c.1 c.2).g_ - (b.GetPixel c.1 c.2).g_) ^ 2 +
                  ((a.GetPixel c.1 c.2).b_ - (b.GetPixel c.1 c.2).b_) ^ 2 +
                  ((a.GetPixel c.1 c.2).a_ - (b.GetPixel c.1 c.2).a_) ^ 2) <
                  options.pixelMatchTolerance_)).card : ℚ)
          ((a.width_ * a.height_ : ℕ) : ℚ) ∧
      (0 < a.width_ * a.height_ →
        (CompareImages sqrt options (some a) (some b)).pixelMatchPercent_ =
          FloatVal.finite
            ((((Finset.range a.width_ ×ˢ Finset.range a.height_).filter
              (fun c => WithinTolerance sqrt (a.GetPixel c.1 c.2) (b.GetPixel c.1 c.2)
                options.pixelMatchTolerance_ = true)).card : ℚ) /
              ((a.width_ : ℚ) * (a.height_ : ℚ)))) ∧
      (∀ pixelA pixelB : Color, ∀ tolerance : ℚ, 0 < tolerance →
        (pixelA.ToVector4.sub pixelB.ToVector4).Length sqrt = tolerance →
        WithinTolerance sqrt pixelA pixelB tolerance = false) := by
  refine ⟨?_, ?_, ?_⟩
  · rw [CompareImages_pixelMatchPercent sqrt options a b hsize]
    congr 3
    apply Finset.filter_congr
    intro c _
    rw [pixelMatch, WithinTolerance_iff]
    simp only [pow_two]
  · intro hpos
    rw [CompareImages_pixelMatchPercent sqrt options a b hsize]
    have hne : ((a.width_ * a.height_ : ℕ) : ℚ) ≠ 0 := by
      exact_mod_cast hpos.ne'
    simp only [FloatVal.div, hne, if_false, pixelMatch]
    push_cast
    rfl
  · intro pixelA pixelB tolerance hpos hlen
    simp [WithinTolerance, hpos.ne', hlen]

/-- Witness of claim C3: a red and a black 1x1 image at tolerance 0.5 (their
distance is 1) have match fraction 0. -/
theorem match_fraction_witness :
    (Image.solid ⟨1, 0, 0, 1⟩).GetSize = (Image.solid ⟨0, 0, 0, 1⟩).GetSize ∧
      (CompareImages Rat.sqrt { pixelMatchTolerance_ := 1 / 2 } (some (Image.solid ⟨1, 0, 0, 1⟩))
        (some (Image.solid ⟨0, 0, 0, 1⟩))).pixelMatchPercent_ = FloatVal.finite 0 :=
  ⟨rfl, ((match_fraction Rat.sqrt { pixelMatchTolerance_ := 1 / 2 } (Image.solid ⟨1, 0, 0, 1⟩)
    (Image.solid ⟨0, 0, 0, 1⟩) rfl).2.1 (by decide)).trans (by decide!)⟩

/-- Total mismatch on images with at least one pixel. -/
theorem CompareImages_mismatch_of_pos (a b : Image) (hsize : a.GetSize = b.GetSize)
    (hpos : 0 < a.width_ * a.height_) (hsqrt : sqrt 0 = 0)
    (hfar : ∀ x y, x < a.width_ → y < a.height_ →
      options.pixelMatchTolerance_ <
        ((a.GetPixel x y).ToVector4.sub (b.GetPixel x y).ToVector4).Length sqrt) :
    (CompareImages sqrt options (some a) (some b)).pixelMatchPercent_ = FloatVal.finite 0 := by
  rw [pixelMatchPercent_of_pos sqrt options a b hsize hpos]
  have hnone : (Finset.range a.width_ ×ˢ Finset.range a.height_).filter
      (fun c => pixelMatch sqrt options a b c.1 c.2 = true) = ∅ := by
    apply Finset.filter_false_of_mem
    intro c hc
    rw [Finset.mem_product, Finset.mem_range, Finset.mem_range] at hc
    have hlt := hfar c.1 c.2 hc.1 hc.2
    rw [pixelMatch, WithinTolerance]
    by_cases h0 : options.pixelMatchTolerance_ = 0
    · have hne : a.GetPixel c.1 c.2 ≠ b.GetPixel c.1 c.2 := by
        intro heq
        rw [heq, h0] at hlt
        simp [Vector4.Length, Vector4.sub, hsqrt] at hlt
      simp [h0, hne]
    · simp [h0, not_lt.mpr hlt.le]
  rw [hnone]
  simp

/-- Claim C4 (total mismatch), evaluated where the code departs from it: for two newly
constructed images, which have no pixels, every pixel pair exceeds the tolerance
(vacuously), and the match fraction is NaN and not 0.0. -/
theorem compare_total_mismatch_empty_image :
    (∀ x y, x < Image.new.width_ → y < Image.new.height_ →
      options.pixelMatchTolerance_ <
        ((Image.new.GetPixel x y).ToVector4.sub
          (Image.new.GetPixel x y).ToVector4).Length sqrt) ∧
      (CompareImages sqrt options (some Image.new) (some Image.new)).pixelMatchPercent_ =
        FloatVal.nan ∧
      (CompareImages sqrt options (some Image.new) (some Image.new)).pixelMatchPercent_ ≠
        FloatVal.finite 0 := by
  have h : (CompareImages sqrt options (some Image.new) (some Image.new)).pixelMatchPercent_ =
      FloatVal.nan := by
    rw [CompareImages_pixelMatchPercent sqrt options Image.new Image.new rfl]
    simp [Image.new, FloatVal.div]
  rw [h]
  refine ⟨?_, rfl, by decide⟩
  intro x y hx
  simp [Image.new] at hx

/-- The match fraction of an image pair with at least one pixel lies in `[0, 1]`. -/
theorem pixelMatchPercent_inRange_of_pos (a b : Image) (hsize : a.GetSize = b.GetSize)
    (hpos : 0 < a.width_ * a.height_) :
    FloatVal.InRange (CompareImages sqrt options (some a) (some b)).pixelMatchPercent_ 0 1 := by
  rw [pixelMatchPercent_of_pos sqrt options a b hsize hpos]
  refine ⟨_, rfl, by positivity, ?_⟩
  have hle : ((Finset.range a.width_ ×ˢ Finset.range a.height_).filter
      (fun c => pixelMatch sqrt options a b c.1 c.2 = true)).card ≤ a.width_ * a.height_ := by
    calc _ ≤ (Finset.range a.width_ ×ˢ Finset.range a.height_).card := Finset.card_filter_le _ _
      _ = a.width_ * a.height_ := card_grid _ _
  have hposq : (0 : ℚ) < ((a.width_ * a.height_ : ℕ) : ℚ) := by exact_mod_cast hpos
  rw [div_le_one hposq]
  exact_mod_cast hle

/-- The stub SSIM makes the score 1 for every pair of present, equal-size images. -/
theorem CompareImages_ssim (a b : Image) (hsize : a.GetSize = b.GetSize) :
    (CompareImages sqrt options (some a) (some b)).ssim_ = FloatVal.finite 1 := by
  rw [CompareImages_of_size_eq sqrt options a b hsize]
  simp [ComputeSSIM]

/-- Claim C5 (range), evaluated where the code departs from it: for two newly constructed
images `width * height` is 0, the quotient is the division 0 / 0 and the match fraction is
not a number of the interval [0, 1]. -/
theorem compare_range_empty_image :
    ¬ FloatVal.InRange
      (CompareImages sqrt options (some Image.new) (some Image.new)).pixelMatchPercent_ 0 1 := by
  have h : (CompareImages sqrt options (some Image.new) (some Image.new)).pixelMatchPercent_ =
      FloatVal.nan := by
    rw [CompareImages_pixelMatchPercent sqrt options Image.new Image.new rfl]
    simp [Image.new, FloatVal.div]
  rw [h]
  rintro ⟨q, hq, _⟩
  cases hq

/-- Claim C6: for present images of equal size, with the difference image enabled the
result carries an image of the width and height of the inputs whose pixel is (0, 0, 0, 0)
at every matching coordinate and the grey `(v, v, v)`, `v` half the Euclidean length of the
colour difference, at every other coordinate; with it disabled the result carries no
difference image. -/
theorem difference_image (a b : Image) (hsize : a.GetSize = b.GetSize) :
    (options.enableDifferenceImage_ = true →
      ∃ d : Image,
        (CompareImages sqrt options (some a) (some b)).differenceImage_ = some d ∧
        d.GetWidth = a.GetWidth ∧ d.GetHeight = a.GetHeight ∧
        ∀ x y, x < a.GetWidth → y < a.GetHeight →
          (WithinTolerance sqrt (a.GetPixel x y) (b.GetPixel x y)
              options.pixelMatchTolerance_ = true →
            d.GetPixel x y = ⟨0, 0, 0, 0⟩) ∧
          (WithinTolerance sqrt (a.GetPixel x y) (b.GetPixel x y)
              options.pixelMatchTolerance_ = false →
            (d.GetPixel x y).r_ =
                ((a.GetPixel x y).ToVector4.sub (b.GetPixel x y).ToVector4).Length sqrt / 2 ∧
              (d.GetPixel x y).g_ =
                ((a.GetPixel x y).ToVector4.sub (b.GetPixel x y).ToVector4).Length sqrt / 2 ∧
              (d.GetPixel x y).b_ =
                ((a.GetPixel x y).ToVector4.sub (b.GetPixel x y).ToVector4).Length sqrt / 2)) ∧
      (options.enableDifferenceImage_ = false →
        (CompareImages sqrt options (some a) (some b)).differenceImage_ = none) := by
  constructor
  · intro hen
    have hd := congrArg VisualTestImageCompareResult.differenceImage_
      (CompareImages_of_size_eq sqrt options a b hsize)
    simp only [hen, if_true] at hd
    have h0 : DiffWritten sqrt options a b (fun _ _ => False)
        ((Image.new.SetSize a.width_ a.height_ a.GetComponents).Clear Color.TRANSPARENT_BLACK)
        (some ((Image.new.SetSize a.width_ a.height_ a.GetComponents).Clear
          Color.TRANSPARENT_BLACK)) :=
      ⟨_, rfl, rfl, rfl, fun x y => ⟨fun h => absurd h.1 id, fun _ => rfl⟩⟩
    obtain ⟨d, hd1, hdw, hdh, hdp⟩ := compareLoop_some sqrt options a b _ _ a.width_ a.height_
      ⟨0, some ((Image.new.SetSize a.width_ a.height_ a.GetComponents).Clear
          Color.TRANSPARENT_BLACK)⟩ h0
    refine ⟨d, hd.trans hd1, hdw, hdh, fun x y hx hy => ⟨fun hm => ?_, fun hm => ?_⟩⟩
    · have := (hdp x y).2 (by
        rintro ⟨_, hpm⟩
        rw [pixelMatch, hm] at hpm
        exact absurd hpm (by decide))
      rw [Image.GetPixel, this]
      rfl
    · have := (hdp x y).1 ⟨Or.inr ⟨hx, hy⟩, hm⟩
      rw [Image.GetPixel, this]
      exact ⟨rfl, rfl, rfl⟩
  · intro hen
    have hd := congrArg VisualTestImageCompareResult.differenceImage_
      (CompareImages_of_size_eq sqrt options a b hsize)
    simp only [hen] at hd
    rw [hd]
    exact compareLoop_none sqrt options a b _ _ _ rfl

/-- Witness of claim C6: for a red and a black 1x1 image at tolerance 0.5 the
difference image is 1x1 and its pixel is the grey 0.5, half of the distance 1. -/
theorem difference_image_witness :
    (Image.solid ⟨1, 0, 0, 1⟩).GetSize = (Image.solid ⟨0, 0, 0, 1⟩).GetSize ∧
      ∃ d : Image,
        (CompareImages Rat.sqrt { enableDifferenceImage_ := true, pixelMatchTolerance_ := 1 / 2 }
          (some (Image.solid ⟨1, 0, 0, 1⟩))
          (some (Image.solid ⟨0, 0, 0, 1⟩))).differenceImage_ = some d ∧
        d.GetWidth = 1 ∧ d.GetHeight = 1 ∧ (d.GetPixel 0 0).r_ = 1 / 2 := by
  obtain ⟨d, hd, hw, hh, hp⟩ := (difference_image Rat.sqrt
    { enableDifferenceImage_ := true, pixelMatchTolerance_ := 1 / 2 }
    (Image.solid ⟨1, 0, 0, 1⟩) (Image.solid ⟨0, 0, 0, 1⟩) rfl).1 rfl
  refine ⟨rfl, d, hd, hw, hh, ?_⟩
  rw [((hp 0 0 (by decide) (by decide)).2 (by decide!)).1]
  decide!

end CompareClaims

section CompareRelations
variable (sqrt : ℚ → ℚ) (options : VisualTestImageCompareOptions)

theorem Length_sub_comm (u v : Vector4) : (u.sub v).Length sqrt = (v.sub u).Length sqrt := by
  simp only [Vector4.Length, Vector4.sub]
  congr 1
  ring

theorem WithinTolerance_comm (pixelA pixelB : Color) (tolerance : ℚ) :
    WithinTolerance sqrt pixelA pixelB tolerance = WithinTolerance sqrt pixelB pixelA tolerance := by
  unfold WithinTolerance
  by_cases h : tolerance = 0
  · simp only [h, if_true]
    exact decide_eq_decide.mpr eq_comm
  · simp only [h, if_false]
    rw [Length_sub_comm]

theorem pixelMatch_comm (a b : Image) (x y : ℕ) :
    pixelMatch sqrt options a b x y = pixelMatch sqrt options b a x y :=
  WithinTolerance_comm sqrt _ _ _

theorem pixelDifference_comm (a b : Image) (x y : ℕ) :
    pixelDifference sqrt a b x y = pixelDifference sqrt b a x y := by
  simp only [pixelDifference, GetDifferenceImageColor]
  rw [Length_sub_comm]

/-- The pixels of the difference image of two images of equal size. -/
theorem differenceImage_pixels (a b : Image) (hsize : a.GetSize = b.GetSize) (d : Image)
    (hd : (CompareImages sqrt options (some a) (some b)).differenceImage_ = some d)
    (x y : ℕ) :
    d.GetPixel x y =
      if (x < a.width_ ∧ y < a.height_) ∧ pixelMatch sqrt options a b x y = false then
        pixelDifference sqrt a b x y
      else Color.TRANSPARENT_BLACK := by
  rw [CompareImages_of_size_eq sqrt options a b hsize] at hd
  simp only at hd
  by_cases he : options.enableDifferenceImage_ = true
  · simp only [he, if_true] at hd
    have h0 : DiffWritten sqrt options a b (fun _ _ => False)
        ((Image.new.SetSize a.width_ a.height_ a.GetComponents).Clear Color.TRANSPARENT_BLACK)
        (CompareState.mk 0 (some ((Image.new.SetSize a.width_ a.height_ a.GetComponents).Clear
          Color.TRANSPARENT_BLACK))).differenceImage_ :=
      ⟨_, rfl, rfl, rfl, fun x1 y1 => ⟨fun h => absurd h.1 id, fun _ => rfl⟩⟩
    obtain ⟨d1, h1, _, _, hp⟩ := compareLoop_some sqrt options a b _ _ a.width_ a.height_ _ h0
    rw [hd] at h1
    cases h1
    by_cases hc : (x < a.width_ ∧ y < a.height_) ∧ pixelMatch sqrt options a b x y = false
    · rw [if_pos hc]
      exact (hp x y).1 ⟨Or.inr hc.1, hc.2⟩
    · rw [if_neg hc]
      have := (hp x y).2 (fun h => hc ⟨h.1.resolve_left id, h.2⟩)
      simpa [Image.GetPixel, Image.Clear] using this
  · simp only [he, if_false] at hd
    have hn := compareLoop_none sqrt options a b a.width_ a.height_ ⟨0, none⟩ rfl
    simp only [Bool.false_eq_true, if_false] at hd
    rw [hn] at hd
    cases hd

theorem GetSize_eq (a b : Image) (hsize : a.GetSize = b.GetSize) :
    a.width_ = b.width_ ∧ a.height_ = b.height_ := by
  simp only [Image.GetSize, Prod.mk.injEq] at hsize
  exact ⟨hsize.1, hsize.2.1⟩

/-- Claim C33: for present images of equal size the `ssim_` of the result is 1, and the
result of `CompareImages` on any two image pointers stays the same when only the options
`enableSSIM_` and `ssimBlockSize_` are changed. -/
theorem ssim_constant (a b : Image) (hsize : a.GetSize = b.GetSize) :
    (CompareImages sqrt options (some a) (some b)).ssim_ = FloatVal.finite 1 ∧
      ∀ (enableSSIM : Bool) (ssimBlockSize : ℤ) (image1 image2 : Option Image),
        CompareImages sqrt
            { options with enableSSIM_ := enableSSIM, ssimBlockSize_ := ssimBlockSize }
            image1 image2 =
          CompareImages sqrt options image1 image2 := by
  refine ⟨CompareImages_ssim sqrt options a b hsize, fun enableSSIM ssimBlockSize image1 image2 => ?_⟩
  cases image1 with
  | none => rfl
  | some i1 =>
    cases image2 with
    | none => rfl
    | some i2 =>
      by_cases hs : i1.GetSize = i2.GetSize
      · rw [CompareImages_of_size_eq sqrt _ i1 i2 hs, CompareImages_of_size_eq sqrt _ i1 i2 hs]
        simp only [ComputeSSIM]
        rfl
      · simp [CompareImages, hs]

/-- Witness of claim C33: two 1x1 images of different colours have match fraction 0 and
`ssim_` 1, with SSIM enabled or not. -/
theorem ssim_constant_witness :
    (CompareImages Rat.sqrt {} (some (Image.solid Color.BLACK))
        (some (Image.solid (Color.rgb 1 0 0)))).pixelMatchPercent_ = FloatVal.finite 0 ∧
      (CompareImages Rat.sqrt {} (some (Image.solid Color.BLACK))
        (some (Image.solid (Color.rgb 1 0 0)))).ssim_ = FloatVal.finite 1 ∧
      (CompareImages Rat.sqrt { enableSSIM_ := false, ssimBlockSize_ := 2 }
        (some (Image.solid Color.BLACK)) (some (Image.solid (Color.rgb 1 0 0)))).ssim_ =
          FloatVal.finite 1 := by
  have h := ssim_constant Rat.sqrt {} (Image.solid Color.BLACK) (Image.solid (Color.rgb 1 0 0))
    rfl
  have h2 := congrArg VisualTestImageCompareResult.ssim_
    (h.2 false 2 (some (Image.solid Color.BLACK)) (some (Image.solid (Color.rgb 1 0 0))))
  exact ⟨by decide!, h.1, h2.trans h.1⟩

/-- Claim C34: `CompareImages(options, a, b)` and `CompareImages(options, b, a)` return the
same match fraction and the same `ssim_`; one produces a difference image exactly when
the other does, and the two difference images have equal pixels at every coordinate. -/
theorem compare_symmetric (a b : Option Image) :
    (CompareImages sqrt options a b).pixelMatchPercent_ =
        (CompareImages sqrt options b a).pixelMatchPercent_ ∧
      (CompareImages sqrt options a b).ssim_ = (CompareImages sqrt options b a).ssim_ ∧
      (CompareImages sqrt options a b).differenceImage_.isSome =
        (CompareImages sqrt options b a).differenceImage_.isSome ∧
      ∀ d1 d2 : Image, (CompareImages sqrt options a b).differenceImage_ = some d1 →
        (CompareImages sqrt options b a).differenceImage_ = some d2 →
        ∀ x y : ℕ, d1.GetPixel x y = d2.GetPixel x y := by
  cases a with
  | none => cases b <;> simp [CompareImages]
  | some a =>
    cases b with
    | none => simp [CompareImages]
    | some b =>
      by_cases hsize : a.GetSize = b.GetSize
      · have hsize2 : b.GetSize = a.GetSize := hsize.symm
        obtain ⟨hw, hh⟩ := GetSize_eq a b hsize
        refine ⟨?_, ?_, ?_, ?_⟩
        · rw [CompareImages_pixelMatchPercent sqrt options a b hsize,
            CompareImages_pixelMatchPercent sqrt options b a hsize2, hw, hh]
          simp only [pixelMatch_comm sqrt options a b]
        · rw [CompareImages_ssim sqrt options a b hsize,
            CompareImages_ssim sqrt options b a hsize2]
        · rw [CompareImages_of_size_eq sqrt options a b hsize,
            CompareImages_of_size_eq sqrt options b a hsize2]
          simp only
          by_cases he : options.enableDifferenceImage_ = true
          · simp only [he, if_true]
            have h0 : ∀ (p q : Image) (d0 : Image),
                DiffWritten sqrt options p q (fun _ _ => False) d0
                  (CompareState.mk 0 (some d0)).differenceImage_ := fun p q d0 =>
              ⟨_, rfl, rfl, rfl, fun x1 y1 => ⟨fun h => absurd h.1 id, fun _ => rfl⟩⟩
            obtain ⟨d1, h1, _⟩ := compareLoop_some sqrt options a b _ _ a.width_ a.height_ _
              (h0 a b ((Image.new.SetSize a.width_ a.height_ a.GetComponents).Clear
                Color.TRANSPARENT_BLACK))
            obtain ⟨d2, h2, _⟩ := compareLoop_some sqrt options b a _ _ b.width_ b.height_ _
              (h0 b a ((Image.new.SetSize b.width_ b.height_ b.GetComponents).Clear
                Color.TRANSPARENT_BLACK))
            rw [h1, h2]
            rfl
          · simp only [he, if_false, Bool.false_eq_true]
            rw [compareLoop_none sqrt options a b a.width_ a.height_ ⟨0, none⟩ rfl,
              compareLoop_none sqrt options b a b.width_ b.height_ ⟨0, none⟩ rfl]
        · intro d1 d2 h1 h2 x y
          rw [differenceImage_pixels sqrt options a b hsize d1 h1 x y,
            differenceImage_pixels sqrt options b a hsize2 d2 h2 x y, hw, hh,
            pixelMatch_comm sqrt options a b, pixelDifference_comm sqrt a b]
      · have hsize2 : ¬ b.GetSize = a.GetSize := fun h => hsize h.symm
        simp [CompareImages, hsize, hsize2]

/-- The pixel pairs that match under a tolerance match under every larger one. -/
theorem pixelMatch_mono (a b : Image) (t1 t2 : ℚ) (ht1 : 0 ≤ t1) (ht : t1 ≤ t2)
    (hsqrt : sqrt 0 = 0) (x y : ℕ)
    (hm : pixelMatch sqrt { options with pixelMatchTolerance_ := t1 } a b x y = true) :
    pixelMatch sqrt { options with pixelMatchTolerance_ := t2 } a b x y = true := by
  rw [pixelMatch, WithinTolerance_iff] at hm ⊢
  simp only at hm ⊢
  by_cases h1 : t1 = 0
  · rw [if_pos h1] at hm
    by_cases h2 : t2 = 0
    · rw [if_pos h2]
      exact hm
    · rw [if_neg h2, hm]
      simp only [sub_self, mul_zero, add_zero, hsqrt]
      exact lt_of_le_of_ne (h1 ▸ ht) (Ne.symm h2)
  · have h2 : t2 ≠ 0 := fun h => h1 (le_antisymm (h ▸ ht) ht1)
    rw [if_neg h1] at hm
    rw [if_neg h2]
    exact lt_of_lt_of_le hm ht

/-- Claim C35: for present images of equal size with at least one pixel and tolerances
`0 ≤ t1 ≤ t2`, the match fraction computed with `t1` is at most the match fraction
computed with `t2`; `sqrt` is a square root function with `sqrt 0 = 0`. -/
theorem match_fraction_monotone (a b : Image) (t1 t2 : ℚ) (hsize : a.GetSize = b.GetSize)
    (hpos : 0 < a.width_ * a.height_) (ht1 : 0 ≤ t1) (ht : t1 ≤ t2) (hsqrt : sqrt 0 = 0) :
    ∃ q1 q2 : ℚ,
      (CompareImages sqrt { options with pixelMatchTolerance_ := t1 }
        (some a) (some b)).pixelMatchPercent_ = FloatVal.finite q1 ∧
      (CompareImages sqrt { options with pixelMatchTolerance_ := t2 }
        (some a) (some b)).pixelMatchPercent_ = FloatVal.finite q2 ∧
      q1 ≤ q2 := by
  refine ⟨_, _, pixelMatchPercent_of_pos sqrt _ a b hsize hpos,
    pixelMatchPercent_of_pos sqrt _ a b hsize hpos, ?_⟩
  have hden : (0 : ℚ) < ((a.width_ * a.height_ : ℕ) : ℚ) := by exact_mod_cast hpos
  apply div_le_div_of_nonneg_right _ hden.le
  have hsub : (Finset.range a.width_ ×ˢ Finset.range a.height_).filter
      (fun c => pixelMatch sqrt { options with pixelMatchTolerance_ := t1 } a b c.1 c.2 = true) ⊆
      (Finset.range a.width_ ×ˢ Finset.range a.height_).filter
      (fun c => pixelMatch sqrt { options with pixelMatchTolerance_ := t2 } a b c.1 c.2 = true) := by
    intro c hc
    rw [Finset.mem_filter] at hc ⊢
    exact ⟨hc.1, pixelMatch_mono sqrt options a b t1 t2 ht1 ht hsqrt c.1 c.2 hc.2⟩
  exact_mod_cast Finset.card_le_card hsub

/-- Witness of claim C35: a black and a dark grey 1x1 image do not match exactly (match
fraction 0) and match under the tolerance 1 (match fraction 1). -/
theorem match_fraction_monotone_witness :
    ∃ q1 q2 : ℚ,
      (CompareImages Rat.sqrt { pixelMatchTolerance_ := 0 } (some (Image.solid Color.BLACK))
        (some (Image.solid (Color.rgb (1 / 10) (1 / 10) (1 / 10))))).pixelMatchPercent_ =
          FloatVal.finite q1 ∧
      (CompareImages Rat.sqrt { pixelMatchTolerance_ := 1 } (some (Image.solid Color.BLACK))
        (some (Image.solid (Color.rgb (1 / 10) (1 / 10) (1 / 10))))).pixelMatchPercent_ =
          FloatVal.finite q2 ∧
      q1 ≤ q2 :=
  match_fraction_monotone Rat.sqrt {} (Image.solid Color.BLACK)
    (Image.solid (Color.rgb (1 / 10) (1 / 10) (1 / 10))) 0 1 rfl (by decide) (by decide!)
    (by decide!) (by decide!)

end CompareRelations

section Float32

theorem floatUlp_nat (fuel : ℕ) :
    ∀ (a : ℕ) (u : ℚ), 0 < a → a < 2 ^ 24 → 2 ^ 23 ≤ a * 2 ^ fuel →
      ∃ j : ℕ, floatUlp fuel (a : ℚ) u = u / 2 ^ j ∧ 2 ^ 23 ≤ a * 2 ^ j ∧
        a * 2 ^ j < 2 ^ 24 := by
  induction fuel with
  | zero =>
    intro a u _ h2 h3
    exact ⟨0, by simp [floatUlp], h3, by simpa using h2⟩
  | succ n ih =>
    intro a u h1 h2 h3
    by_cases hlt : a < 2 ^ 23
    · have hq : (a : ℚ) < 2 ^ 23 := by exact_mod_cast hlt
      have e : ∀ m : ℕ, a * 2 * 2 ^ m = a * 2 ^ (m + 1) := by
        intro m
        rw [pow_succ]
        ring
      obtain ⟨j, hj1, hj2, hj3⟩ := ih (a * 2) (u / 2) (by omega) (by omega)
        (by rw [e]; exact h3)
      refine ⟨j + 1, ?_, ?_, ?_⟩
      · rw [floatUlp, if_pos hq]
        have hc : (a : ℚ) * 2 = ((a * 2 : ℕ) : ℚ) := by push_cast; ring
        rw [hc, hj1, pow_succ, div_div]
        congr 1
        ring
      · rw [← e]
        exact hj2
      · rw [← e]
        exact hj3
    · have hq : ¬ (a : ℚ) < 2 ^ 23 := by
        intro h
        exact hlt (by exact_mod_cast h)
      have hq2 : ¬ (2 : ℚ) ^ 24 ≤ (a : ℚ) := by
        intro h
        have : 2 ^ 24 ≤ a := by exact_mod_cast h
        omega
      refine ⟨0, ?_, by simpa using not_lt.mp hlt, by simpa using h2⟩
      rw [floatUlp, if_neg hq, if_neg hq2]
      simp

theorem roundHalfEven_intCast (n : ℤ) : roundHalfEven (n : ℚ) = n := by
  have hf : Rat.floor (n : ℚ) = n := by
    rw [Rat.floor_def']
    simp
  simp only [roundHalfEven, hf, sub_self]
  norm_num

/-- A positive integer below 2^24 is a `float`. -/
theorem roundFloat32_nat (a : ℕ) (h1 : 0 < a) (h2 : a < 2 ^ 24) :
    roundFloat32 (a : ℚ) = a := by
  have hpos : (0 : ℚ) < a := by exact_mod_cast h1
  obtain ⟨j, hj, _, _⟩ := floatUlp_nat 300 a 1 h1 h2
    (le_trans (by norm_num) (Nat.mul_le_mul h1 (le_refl _)))
  have hdiv : |(a : ℚ)| / (1 / 2 ^ j) = ((a * 2 ^ j : ℕ) : ℤ) := by
    rw [abs_of_pos hpos]
    push_cast
    field_simp
  simp only [roundFloat32, hpos.ne', if_false, not_lt.mpr hpos.le, abs_of_pos hpos] at hj ⊢
  rw [hj, ← abs_of_pos hpos, hdiv, roundHalfEven_intCast]
  push_cast
  field_simp

end Float32

section CompareFloat32

theorem CompareImagesFloat32_pixelMatchPercent (sqrt : ℚ → ℚ)
    (options : VisualTestImageCompareOptions) (a b : Image) (hsize : a.GetSize = b.GetSize) :
    (CompareImagesFloat32 sqrt options (some a) (some b)).pixelMatchPercent_ =
      FloatVal.divFloat32
        (((Finset.range a.width_ ×ˢ Finset.range a.height_).filter
          (fun c => pixelMatch sqrt options a b c.1 c.2 = true)).card : ℚ)
        ((a.width_ * a.height_ : ℕ) : ℚ) := by
  simp only [CompareImagesFloat32, hsize, Image.GetWidth, Image.GetHeight, ne_eq,
    not_true_eq_false, if_false, compareLoop_count, Nat.zero_add, sum_match_eq_card]

/-- The pixel pairs of the two large images that match exactly are all but the one at
(0, 0). -/
theorem largeImages_matching :
    ((Finset.range 4097 ×ˢ Finset.range 4097).filter
      (fun c => pixelMatch Rat.sqrt {} largeBlackImage largeMarkedImage c.1 c.2 = true)).card =
      16785408 := by
  have hne : Color.BLACK ≠ Color.rgb 1 0 0 := by decide
  have hfilter : (Finset.range 4097 ×ˢ Finset.range 4097).filter
      (fun c => pixelMatch Rat.sqrt {} largeBlackImage largeMarkedImage c.1 c.2 = true) =
      (Finset.range 4097 ×ˢ Finset.range 4097).erase (0, 0) := by
    ext c
    rw [Finset.mem_filter, Finset.mem_erase]
    have hm : pixelMatch Rat.sqrt {} largeBlackImage largeMarkedImage c.1 c.2 = true ↔
        c ≠ (0, 0) := by
      rw [pixelMatch, WithinTolerance_iff]
      simp only [if_true, Image.GetPixel, largeBlackImage, largeMarkedImage]
      by_cases h0 : c.1 = 0 ∧ c.2 = 0
      · rw [if_pos h0]
        constructor
        · intro h
          exact absurd h hne
        · intro h
          exact absurd (Prod.ext h0.1 h0.2) h
      · rw [if_neg h0]
        constructor
        · intro _ h
          rw [h] at h0
          exact h0 ⟨rfl, rfl⟩
        · intro _
          rfl
    rw [hm]
    exact and_comm
  rw [hfilter, Finset.card_erase_of_mem, card_grid]
  rw [Finset.mem_product]
  exact ⟨Finset.mem_range.mpr (by norm_num), Finset.mem_range.mpr (by norm_num)⟩

/-- Counterexample to claim C3 as stated: two present images of 4097 x 4097 pixels differ
in exactly one pixel, so 16785408 of their 16785409 pixel pairs match exactly and the
fraction of the claim is below 1; the code converts both counts to `float`, where
16785409 becomes 16785408, and returns the match fraction 1.0. -/
theorem match_fraction_counterexample :
    largeBlackImage.GetSize = largeMarkedImage.GetSize ∧
      ((Finset.range largeBlackImage.width_ ×ˢ Finset.range largeBlackImage.height_).filter
        (fun c => largeBlackImage.GetPixel c.1 c.2 = largeMarkedImage.GetPixel c.1 c.2)).card =
        16785408 ∧
      largeBlackImage.width_ * largeBlackImage.height_ = 16785409 ∧
      (16785408 : ℚ) / 16785409 ≠ 1 ∧
      (CompareImagesFloat32 Rat.sqrt {} (some largeBlackImage)
        (some largeMarkedImage)).pixelMatchPercent_ = FloatVal.finite 1 := by
  have hcard := largeImages_matching
  refine ⟨rfl, ?_, rfl, by norm_num, ?_⟩
  · have hpred : ∀ c : ℕ × ℕ,
        pixelMatch Rat.sqrt {} largeBlackImage largeMarkedImage c.1 c.2 = true ↔
          largeBlackImage.GetPixel c.1 c.2 = largeMarkedImage.GetPixel c.1 c.2 := by
      intro c
      rw [pixelMatch, WithinTolerance_iff]
      simp
    rw [← hcard]
    exact congrArg Finset.card (Finset.filter_congr (fun c _ => (hpred c).symm))
  · rw [CompareImagesFloat32_pixelMatchPercent Rat.sqrt {} largeBlackImage largeMarkedImage rfl]
    have h1 : largeBlackImage.width_ = 4097 := rfl
    have h2 : largeBlackImage.height_ = 4097 := rfl
    rw [h1, h2, hcard]
    have e1 : ((16785408 : ℕ) : ℚ) = 16785408 := by norm_num
    have e2 : ((4097 * 4097 : ℕ) : ℚ) = 16785409 := by norm_num
    rw [e1, e2]
    decide!

end CompareFloat32

/-! ## Properties of the capture scheduler -/

namespace VisualTestCapture

/-- Claim C7, as amended: for every non-terminal capture, `Update(timeStep)` adds
`timeStep` to the elapsed time; if the new elapsed time is below the delay nothing else
changes; otherwise a render is requested (the capture subscribes to the render-surface
update and sets `timeLastCapture` to the elapsed time) unless `duration > 0`, the frame
index is positive and `elapsed - timeLastCapture < frequency`, in which case nothing else
changes. -/
theorem update_schedule (c : VisualTestCapture) (timeStep : ℚ) (hdone : c.IsDone = false) :
    (c.Update timeStep).timeElapsed_ = c.timeElapsed_ + timeStep ∧
      (c.timeElapsed_ + timeStep < c.delay_ →
        c.Update timeStep = { c with timeElapsed_ := c.timeElapsed_ + timeStep }) ∧
      (c.delay_ ≤ c.timeElapsed_ + timeStep →
        (¬ (c.duration_ > 0 ∧ c.frameNumber_ > 0 ∧
            c.timeElapsed_ + timeStep - c.timeLastCapture_ < c.frequency_) →
          c.Update timeStep =
            { c with
              timeElapsed_ := c.timeElapsed_ + timeStep
              timeLastCapture_ := c.timeElapsed_ + timeStep
              subscribedRenderSurfaceUpdate := true
              trace := c.trace ++ [CaptureEvent.renderRequested (c.timeElapsed_ + timeStep)] }) ∧
        ((c.duration_ > 0 ∧ c.frameNumber_ > 0 ∧
            c.timeElapsed_ + timeStep - c.timeLastCapture_ < c.frequency_) →
          c.Update timeStep = { c with timeElapsed_ := c.timeElapsed_ + timeStep })) := by
  refine ⟨?_, ?_, ?_⟩
  · unfold Update
    rw [hdone]
    simp only [Bool.false_eq_true, if_false]
    split
    · rfl
    · split <;> rfl
  · intro hlt
    simp [Update, hdone, hlt]
  · intro hge
    constructor
    · intro hq
      have hq2 : VisualTestCapture.queueForRender
          { c with timeElapsed_ := c.timeElapsed_ + timeStep } = true := by
        unfold queueForRender
        by_cases q1 : c.duration_ > 0 ∧ c.frameNumber_ > 0
        · have q3 : ¬ (c.timeElapsed_ + timeStep - c.timeLastCapture_ < c.frequency_) :=
            fun h => hq ⟨q1.1, q1.2, h⟩
          simp [q1, q3]
        · simp [q1]
      simp [Update, hdone, not_lt.mpr hge, hq2]
    · rintro ⟨q1, q2, q3⟩
      simp [Update, hdone, not_lt.mpr hge, queueForRender, q1, q2, q3]

/-- Witness of claim C7: a pending single-frame capture without delay requests a
render on its first tick. -/
theorem update_schedule_witness :
    (singleFrameCapture 0).IsDone = false ∧
      renderRequests ((singleFrameCapture 0).Update 1).trace = [1] ∧
      ((singleFrameCapture 0).Update 1).timeLastCapture_ = 1 := by
  have h := ((update_schedule (singleFrameCapture 0) 1 (by decide)).2.2 (by decide!)).1
    (by decide!)
  rw [h]
  exact ⟨by decide, by decide!, by decide!⟩

/-- Counterexample to claim C7 as stated: a single-frame capture (duration 0, delay 0)
whose first render was requested and queued on the previous tick, at elapsed time 1, and
has not been read back is non-terminal and already past its delay; `Update` requests a
second render on this later tick. -/
theorem update_schedule_counterexample :
    queuedSingleFrameCapture.IsDone = false ∧
      queuedSingleFrameCapture.duration_ = 0 ∧
      queuedSingleFrameCapture.delay_ ≤ queuedSingleFrameCapture.timeElapsed_ ∧
      renderRequests queuedSingleFrameCapture.trace = [1] ∧
      renderRequests (queuedSingleFrameCapture.Update 1).trace = [1, 2] := by
  decide!

theorem frame_of_done (image : Image) (s : ℚ) (c : VisualTestCapture)
    (hdone : c.IsDone = true) (hidle : c.Idle) : frame image s c = c := by
  obtain ⟨h1, h2⟩ := hidle
  simp [frame, Update, hdone, h1, h2]

theorem frame_of_waiting (image : Image) (s : ℚ) (c : VisualTestCapture)
    (hdone : c.IsDone = false) (hidle : c.Idle) (hlt : c.timeElapsed_ + s < c.delay_) :
    frame image s c = { c with timeElapsed_ := c.timeElapsed_ + s } := by
  obtain ⟨h1, h2⟩ := hidle
  simp [frame, Update, hdone, h1, h2, hlt]

theorem frame_of_skip (image : Image) (s : ℚ) (c : VisualTestCapture)
    (hdone : c.IsDone = false) (hidle : c.Idle) (hge : c.delay_ ≤ c.timeElapsed_ + s)
    (hq : c.duration_ > 0 ∧ c.frameNumber_ > 0 ∧
      c.timeElapsed_ + s - c.timeLastCapture_ < c.frequency_) :
    frame image s c = { c with timeElapsed_ := c.timeElapsed_ + s } := by
  obtain ⟨h1, h2⟩ := hidle
  obtain ⟨q1, q2, q3⟩ := hq
  simp [frame, Update, hdone, h1, h2, not_lt.mpr hge, queueForRender, q1, q2, q3]

theorem frame_of_capture (image : Image) (s : ℚ) (c : VisualTestCapture) (camera : Camera)
    (hdone : c.IsDone = false) (hidle : c.Idle) (hge : c.delay_ ≤ c.timeElapsed_ + s)
    (hq : ¬ (c.duration_ > 0 ∧ c.frameNumber_ > 0 ∧
      c.timeElapsed_ + s - c.timeLastCapture_ < c.frequency_))
    (hcam : c.GetCamera = some camera) (hw : 0 < c.imageSize_.1) (hh : 0 < c.imageSize_.2)
    (hname : c.name_.isEmpty = false) :
    frame image s c = captured image s c camera := by
  obtain ⟨h1, h2⟩ := hidle
  have hcam2 := hcam
  simp only [GetCamera] at hcam2
  have hst : c.state_ ≠ VisualTestCaptureState.Failed ∧
      c.state_ ≠ VisualTestCaptureState.Complete := by
    simpa [IsDone, IsFailed, IsComplete, IsState] using hdone
  obtain ⟨hst1, hst2⟩ := hst
  have hq2 : VisualTestCapture.queueForRender
      { c with
        timeElapsed_ := c.timeElapsed_ + s
        subscribedRenderSurfaceUpdate := false
        subscribedEndRendering := false } = true := by
    unfold queueForRender
    by_cases q1 : c.duration_ > 0 ∧ c.frameNumber_ > 0
    · have q3 : ¬ (c.timeElapsed_ + s - c.timeLastCapture_ < c.frequency_) :=
        fun h => hq ⟨q1.1, q1.2, h⟩
      simp [q1, q3]
    · simp [q1]
  by_cases hmf : c.duration_ > 0 <;> by_cases hfin : c.duration_ + c.delay_ ≤ c.timeElapsed_ + s <;>
  simp [frame, Update, hst1, hst2, h1, h2, not_lt.mpr hge, hq2, HandleRenderSurfaceUpdate, QueueRender,
    GetCamera, hcam2, not_le.mpr hw, not_le.mpr hh, hname, HandleEndRendering, ReadRenderedImage,
    IsMultiFrame, GetImage, NotifyImageReady, IsDone, IsFailed, IsComplete, IsState,
    MarkComplete, captured, hmf, hfin, GetImageFileName]

theorem run_succ (image : Image) (s : ℚ) (n : ℕ) (c : VisualTestCapture) :
    run image s (n + 1) c = frame image s (run image s n c) := by
  simp only [run, Function.iterate_succ_apply']

theorem run_zero (image : Image) (s : ℚ) (c : VisualTestCapture) :
    run image s 0 c = c := rfl

theorem run_add (image : Image) (s : ℚ) (m n : ℕ) (c : VisualTestCapture) :
    run image s (m + n) c = run image s n (run image s m c) := by
  simp only [run]
  rw [Nat.add_comm, Function.iterate_add_apply]

theorem run_of_done (image : Image) (s : ℚ) (c : VisualTestCapture)
    (hdone : c.IsDone = true) (hidle : c.Idle) (n : ℕ) : run image s n c = c := by
  induction n with
  | zero => rfl
  | succ m ih => rw [run_succ, ih, frame_of_done image s c hdone hidle]

/-- While the delay has not elapsed a pending capture only accumulates time. -/
theorem run_waiting (image : Image) (s : ℚ) (c : VisualTestCapture)
    (hstate : c.state_ = VisualTestCaptureState.Pending) (helapsed : c.timeElapsed_ = 0)
    (hidle : c.Idle) (n : ℕ) (hn : (n : ℚ) * s < c.delay_) (hs : 0 ≤ s) :
    run image s n c = { c with timeElapsed_ := (n : ℚ) * s } := by
  induction n with
  | zero =>
    rw [run_zero]
    have h0 : ((0 : ℕ) : ℚ) * s = c.timeElapsed_ := by
      rw [helapsed]
      simp
    rw [h0]
  | succ m ih =>
    have hm : (m : ℚ) * s < c.delay_ := by
      have : (m : ℚ) * s ≤ ((m + 1 : ℕ) : ℚ) * s := by
        push_cast
        nlinarith
      exact lt_of_le_of_lt this hn
    rw [run_succ, ih hm, frame_of_waiting]
    · simp only
      congr 1
      push_cast
      ring
    · simp [IsDone, IsFailed, IsComplete, IsState, hstate]
    · exact hidle
    · simp only
      have : (m : ℚ) * s + s = ((m + 1 : ℕ) : ℚ) * s := by
        push_cast
        ring
      rw [this]
      exact hn

/-- Claim C8, as amended: in exact arithmetic, a pending single-frame capture (duration 0)
with a resolvable camera, a positive image size and a name, delay `d > 0`, driven at a step
`s > 0` with every render read back before the next tick. There is a tick `k + 1` that is the first whose elapsed
time reaches `d`; on every tick whose elapsed time is below `d` nothing has been requested
and the capture is pending; on every tick from `k + 1` on exactly one render has been
requested, at the elapsed time `(k + 1) * s`, one image named `<name>.<ext>` has been
announced and the capture is complete. -/
theorem single_frame_delay_gating (image : Image) (s : ℚ) (c : VisualTestCapture)
    (camera : Camera)
    (hstate : c.state_ = VisualTestCaptureState.Pending) (helapsed : c.timeElapsed_ = 0)
    (htrace : c.trace = []) (hidle : c.Idle)
    (hduration : c.duration_ = 0)
    (hdelay : 0 < c.delay_) (hs : 0 < s)
    (hcam : c.GetCamera = some camera) (hw : 0 < c.imageSize_.1) (hh : 0 < c.imageSize_.2)
    (hname : c.name_.isEmpty = false) :
    ∃ k : ℕ, (k : ℚ) * s < c.delay_ ∧ c.delay_ ≤ ((k : ℚ) + 1) * s ∧
      ∀ n : ℕ,
        ((n : ℚ) * s < c.delay_ →
          (run image s n c).trace = [] ∧
          (run image s n c).state_ = VisualTestCaptureState.Pending ∧
          (run image s n c).timeElapsed_ = (n : ℚ) * s) ∧
        (c.delay_ ≤ (n : ℚ) * s →
          renderRequests (run image s n c).trace = [((k : ℚ) + 1) * s] ∧
          (run image s n c).trace =
            [CaptureEvent.renderRequested (((k : ℚ) + 1) * s),
              CaptureEvent.viewportQueued ⟨c.imageSize_.1, c.imageSize_.2⟩ ⟨c.nodeScene, camera⟩,
              CaptureEvent.imageReady (c.name_ ++ "." ++ captureFormatExts c.format_),
              CaptureEvent.captureComplete] ∧
          (run image s n c).state_ = VisualTestCaptureState.Complete) := by
  have hK : 0 < ⌈c.delay_ / s⌉₊ := Nat.ceil_pos.mpr (div_pos hdelay hs)
  obtain ⟨k, hk⟩ : ∃ k, ⌈c.delay_ / s⌉₊ = k + 1 := ⟨⌈c.delay_ / s⌉₊ - 1, by omega⟩
  have hk1 : (k : ℚ) * s < c.delay_ := by
    have : (k : ℚ) < c.delay_ / s := by
      apply Nat.lt_ceil.mp
      omega
    exact (lt_div_iff₀ hs).mp this
  have hk2 : c.delay_ ≤ ((k : ℚ) + 1) * s := by
    have h1 : c.delay_ / s ≤ ((⌈c.delay_ / s⌉₊ : ℕ) : ℚ) := Nat.le_ceil _
    rw [hk] at h1
    push_cast at h1
    exact (div_le_iff₀ hs).mp h1
  have hwait := fun n hn => run_waiting image s c hstate helapsed hidle n hn hs.le
  -- the frame in which the delay is reached
  have hcapture : run image s (k + 1) c =
      captured image s { c with timeElapsed_ := (k : ℚ) * s } camera := by
    rw [run_succ, hwait k hk1]
    apply frame_of_capture
    · simp [IsDone, IsFailed, IsComplete, IsState, hstate]
    · exact hidle
    · simp only
      linarith
    · simp [hduration]
    · simpa [GetCamera] using hcam
    · exact hw
    · exact hh
    · exact hname
  have hfin : ∀ n, k < n → run image s n c =
      captured image s { c with timeElapsed_ := (k : ℚ) * s } camera := by
    intro n hn
    obtain ⟨m, rfl⟩ : ∃ m, n = (k + 1) + m := ⟨n - (k + 1), by omega⟩
    rw [run_add, hcapture]
    apply run_of_done
    · have : c.delay_ ≤ (k : ℚ) * s + s := by linarith
      simp [captured, IsDone, IsFailed, IsComplete, IsState, hduration, this]
    · simp [captured, Idle]
  refine ⟨k, hk1, hk2, fun n => ⟨fun hn => ?_, fun hn => ?_⟩⟩
  · rw [hwait n hn]
    exact ⟨htrace, hstate, rfl⟩
  · have hkn : k < n := by
      by_contra hcon
      have hle : (n : ℚ) ≤ (k : ℚ) := by exact_mod_cast (not_lt.mp hcon)
      have : (n : ℚ) * s ≤ (k : ℚ) * s := mul_le_mul_of_nonneg_right hle hs.le
      linarith
    have hge : c.delay_ ≤ (k : ℚ) * s + s := by linarith
    have ht : (k : ℚ) * s + s = ((k : ℚ) + 1) * s := by ring
    rw [hfin n hkn]
    simp [captured, hduration, htrace, hge, hk2, renderRequests, GetImageFileName, IsMultiFrame, ht]

/-- Witness of claim C8 at delay 0.5 and step 0.1: no event up to the
fourth tick, the one render request on the fifth tick at elapsed time 0.5, and the capture
is complete after it. -/
theorem single_frame_delay_gating_witness :
    (0 : ℚ) < (singleFrameCapture (1 / 2)).delay_ ∧
      (run Image.new (1 / 10) 4 (singleFrameCapture (1 / 2))).trace = [] ∧
      renderRequests (run Image.new (1 / 10) 5 (singleFrameCapture (1 / 2))).trace = [1 / 2] ∧
      (run Image.new (1 / 10) 5 (singleFrameCapture (1 / 2))).state_ =
        VisualTestCaptureState.Complete := by
  have hd : (singleFrameCapture (1 / 2)).delay_ = 1 / 2 := rfl
  obtain ⟨k, hk1, hk2, h⟩ := single_frame_delay_gating Image.new (1 / 10)
    (singleFrameCapture (1 / 2)) ⟨0⟩ rfl rfl rfl ⟨rfl, rfl⟩ rfl (by rw [hd]; norm_num)
    (by norm_num) rfl (by decide) (by decide) (by decide)
  rw [hd] at hk1 hk2
  have hk : k = 4 := by
    have h1 : (k : ℚ) < 5 := by linarith
    have h2 : (3 : ℚ) < (k : ℚ) := by linarith
    have h3 : k < 5 := by exact_mod_cast h1
    have h4 : 3 < k := by exact_mod_cast h2
    omega
  subst hk
  have h4 := (h 4).1 (by rw [hd]; norm_num)
  have h5 := (h 5).2 (by rw [hd]; norm_num)
  refine ⟨by rw [hd]; norm_num, h4.1, ?_, h5.2.2⟩
  rw [h5.1]
  norm_num

theorem frame_running_idle (image : Image) (s : ℚ) (c : VisualTestCapture) (i : Option Image)
    (st : VisualTestCaptureState) (t l : ℚ) (f : ℤ) (tr : List CaptureEvent)
    (hf : st ≠ VisualTestCaptureState.Failed) (hc : st ≠ VisualTestCaptureState.Complete)
    (h : t + s < c.delay_ ∨ (c.delay_ ≤ t + s ∧ c.duration_ > 0 ∧ f > 0 ∧ t + s - l < c.frequency_)) :
    frame image s (running c i st t l f tr) = running c i st (t + s) l f tr := by
  rcases h with h | ⟨h0, h1, h2, h3⟩
  · rw [frame_of_waiting]
    · rfl
    · simp [running, IsDone, IsFailed, IsComplete, IsState, hf, hc]
    · simp [running, Idle]
    · exact h
  · rw [frame_of_skip]
    · rfl
    · simp [running, IsDone, IsFailed, IsComplete, IsState, hf, hc]
    · simp [running, Idle]
    · exact h0
    · exact ⟨h1, h2, h3⟩

theorem frame_running_capture (image : Image) (s : ℚ) (c : VisualTestCapture)
    (camera : Camera) (i : Option Image)
    (st : VisualTestCaptureState) (t l : ℚ) (f : ℤ) (tr : List CaptureEvent)
    (hf : st ≠ VisualTestCaptureState.Failed) (hc : st ≠ VisualTestCaptureState.Complete)
    (hge : c.delay_ ≤ t + s)
    (hq : ¬ (c.duration_ > 0 ∧ f > 0 ∧ t + s - l < c.frequency_))
    (hcam : c.GetCamera = some camera) (hw : 0 < c.imageSize_.1) (hh : 0 < c.imageSize_.2)
    (hname : c.name_.isEmpty = false) :
    frame image s (running c i st t l f tr) =
      running c (some image)
        (if c.duration_ + c.delay_ ≤ t + s then VisualTestCaptureState.Complete
          else VisualTestCaptureState.Queued)
        (t + s) (t + s) (if c.duration_ > 0 then f + 1 else f)
        (tr ++ captureEvents c camera (t + s) (f + 1) ++
          (if c.duration_ + c.delay_ ≤ t + s then [CaptureEvent.captureComplete] else [])) := by
  rw [frame_of_capture image s _ camera]
  · by_cases hmf : c.duration_ > 0 <;> by_cases hfin : c.duration_ + c.delay_ ≤ t + s <;>
    simp [running, captured, captureEvents, hmf, hfin, GetImageFileName, IsMultiFrame]
  · simp [running, IsDone, IsFailed, IsComplete, IsState, hf, hc]
  · simp [running, Idle]
  · exact hge
  · exact hq
  · simpa [running, GetCamera] using hcam
  · exact hw
  · exact hh
  · exact hname

theorem frame_running_done (image : Image) (s : ℚ) (c : VisualTestCapture) (i : Option Image)
    (st : VisualTestCaptureState) (t l : ℚ) (f : ℤ) (tr : List CaptureEvent)
    (h : st = VisualTestCaptureState.Failed ∨ st = VisualTestCaptureState.Complete) :
    frame image s (running c i st t l f tr) = running c i st t l f tr := by
  apply frame_of_done
  · rcases h with h | h <;> simp [running, IsDone, IsFailed, IsComplete, IsState, h]
  · simp [running, Idle]

/-- Claim C9, as amended: a renderable capture with delay 0, duration 1.0 and frequency
0.25, driven at step 0.1 with every render read back before the next tick, requests its
renders on the ticks 1, 4, 7 and 10, at the elapsed times 0.1, 0.4, 0.7 and 1.0; its
frame index always equals the number of images announced; and it is complete exactly from
the tenth tick on, the first whose elapsed time reaches 1.0. -/
theorem multi_frame_cadence (image : Image) (c : VisualTestCapture) (camera : Camera)
    (hfresh : c.Fresh) (hdelay : c.delay_ = 0) (hduration : c.duration_ = 1)
    (hfrequency : c.frequency_ = 1 / 4)
    (hcam : c.GetCamera = some camera) (hw : 0 < c.imageSize_.1) (hh : 0 < c.imageSize_.2)
    (hname : c.name_.isEmpty = false) (n : ℕ) :
    renderRequests (run image (1 / 10) n c).trace =
        ([1, 4, 7, 10].filter (fun k => decide (k ≤ n))).map (fun k : ℕ => (k : ℚ) / 10) ∧
      (run image (1 / 10) n c).frameNumber_ =
        ((imageFileNames (run image (1 / 10) n c).trace).length : ℤ) ∧
      ((run image (1 / 10) n c).state_ = VisualTestCaptureState.Complete ↔ 10 ≤ n) := by
  have h0 : run image (1 / 10) 0 c =
      running c none VisualTestCaptureState.Pending 0 0 0 [] := by
    rw [run_zero]
    exact hfresh
  have h1 : run image (1 / 10) 1 c =
      running c (some image) VisualTestCaptureState.Queued (1 / 10) (1 / 10) 1
        (captureEvents c camera (1 / 10) 1) := by
    rw [run_succ, h0, frame_running_capture image _ c camera _ _ _ _ _ _ (by decide) (by decide)
      (by rw [hdelay]; norm_num) (by rw [hfrequency]; norm_num) hcam hw hh hname]
    simp only [hduration, hdelay]
    norm_num
  have h2 : run image (1 / 10) 2 c =
      running c (some image) VisualTestCaptureState.Queued (1 / 5) (1 / 10) 1
        (captureEvents c camera (1 / 10) 1) := by
    rw [run_succ, h1, frame_running_idle image _ c _ _ _ _ _ _ (by decide) (by decide)
      (Or.inr ⟨by rw [hdelay]; norm_num, by rw [hduration]; norm_num, by norm_num,
        by rw [hfrequency]; norm_num⟩)]
    norm_num
  have h3 : run image (1 / 10) 3 c =
      running c (some image) VisualTestCaptureState.Queued (3 / 10) (1 / 10) 1
        (captureEvents c camera (1 / 10) 1) := by
    rw [run_succ, h2, frame_running_idle image _ c _ _ _ _ _ _ (by decide) (by decide)
      (Or.inr ⟨by rw [hdelay]; norm_num, by rw [hduration]; norm_num, by norm_num,
        by rw [hfrequency]; norm_num⟩)]
    norm_num
  have h4 : run image (1 / 10) 4 c =
      running c (some image) VisualTestCaptureState.Queued (2 / 5) (2 / 5) 2
        (captureEvents c camera (1 / 10) 1 ++ captureEvents c camera (2 / 5) 2) := by
    rw [run_succ, h3, frame_running_capture image _ c camera _ _ _ _ _ _ (by decide) (by decide)
      (by rw [hdelay]; norm_num) (by rw [hfrequency]; norm_num) hcam hw hh hname]
    simp only [hduration, hdelay]
    norm_num
  have h5 : run image (1 / 10) 5 c =
      running c (some image) VisualTestCaptureState.Queued (1 / 2) (2 / 5) 2
        (captureEvents c camera (1 / 10) 1 ++ captureEvents c camera (2 / 5) 2) := by
    rw [run_succ, h4, frame_running_idle image _ c _ _ _ _ _ _ (by decide) (by decide)
      (Or.inr ⟨by rw [hdelay]; norm_num, by rw [hduration]; norm_num, by norm_num,
        by rw [hfrequency]; norm_num⟩)]
    norm_num
  have h6 : run image (1 / 10) 6 c =
      running c (some image) VisualTestCaptureState.Queued (3 / 5) (2 / 5) 2
        (captureEvents c camera (1 / 10) 1 ++ captureEvents c camera (2 / 5) 2) := by
    rw [run_succ, h5, frame_running_idle image _ c _ _ _ _ _ _ (by decide) (by decide)
      (Or.inr ⟨by rw [hdelay]; norm_num, by rw [hduration]; norm_num, by norm_num,
        by rw [hfrequency]; norm_num⟩)]
    norm_num
  have h7 : run image (1 / 10) 7 c =
      running c (some image) VisualTestCaptureState.Queued (7 / 10) (7 / 10) 3
        (captureEvents c camera (1 / 10) 1 ++ captureEvents c camera (2 / 5) 2 ++ captureEvents c camera (7 / 10) 3) := by
    rw [run_succ, h6, frame_running_capture image _ c camera _ _ _ _ _ _ (by decide) (by decide)
      (by rw [hdelay]; norm_num) (by rw [hfrequency]; norm_num) hcam hw hh hname]
    simp only [hduration, hdelay]
    norm_num
  have h8 : run image (1 / 10) 8 c =
      running c (some image) VisualTestCaptureState.Queued (4 / 5) (7 / 10) 3
        (captureEvents c camera (1 / 10) 1 ++ captureEvents c camera (2 / 5) 2 ++ captureEvents c camera (7 / 10) 3) := by
    rw [run_succ, h7, frame_running_idle image _ c _ _ _ _ _ _ (by decide) (by decide)
      (Or.inr ⟨by rw [hdelay]; norm_num, by rw [hduration]; norm_num, by norm_num,
        by rw [hfrequency]; norm_num⟩)]
    norm_num
  have h9 : run image (1 / 10) 9 c =
      running c (some image) VisualTestCaptureState.Queued (9 / 10) (7 / 10) 3
        (captureEvents c camera (1 / 10) 1 ++ captureEvents c camera (2 / 5) 2 ++ captureEvents c camera (7 / 10) 3) := by
    rw [run_succ, h8, frame_running_idle image _ c _ _ _ _ _ _ (by decide) (by decide)
      (Or.inr ⟨by rw [hdelay]; norm_num, by rw [hduration]; norm_num, by norm_num,
        by rw [hfrequency]; norm_num⟩)]
    norm_num
  have h10 : run image (1 / 10) 10 c =
      running c (some image) VisualTestCaptureState.Complete 1 1 4
        (captureEvents c camera (1 / 10) 1 ++ captureEvents c camera (2 / 5) 2 ++ captureEvents c camera (7 / 10) 3 ++ captureEvents c camera 1 4 ++ [CaptureEvent.captureComplete]) := by
    rw [run_succ, h9, frame_running_capture image _ c camera _ _ _ _ _ _ (by decide) (by decide)
      (by rw [hdelay]; norm_num) (by rw [hfrequency]; norm_num) hcam hw hh hname]
    simp only [hduration, hdelay]
    norm_num
  have h11 : ∀ m, run image (1 / 10) (10 + m) c = run image (1 / 10) 10 c := by
    intro m
    rw [run_add]
    apply run_of_done
    · rw [h10]
      simp [running, IsDone, IsFailed, IsComplete, IsState]
    · rw [h10]
      simp [running, Idle]
  rcases Nat.lt_or_ge n 10 with hlt | hge
  · interval_cases n
    · rw [h0]
      simp [running, renderRequests, imageFileNames, captureEvents]
    · rw [h1]
      simp [running, renderRequests, imageFileNames, captureEvents]
    · rw [h2]
      simp [running, renderRequests, imageFileNames, captureEvents]
    · rw [h3]
      simp [running, renderRequests, imageFileNames, captureEvents]
    · rw [h4]
      simp [running, renderRequests, imageFileNames, captureEvents]
      all_goals norm_num
    · rw [h5]
      simp [running, renderRequests, imageFileNames, captureEvents]
      all_goals norm_num
    · rw [h6]
      simp [running, renderRequests, imageFileNames, captureEvents]
      all_goals norm_num
    · rw [h7]
      simp [running, renderRequests, imageFileNames, captureEvents]
      all_goals norm_num
    · rw [h8]
      simp [running, renderRequests, imageFileNames, captureEvents]
      all_goals norm_num
    · rw [h9]
      simp [running, renderRequests, imageFileNames, captureEvents]
      all_goals norm_num
  · obtain ⟨m, rfl⟩ : ∃ m, n = 10 + m := ⟨n - 10, by omega⟩
    have hall : List.filter (fun k => decide (k ≤ 10 + m)) [1, 4, 7, 10] = [1, 4, 7, 10] := by
      rw [List.filter_eq_self]
      intro k hk
      simp only [List.mem_cons, List.mem_singleton, List.not_mem_nil, or_false] at hk
      simp only [decide_eq_true_eq]
      omega
    rw [h11 m, h10, hall]
    simp [running, renderRequests, imageFileNames, captureEvents]
    all_goals norm_num

/-- Witness of claim C9 after ten ticks. -/
theorem multi_frame_cadence_witness :
    (multiFrameCapture 1 (1 / 4)).Fresh ∧
      renderRequests (run Image.new (1 / 10) 10 (multiFrameCapture 1 (1 / 4))).trace =
        ([1, 4, 7, 10].filter (fun k => decide (k ≤ 10))).map (fun k : ℕ => (k : ℚ) / 10) ∧
      (run Image.new (1 / 10) 10 (multiFrameCapture 1 (1 / 4))).frameNumber_ =
        ((imageFileNames
          (run Image.new (1 / 10) 10 (multiFrameCapture 1 (1 / 4))).trace).length : ℤ) ∧
      ((run Image.new (1 / 10) 10 (multiFrameCapture 1 (1 / 4))).state_ =
        VisualTestCaptureState.Complete ↔ 10 ≤ 10) :=
  ⟨rfl, multi_frame_cadence Image.new (multiFrameCapture 1 (1 / 4)) ⟨0⟩ rfl rfl rfl rfl rfl
    (by decide) (by decide) (by decide) 10⟩

/-- Counterexample to claim C9 as stated: with delay 0, duration 1.0, frequency 0.25 and
step 0.1 the capture requests four renders, at the elapsed times 0.1, 0.4, 0.7 and 1.0,
is complete after the tenth tick and requests nothing afterwards; no request is made
within one step of the instants 0.25, 0.5 and 0.75. -/
theorem multi_frame_cadence_counterexample :
    renderRequests (run Image.new (1 / 10) 10 (multiFrameCapture 1 (1 / 4))).trace =
        [1 / 10, 2 / 5, 7 / 10, 1] ∧
      (run Image.new (1 / 10) 10 (multiFrameCapture 1 (1 / 4))).state_ =
        VisualTestCaptureState.Complete ∧
      (renderRequests (run Image.new (1 / 10) 20 (multiFrameCapture 1 (1 / 4))).trace).length =
        4 := by
  decide!

theorem toString_one : toString (1 : ℤ) = "1" := by decide

theorem toString_two : toString (2 : ℤ) = "2" := by decide

theorem toString_three : toString (3 : ℤ) = "3" := by decide

/-- Claim C10, as amended: the capture named "capture" with PNG format, a 1x1 image,
delay 0, duration 0.3 and frequency 0.1, driven at step 0.1 with every render read back
before the next tick, has announced after `n` ticks the first `n` of the three images
capture_1.png, capture_2.png, capture_3.png, and is complete from the third tick on. -/
theorem end_to_end_file_names (image : Image) (c : VisualTestCapture) (camera : Camera)
    (hfresh : c.Fresh) (hdelay : c.delay_ = 0) (hduration : c.duration_ = 3 / 10)
    (hfrequency : c.frequency_ = 1 / 10) (hname : c.name_ = "capture")
    (hformat : c.format_ = VisualTestCaptureFormat.PNG) (hsize : c.imageSize_ = (1, 1))
    (hcam : c.GetCamera = some camera) (n : ℕ) :
    imageFileNames (run image (1 / 10) n c).trace =
        ["capture_1.png", "capture_2.png", "capture_3.png"].take n ∧
      ((run image (1 / 10) n c).state_ = VisualTestCaptureState.Complete ↔ 3 ≤ n) := by
  have hw : 0 < c.imageSize_.1 := by rw [hsize]; decide
  have hh : 0 < c.imageSize_.2 := by rw [hsize]; decide
  have hne : c.name_.isEmpty = false := by rw [hname]; decide
  have h0 : run image (1 / 10) 0 c =
      running c none VisualTestCaptureState.Pending 0 0 0 [] := by
    rw [run_zero]
    exact hfresh
  have h1 : run image (1 / 10) 1 c =
      running c (some image) VisualTestCaptureState.Queued (1 / 10) (1 / 10) 1
        (captureEvents c camera (1 / 10) 1) := by
    rw [run_succ, h0, frame_running_capture image _ c camera _ _ _ _ _ _ (by decide) (by decide)
      (by rw [hdelay]; norm_num) (by norm_num) hcam hw hh hne]
    simp only [hduration, hdelay]
    norm_num
  have h2 : run image (1 / 10) 2 c =
      running c (some image) VisualTestCaptureState.Queued (1 / 5) (1 / 5) 2
        (captureEvents c camera (1 / 10) 1 ++ captureEvents c camera (1 / 5) 2) := by
    rw [run_succ, h1, frame_running_capture image _ c camera _ _ _ _ _ _ (by decide) (by decide)
      (by rw [hdelay]; norm_num) (by rw [hfrequency]; norm_num) hcam hw hh hne]
    simp only [hduration, hdelay]
    norm_num
  have h3 : run image (1 / 10) 3 c =
      running c (some image) VisualTestCaptureState.Complete (3 / 10) (3 / 10) 3
        (captureEvents c camera (1 / 10) 1 ++ captureEvents c camera (1 / 5) 2 ++
          captureEvents c camera (3 / 10) 3 ++ [CaptureEvent.captureComplete]) := by
    rw [run_succ, h2, frame_running_capture image _ c camera _ _ _ _ _ _ (by decide) (by decide)
      (by rw [hdelay]; norm_num) (by rw [hfrequency]; norm_num) hcam hw hh hne]
    simp only [hduration, hdelay]
    norm_num
  have h4 : ∀ m, run image (1 / 10) (3 + m) c = run image (1 / 10) 3 c := by
    intro m
    rw [run_add]
    apply run_of_done
    · rw [h3]
      simp [running, IsDone, IsFailed, IsComplete, IsState]
    · rw [h3]
      simp [running, Idle]
  have hpos : c.duration_ > 0 := by rw [hduration]; norm_num
  rcases Nat.lt_or_ge n 3 with hlt | hge
  · interval_cases n
    · rw [h0]
      simp [running, imageFileNames]
    · rw [h1]
      simp [running, imageFileNames, captureEvents, hpos, hname, hformat, captureFormatExts,
        toString_one]
    · rw [h2]
      simp [running, imageFileNames, captureEvents, hpos, hname, hformat, captureFormatExts,
        toString_one, toString_two]
  · obtain ⟨m, rfl⟩ : ∃ m, n = 3 + m := ⟨n - 3, by omega⟩
    rw [h4 m, h3]
    simp [running, imageFileNames, captureEvents, hpos, hname, hformat, captureFormatExts,
      toString_one, toString_two, toString_three]

/-- Witness of claim C10 after five ticks. -/
theorem end_to_end_file_names_witness :
    (multiFrameCapture (3 / 10) (1 / 10)).Fresh ∧
      imageFileNames (run Image.new (1 / 10) 5 (multiFrameCapture (3 / 10) (1 / 10))).trace =
        ["capture_1.png", "capture_2.png", "capture_3.png"].take 5 ∧
      ((run Image.new (1 / 10) 5 (multiFrameCapture (3 / 10) (1 / 10))).state_ =
        VisualTestCaptureState.Complete ↔ 3 ≤ 5) :=
  ⟨rfl, end_to_end_file_names Image.new (multiFrameCapture (3 / 10) (1 / 10)) ⟨0⟩ rfl rfl rfl
    rfl rfl rfl rfl rfl 5⟩

/-- Counterexample to claim C10 as stated: the capture emits three image-ready
notifications, with the file names capture_1.png, capture_2.png and capture_3.png, and is
complete after the third tick; the four names of the claim are never produced. -/
theorem end_to_end_file_names_counterexample :
    imageFileNames (run Image.new (1 / 10) 3 (multiFrameCapture (3 / 10) (1 / 10))).trace =
        ["capture_1.png", "capture_2.png", "capture_3.png"] ∧
      (run Image.new (1 / 10) 3 (multiFrameCapture (3 / 10) (1 / 10))).state_ =
        VisualTestCaptureState.Complete ∧
      imageFileNames (run Image.new (1 / 10) 10 (multiFrameCapture (3 / 10) (1 / 10))).trace ≠
        ["capture.png", "capture_1.png", "capture_2.png", "capture_3.png"] := by
  decide!

theorem imageFileNames_append (l1 l2 : List CaptureEvent) :
    imageFileNames (l1 ++ l2) = imageFileNames l1 ++ imageFileNames l2 := by
  induction l1 with
  | nil => rfl
  | cons e rest ih => cases e <;> simp [imageFileNames, ih]

theorem renderRequests_append (l1 l2 : List CaptureEvent) :
    renderRequests (l1 ++ l2) = renderRequests l1 ++ renderRequests l2 := by
  induction l1 with
  | nil => rfl
  | cons e rest ih => cases e <;> simp [renderRequests, ih]

/-- The end-of-render handler on a capture that holds a render target whose readback
delivers `image`. -/
theorem HandleEndRendering_of_readback (c : VisualTestCapture) (texture : Texture2D)
    (image : Image) (htex : c.texture_ = some texture) :
    c.HandleEndRendering (some image) =
      { c with
        viewport_ := none
        texture_ := none
        image_ := some image
        subscribedEndRendering := false
        frameNumber_ := if c.duration_ > 0 then c.frameNumber_ + 1 else c.frameNumber_
        state_ :=
          if c.IsDone = false ∧ c.timeElapsed_ ≥ c.duration_ + c.delay_ then
            VisualTestCaptureState.Complete
          else c.state_
        trace :=
          c.trace ++
            [CaptureEvent.imageReady
              (VisualTestCapture.GetImageFileName
                { c with
                  frameNumber_ :=
                    if c.duration_ > 0 then c.frameNumber_ + 1 else c.frameNumber_ })] ++
            (if c.IsDone = false ∧ c.timeElapsed_ ≥ c.duration_ + c.delay_ then
              [CaptureEvent.captureComplete] else []) } := by
  by_cases hmf : c.duration_ > 0 <;> by_cases hf : c.state_ = VisualTestCaptureState.Failed <;>
  by_cases hc : c.state_ = VisualTestCaptureState.Complete <;>
  by_cases hfin : c.duration_ + c.delay_ ≤ c.timeElapsed_ <;>
  simp [HandleEndRendering, ReadRenderedImage, htex, IsMultiFrame, GetImage, NotifyImageReady,
    IsDone, IsFailed, IsComplete, IsState, MarkComplete, GetImageFileName, hmf, hf, hc, hfin]

/-- The end-of-render handler on a capture whose readback fails. -/
theorem HandleEndRendering_of_failure (c : VisualTestCapture) (readback : Option Image)
    (hfail : c.texture_ = none ∨ readback = none) :
    c.HandleEndRendering readback =
      { c with
        viewport_ := none
        texture_ := none
        image_ := none
        subscribedEndRendering := false
        frameNumber_ := if c.duration_ > 0 then c.frameNumber_ + 1 else c.frameNumber_
        state_ := VisualTestCaptureState.Failed
        trace := c.trace ++ [CaptureEvent.captureFailed "Texture read failed"] } := by
  have hr : c.ReadRenderedImage readback =
      { c with
        viewport_ := none
        texture_ := none
        image_ := none
        state_ := VisualTestCaptureState.Failed
        trace := c.trace ++ [CaptureEvent.captureFailed "Texture read failed"] } := by
    unfold ReadRenderedImage
    rcases hfail with h | h
    · simp [h, MarkFailed]
    · subst h
      cases ht : c.texture_ <;> simp [MarkFailed]
  by_cases hmf : c.duration_ > 0 <;>
  simp [HandleEndRendering, hr, IsMultiFrame, GetImage, IsDone, IsFailed, IsComplete, IsState,
    hmf]

/-- Claim C11, as amended: `GetImageFileName()` returns `<name>.<ext>` for a single-frame
capture (duration 0) and `<name>_<frameNumber>.<ext>` for a multi-frame capture
(duration > 0), with the extensions bmp, png, tga, jpg of the formats BMP, PNG, TGA, JPG;
`<frameNumber>` is the value of the frame counter when the name is read, and the
end-of-render handler increments the counter before it announces the image, so the image
produced when the counter is `f` is announced as `<name>_<f + 1>.<ext>`. -/
theorem image_file_name (c : VisualTestCapture) :
    (captureFormatExts VisualTestCaptureFormat.BMP = "bmp" ∧
      captureFormatExts VisualTestCaptureFormat.PNG = "png" ∧
      captureFormatExts VisualTestCaptureFormat.TGA = "tga" ∧
      captureFormatExts VisualTestCaptureFormat.JPG = "jpg") ∧
      (c.duration_ = 0 →
        c.GetImageFileName = c.name_ ++ "." ++ captureFormatExts c.format_) ∧
      (c.duration_ > 0 →
        c.GetImageFileName =
          c.name_ ++ "_" ++ toString c.frameNumber_ ++ "." ++ captureFormatExts c.format_) ∧
      (∀ (texture : Texture2D) (image : Image), c.duration_ > 0 → c.texture_ = some texture →
        imageFileNames (c.HandleEndRendering (some image)).trace =
          imageFileNames c.trace ++
            [c.name_ ++ "_" ++ toString (c.frameNumber_ + 1) ++ "." ++
              captureFormatExts c.format_]) := by
  refine ⟨⟨rfl, rfl, rfl, rfl⟩, ?_, ?_, ?_⟩
  · intro h
    simp [GetImageFileName, IsMultiFrame, h]
  · intro h
    simp [GetImageFileName, IsMultiFrame, h]
  · intro texture image h htex
    rw [HandleEndRendering_of_readback c texture image htex]
    by_cases hfin : c.IsDone = false ∧ c.timeElapsed_ ≥ c.duration_ + c.delay_ <;>
    simp [imageFileNames_append, imageFileNames, GetImageFileName, IsMultiFrame, h, hfin]

/-- Witness of claim C11: the queued multi-frame capture "capture", whose frame counter is
0, announces its first image as capture_1.png. -/
theorem image_file_name_witness :
    queuedMultiFrameCapture.duration_ > 0 ∧
      queuedMultiFrameCapture.frameNumber_ = 0 ∧
      queuedMultiFrameCapture.texture_ = some ⟨1, 1⟩ ∧
      imageFileNames (queuedMultiFrameCapture.HandleEndRendering (some Image.new)).trace =
        ["capture_1.png"] := by
  refine ⟨by decide!, by decide!, by decide!, ?_⟩
  rw [(image_file_name queuedMultiFrameCapture).2.2.2 ⟨1, 1⟩ Image.new (by decide!)
    (by decide!)]
  decide!

/-- Counterexample to claim C11 as stated: the first image of the multi-frame capture
named "capture" (frame counter 0 before its first render) is announced under the name
capture_1.png, not capture_0.png. -/
theorem image_file_name_counterexample :
    (multiFrameCapture 1 (1 / 4)).frameNumber_ = 0 ∧
      imageFileNames (frame Image.new (1 / 10) (multiFrameCapture 1 (1 / 4))).trace =
        ["capture_1.png"] ∧
      imageFileNames (frame Image.new (1 / 10) (multiFrameCapture 1 (1 / 4))).trace ≠
        ["capture_0.png"] := by
  decide!

/-- Claim C12: `QueueRender` fails, that is the state becomes Failed and a capture-failed
notification with a non-empty reason is sent, exactly when no camera is resolvable, the
image width or height is not positive, or the name is empty; then nothing else of the
capture changes (no viewport, no render target, nothing submitted). Otherwise the capture
holds a viewport of its scene and the resolved camera and a render target of the
configured size, both are submitted to the renderer, the capture is subscribed to the end
of rendering and its state is Queued. -/
theorem queue_render (c : VisualTestCapture) :
    ((c.GetCamera = none ∨ c.imageSize_.1 ≤ 0 ∨ c.imageSize_.2 ≤ 0 ∨ c.name_.isEmpty = true) →
      ∃ reason : String, reason ≠ "" ∧
        c.QueueRender =
          { c with
            state_ := VisualTestCaptureState.Failed
            trace := c.trace ++ [CaptureEvent.captureFailed reason] }) ∧
      (¬ (c.GetCamera = none ∨ c.imageSize_.1 ≤ 0 ∨ c.imageSize_.2 ≤ 0 ∨
          c.name_.isEmpty = true) →
        ∃ camera : Camera, c.GetCamera = some camera ∧
          c.QueueRender =
            { c with
              viewport_ := some ⟨c.GetScene, camera⟩
              texture_ := some ⟨c.imageSize_.1, c.imageSize_.2⟩
              state_ := VisualTestCaptureState.Queued
              subscribedEndRendering := true
              trace := c.trace ++
                [CaptureEvent.viewportQueued ⟨c.imageSize_.1, c.imageSize_.2⟩
                  ⟨c.GetScene, camera⟩] }) ∧
      (c.QueueRender.state_ = VisualTestCaptureState.Failed ↔
        (c.GetCamera = none ∨ c.imageSize_.1 ≤ 0 ∨ c.imageSize_.2 ≤ 0 ∨
          c.name_.isEmpty = true)) := by
  cases hcam : c.GetCamera with
  | none =>
    refine ⟨fun _ => ⟨"No camera assigned for capture", by decide, ?_⟩, fun h => ?_, ?_⟩
    · simp [QueueRender, hcam, MarkFailed]
    · exact absurd (Or.inl rfl) h
    · simp [QueueRender, hcam, MarkFailed]
  | some camera =>
    by_cases hsize : c.imageSize_.1 ≤ 0 ∨ c.imageSize_.2 ≤ 0
    · refine ⟨fun _ => ⟨"Invalid image size", by decide, ?_⟩, fun h => ?_, ?_⟩
      · simp [QueueRender, hcam, hsize, MarkFailed]
      · exact absurd (hsize.elim (fun h1 => Or.inr (Or.inl h1))
          (fun h2 => Or.inr (Or.inr (Or.inl h2)))) h
      · have : c.imageSize_.1 ≤ 0 ∨ c.imageSize_.2 ≤ 0 ∨ c.name_.isEmpty = true :=
          hsize.elim Or.inl (fun h2 => Or.inr (Or.inl h2))
        simp [QueueRender, hcam, hsize, MarkFailed, this]
    · have hw : ¬ c.imageSize_.1 ≤ 0 := fun h => hsize (Or.inl h)
      have hh : ¬ c.imageSize_.2 ≤ 0 := fun h => hsize (Or.inr h)
      by_cases hname : c.name_.isEmpty = true
      · refine ⟨fun _ => ⟨"No name provided for capture", by decide, ?_⟩, fun h => ?_, ?_⟩
        · simp [QueueRender, hcam, hsize, hname, MarkFailed]
        · exact absurd (Or.inr (Or.inr (Or.inr hname))) h
        · simp [QueueRender, hcam, hsize, hname, MarkFailed]
      · refine ⟨fun h => ?_, fun _ => ⟨camera, rfl, ?_⟩, ?_⟩
        · rcases h with h | h | h | h
          · exact absurd h (by simp)
          · exact absurd h hw
          · exact absurd h hh
          · exact absurd h hname
        · simp [QueueRender, hcam, hsize, hname]
        · simp [QueueRender, hcam, hsize, hname, hw, hh]

/-- Witness of claim C12: the capture "capture" with a camera and a 1x1 image is queued
with a 1x1 render target; a capture without camera fails. -/
theorem queue_render_witness :
    (singleFrameCapture 0).QueueRender.state_ = VisualTestCaptureState.Queued ∧
      (singleFrameCapture 0).QueueRender.texture_ = some ⟨1, 1⟩ ∧
      (VisualTestCapture.QueueRender { name_ := "capture" }).state_ =
        VisualTestCaptureState.Failed := by
  obtain ⟨camera, _, heq⟩ := (queue_render (singleFrameCapture 0)).2.1 (by decide!)
  refine ⟨?_, ?_, (queue_render { name_ := "capture" }).2.2.mpr (Or.inl rfl)⟩
  · rw [heq]
  · rw [heq]
    rfl

/-- Claim C13: for a Queued capture whose readback succeeds, the end-of-render handler
sends exactly one image-ready notification, increases the frame index by 1 if
duration > 0 and leaves it unchanged otherwise, and then becomes Complete, sending
capture-complete, if and only if elapsed >= duration + delay; otherwise it sends nothing
more, stays non-terminal, and some later `Update` requests a render again. -/
theorem end_rendering_success (c : VisualTestCapture) (texture : Texture2D) (image : Image)
    (hstate : c.state_ = VisualTestCaptureState.Queued) (htex : c.texture_ = some texture) :
    (c.HandleEndRendering (some image)).frameNumber_ =
        (if c.duration_ > 0 then c.frameNumber_ + 1 else c.frameNumber_) ∧
      (c.timeElapsed_ ≥ c.duration_ + c.delay_ →
        (c.HandleEndRendering (some image)).state_ = VisualTestCaptureState.Complete ∧
        (c.HandleEndRendering (some image)).trace =
          c.trace ++
            [CaptureEvent.imageReady (c.HandleEndRendering (some image)).GetImageFileName,
              CaptureEvent.captureComplete]) ∧
      (c.timeElapsed_ < c.duration_ + c.delay_ →
        (c.HandleEndRendering (some image)).state_ = VisualTestCaptureState.Queued ∧
        (c.HandleEndRendering (some image)).IsDone = false ∧
        (c.HandleEndRendering (some image)).trace =
          c.trace ++
            [CaptureEvent.imageReady (c.HandleEndRendering (some image)).GetImageFileName] ∧
        ∃ timeStep : ℚ,
          renderRequests ((c.HandleEndRendering (some image)).Update timeStep).trace =
            renderRequests c.trace ++ [c.timeElapsed_ + timeStep]) := by
  rw [HandleEndRendering_of_readback c texture image htex]
  have hnd : c.IsDone = false := by
    simp [IsDone, IsFailed, IsComplete, IsState, hstate]
  refine ⟨rfl, fun hge => ?_, fun hlt => ?_⟩
  · simp [hnd, hge, GetImageFileName, IsMultiFrame]
  · have hnge : ¬ (c.timeElapsed_ ≥ c.duration_ + c.delay_) := not_le.mpr hlt
    refine ⟨by simp [hnd, hnge, hstate], by simp [hnd, hnge, hstate, IsDone, IsFailed,
      IsComplete, IsState], by simp [hnd, hnge, GetImageFileName, IsMultiFrame], ?_⟩
    refine ⟨max (c.delay_ - c.timeElapsed_) (c.frequency_ + c.timeLastCapture_ - c.timeElapsed_),
      ?_⟩
    have h1 : c.delay_ ≤ c.timeElapsed_ +
        max (c.delay_ - c.timeElapsed_) (c.frequency_ + c.timeLastCapture_ - c.timeElapsed_) := by
      have := le_max_left (c.delay_ - c.timeElapsed_)
        (c.frequency_ + c.timeLastCapture_ - c.timeElapsed_)
      linarith
    have h2 : ¬ (c.timeElapsed_ +
        max (c.delay_ - c.timeElapsed_) (c.frequency_ + c.timeLastCapture_ - c.timeElapsed_) -
          c.timeLastCapture_ < c.frequency_) := by
      have := le_max_right (c.delay_ - c.timeElapsed_)
        (c.frequency_ + c.timeLastCapture_ - c.timeElapsed_)
      intro h
      linarith
    simp [Update, IsDone, IsFailed, IsComplete, IsState, hnd, hnge, hstate, not_lt.mpr h1,
      queueForRender, h2, renderRequests_append, renderRequests]

/-- Witness of claim C13: the queued multi-frame capture at elapsed time 0.1 of duration 1
announces one image, has frame index 1 afterwards and stays Queued. -/
theorem end_rendering_success_witness :
    queuedMultiFrameCapture.state_ = VisualTestCaptureState.Queued ∧
      queuedMultiFrameCapture.texture_ = some ⟨1, 1⟩ ∧
      (queuedMultiFrameCapture.HandleEndRendering (some Image.new)).frameNumber_ = 1 ∧
      (queuedMultiFrameCapture.HandleEndRendering (some Image.new)).state_ =
        VisualTestCaptureState.Queued ∧
      imageFileNames (queuedMultiFrameCapture.HandleEndRendering (some Image.new)).trace =
        ["capture_1.png"] := by
  have h := end_rendering_success queuedMultiFrameCapture ⟨1, 1⟩ Image.new (by decide!)
    (by decide!)
  refine ⟨by decide!, by decide!, ?_, (h.2.2 (by decide!)).1, by decide!⟩
  rw [h.1]
  decide!

/-- Claim C14: when the readback fails, because the capture holds no render target or the
texture copy is impossible, the end-of-render handler leaves the capture Failed and
without image, sends exactly one notification, capture-failed with a non-empty reason, and
neither image-ready nor capture-complete, whatever the elapsed time. -/
theorem end_rendering_failure (c : VisualTestCapture) (readback : Option Image)
    (hfail : c.texture_ = none ∨ readback = none) :
    (c.HandleEndRendering readback).state_ = VisualTestCaptureState.Failed ∧
      (c.HandleEndRendering readback).GetImage = none ∧
      (∃ reason : String, reason ≠ "" ∧
        (c.HandleEndRendering readback).trace =
          c.trace ++ [CaptureEvent.captureFailed reason]) ∧
      imageFileNames (c.HandleEndRendering readback).trace = imageFileNames c.trace ∧
      (c.HandleEndRendering readback).trace.count CaptureEvent.captureComplete =
        c.trace.count CaptureEvent.captureComplete := by
  rw [HandleEndRendering_of_failure c readback hfail]
  refine ⟨rfl, rfl, ⟨"Texture read failed", by decide, rfl⟩, ?_, ?_⟩
  · simp [imageFileNames_append, imageFileNames]
  · simp [List.count_append]

/-- Witness of claim C14: the texture copy of the queued single-frame capture, whose
elapsed time 1 is past duration + delay = 0, fails. -/
theorem end_rendering_failure_witness :
    (queuedSingleFrameCapture.texture_ = none ∨ (none : Option Image) = none) ∧
      queuedSingleFrameCapture.timeElapsed_ ≥
        queuedSingleFrameCapture.duration_ + queuedSingleFrameCapture.delay_ ∧
      (queuedSingleFrameCapture.HandleEndRendering none).state_ =
        VisualTestCaptureState.Failed :=
  ⟨Or.inr rfl, by decide!, (end_rendering_failure queuedSingleFrameCapture none (Or.inr rfl)).1⟩

/-- Claim C15: after the end-of-render handler, whether the readback succeeded or failed,
the capture holds neither a render target nor a viewport. -/
theorem end_rendering_releases (c : VisualTestCapture) (readback : Option Image) :
    (c.HandleEndRendering readback).texture_ = none ∧
      (c.HandleEndRendering readback).viewport_ = none := by
  cases htex : c.texture_ with
  | none => rw [HandleEndRendering_of_failure c readback (Or.inl htex)]; exact ⟨rfl, rfl⟩
  | some texture =>
    cases readback with
    | none => rw [HandleEndRendering_of_failure c none (Or.inr rfl)]; exact ⟨rfl, rfl⟩
    | some image => rw [HandleEndRendering_of_readback c texture image htex]; exact ⟨rfl, rfl⟩

theorem Update_of_done (c : VisualTestCapture) (timeStep : ℚ) (hdone : c.IsDone = true) :
    c.Update timeStep = c := by
  simp [Update, hdone]

/-- Claim C16: `Update` leaves a capture that is Complete or Failed unchanged, whatever the
time step, so state, elapsed time, time of last capture, frame index, subscriptions and
notifications are what they were; and after any sequence of `Update` calls the capture is
still the same. -/
theorem update_terminal (c : VisualTestCapture)
    (hterminal : c.state_ = VisualTestCaptureState.Complete ∨
      c.state_ = VisualTestCaptureState.Failed) :
    (∀ timeStep : ℚ, c.Update timeStep = c) ∧
      (∀ timeSteps : List ℚ, c.updates timeSteps = c) := by
  have hdone : c.IsDone = true := by
    rcases hterminal with h | h <;> simp [IsDone, IsFailed, IsComplete, IsState, h]
  refine ⟨fun timeStep => Update_of_done c timeStep hdone, fun timeSteps => ?_⟩
  induction timeSteps with
  | nil => rfl
  | cons timeStep rest ih =>
    rw [updates, List.foldl_cons, Update_of_done c timeStep hdone]
    exact ih

/-- Witness of claim C16: the single-frame capture that completed on its fifth tick is not
changed by three further updates. -/
theorem update_terminal_witness :
    (run Image.new (1 / 10) 5 (singleFrameCapture (1 / 2))).state_ =
        VisualTestCaptureState.Complete ∧
      ((run Image.new (1 / 10) 5 (singleFrameCapture (1 / 2))).updates [1 / 10, 1, 5]).state_ =
        VisualTestCaptureState.Complete := by
  have h := (update_terminal (run Image.new (1 / 10) 5 (singleFrameCapture (1 / 2)))
    (Or.inl (by decide!))).2 [1 / 10, 1, 5]
  rw [h]
  exact ⟨by decide!, by decide!⟩

/-- A frame that starts with no render request outstanding ends with none outstanding,
and requests at most one render, at the elapsed time of its tick. -/
theorem frame_idle (image : Image) (s : ℚ) (c : VisualTestCapture) (hidle : c.Idle) :
    (frame image s c).Idle ∧
      (renderRequests (frame image s c).trace = renderRequests c.trace ∨
        renderRequests (frame image s c).trace =
          renderRequests c.trace ++ [c.timeElapsed_ + s]) := by
  have hidle2 := hidle
  obtain ⟨h1, h2⟩ := hidle2
  by_cases hdone : c.IsDone = true
  · rw [frame_of_done image s c hdone hidle]
    exact ⟨hidle, Or.inl rfl⟩
  · have hdone2 : c.IsDone = false := by simpa using hdone
    by_cases hlt : c.timeElapsed_ + s < c.delay_
    · rw [frame_of_waiting image s c hdone2 hidle hlt]
      exact ⟨hidle, Or.inl rfl⟩
    · have hge : c.delay_ ≤ c.timeElapsed_ + s := not_lt.mp hlt
      by_cases hq : c.duration_ > 0 ∧ c.frameNumber_ > 0 ∧
          c.timeElapsed_ + s - c.timeLastCapture_ < c.frequency_
      · rw [frame_of_skip image s c hdone2 hidle hge hq]
        exact ⟨hidle, Or.inl rfl⟩
      · have hst : c.state_ ≠ VisualTestCaptureState.Failed ∧
            c.state_ ≠ VisualTestCaptureState.Complete := by
          simpa [IsDone, IsFailed, IsComplete, IsState] using hdone2
        obtain ⟨hst1, hst2⟩ := hst
        have hq2 : VisualTestCapture.queueForRender
            { c with
              timeElapsed_ := c.timeElapsed_ + s
              subscribedRenderSurfaceUpdate := false
              subscribedEndRendering := false } = true := by
          unfold queueForRender
          by_cases q1 : c.duration_ > 0 ∧ c.frameNumber_ > 0
          · have q3 : ¬ (c.timeElapsed_ + s - c.timeLastCapture_ < c.frequency_) :=
              fun h => hq ⟨q1.1, q1.2, h⟩
            simp [q1, q3]
          · simp [q1]
        cases hcam : c.GetCamera with
        | none =>
          have hcam2 := hcam
          simp only [GetCamera] at hcam2
          simp [frame, Update, hdone2, hst1, hst2, h1, h2, hlt, hq2, HandleRenderSurfaceUpdate,
            QueueRender, GetCamera, hcam2, MarkFailed, Idle, renderRequests_append,
            renderRequests]
        | some camera =>
          have hcam2 := hcam
          simp only [GetCamera] at hcam2
          by_cases hsize : c.imageSize_.1 ≤ 0 ∨ c.imageSize_.2 ≤ 0
          · simp [frame, Update, hdone2, hst1, hst2, h1, h2, hlt, hq2, HandleRenderSurfaceUpdate,
              QueueRender, GetCamera, hcam2, hsize, MarkFailed, Idle, renderRequests_append,
              renderRequests]
          · by_cases hname : c.name_.isEmpty = true
            · simp [frame, Update, hdone2, hst1, hst2, h1, h2, hlt, hq2, HandleRenderSurfaceUpdate,
                QueueRender, GetCamera, hcam2, hsize, hname, MarkFailed, Idle,
                renderRequests_append, renderRequests]
            · have hname2 : c.name_.isEmpty = false := by simpa using hname
              push_neg at hsize
              rw [frame_of_capture image s c camera hdone2 hidle hge hq hcam hsize.1 hsize.2
                hname2]
              refine ⟨⟨rfl, rfl⟩, Or.inr ?_⟩
              simp only [captured]
              split <;> simp [renderRequests_append, renderRequests]

theorem run_idle (image : Image) (s : ℚ) (c : VisualTestCapture) (hidle : c.Idle) (n : ℕ) :
    (run image s n c).Idle ∧
      (renderRequests (run image s n c).trace).length ≤ (renderRequests c.trace).length + n := by
  induction n with
  | zero => exact ⟨hidle, le_refl _⟩
  | succ m ih =>
    rw [run_succ]
    have h := frame_idle image s (run image s m c) ih.1
    refine ⟨h.1, ?_⟩
    rcases h.2 with h2 | h2
    · rw [h2]
      omega
    · rw [h2, List.length_append, List.length_singleton]
      omega

/-- Claim C29, as amended: when a capture is driven by engine frames in which a requested
render is queued and read back before the next tick, at most one render request is
outstanding: a frame that starts with no request outstanding requests at most one render
and ends with none outstanding, and after any number of such frames no request is
outstanding and at most one render per frame has been requested; this holds for every
time step, delay, duration and frequency. -/
theorem one_outstanding_request (image : Image) (s : ℚ) (c : VisualTestCapture)
    (hidle : c.Idle) :
    (frame image s c).Idle ∧
      (renderRequests (frame image s c).trace = renderRequests c.trace ∨
        renderRequests (frame image s c).trace =
          renderRequests c.trace ++ [c.timeElapsed_ + s]) ∧
      ∀ n : ℕ, (run image s n c).Idle ∧
        (renderRequests (run image s n c).trace).length ≤
          (renderRequests c.trace).length + n :=
  ⟨(frame_idle image s c hidle).1, (frame_idle image s c hidle).2, run_idle image s c hidle⟩

/-- Witness of claim C29: the multi-frame capture (duration 1, frequency 0.25) starts with
no request outstanding; after ten frames of step 0.1 none is outstanding and four renders
have been requested. -/
theorem one_outstanding_request_witness :
    (multiFrameCapture 1 (1 / 4)).Idle ∧
      (run (Image.solid Color.BLACK) (1 / 10) 10 (multiFrameCapture 1 (1 / 4))).Idle ∧
      (renderRequests
        (run (Image.solid Color.BLACK) (1 / 10) 10 (multiFrameCapture 1 (1 / 4))).trace).length
          ≤ 10 := by
  have h := (one_outstanding_request (Image.solid Color.BLACK) (1 / 10)
    (multiFrameCapture 1 (1 / 4)) ⟨rfl, rfl⟩).2.2 10
  exact ⟨⟨rfl, rfl⟩, h.1, h.2⟩

/-- Counterexample to claim C29 as stated: the single-frame capture has a render request
outstanding (its render is queued for the renderer and not yet read back); `Update`
requests another render. -/
theorem one_outstanding_request_counterexample :
    queuedSingleFrameCapture.state_ = VisualTestCaptureState.Queued ∧
      queuedSingleFrameCapture.subscribedEndRendering = true ∧
      queuedSingleFrameCapture.texture_.isSome = true ∧
      renderRequests queuedSingleFrameCapture.trace = [1] ∧
      (queuedSingleFrameCapture.Update 1).subscribedRenderSurfaceUpdate = true ∧
      renderRequests (queuedSingleFrameCapture.Update 1).trace = [1, 2] := by
  decide!

/-- Claim C30, as amended: the frame index never decreases under any capture operation,
and the elapsed time never decreases under `Update` with a non-negative time step, the
setters other than `SetDelay`, `QueueRender` and the render handlers (all but `Update`
leave it unchanged); `SetDelay` sets the elapsed time to 0 and keeps the frame index. -/
theorem counters_monotone (c : VisualTestCapture) :
    (∀ timeStep : ℚ, 0 ≤ timeStep →
        c.timeElapsed_ ≤ (c.Update timeStep).timeElapsed_ ∧
        (c.Update timeStep).frameNumber_ = c.frameNumber_) ∧
      (∀ seconds : ℚ,
        (c.SetDelay seconds).timeElapsed_ = 0 ∧
        (c.SetDelay seconds).frameNumber_ = c.frameNumber_) ∧
      (∀ seconds : ℚ,
        (c.SetDuration seconds).timeElapsed_ = c.timeElapsed_ ∧
        (c.SetDuration seconds).frameNumber_ = c.frameNumber_ ∧
        (c.SetFrequency seconds).timeElapsed_ = c.timeElapsed_ ∧
        (c.SetFrequency seconds).frameNumber_ = c.frameNumber_) ∧
      (∀ (camera : Option Camera) (name : String) (format : VisualTestCaptureFormat)
          (size : ℤ × ℤ),
        (c.SetCamera camera).timeElapsed_ = c.timeElapsed_ ∧
        (c.SetCamera camera).frameNumber_ = c.frameNumber_ ∧
        (c.SetName name).timeElapsed_ = c.timeElapsed_ ∧
        (c.SetName name).frameNumber_ = c.frameNumber_ ∧
        (c.SetFormat format).timeElapsed_ = c.timeElapsed_ ∧
        (c.SetFormat format).frameNumber_ = c.frameNumber_ ∧
        (c.SetImageSize size).timeElapsed_ = c.timeElapsed_ ∧
        (c.SetImageSize size).frameNumber_ = c.frameNumber_) ∧
      (c.QueueRender.timeElapsed_ = c.timeElapsed_ ∧
        c.QueueRender.frameNumber_ = c.frameNumber_ ∧
        c.HandleRenderSurfaceUpdate.timeElapsed_ = c.timeElapsed_ ∧
        c.HandleRenderSurfaceUpdate.frameNumber_ = c.frameNumber_) ∧
      (∀ readback : Option Image,
        (c.HandleEndRendering readback).timeElapsed_ = c.timeElapsed_ ∧
        c.frameNumber_ ≤ (c.HandleEndRendering readback).frameNumber_ ∧
        (c.HandleEndRendering readback).frameNumber_ ≤ c.frameNumber_ + 1) := by
  have hq : c.QueueRender.timeElapsed_ = c.timeElapsed_ ∧
      c.QueueRender.frameNumber_ = c.frameNumber_ := by
    unfold QueueRender
    split
    · exact ⟨rfl, rfl⟩
    · split
      · exact ⟨rfl, rfl⟩
      · split <;> exact ⟨rfl, rfl⟩
  refine ⟨fun timeStep hstep => ?_, fun seconds => ⟨rfl, rfl⟩, fun seconds => ⟨rfl, rfl, rfl, rfl⟩,
    fun camera name format size => ⟨rfl, rfl, rfl, rfl, rfl, rfl, rfl, rfl⟩,
    ⟨hq.1, hq.2, hq.1, hq.2⟩, fun readback => ?_⟩
  · unfold Update
    split
    · exact ⟨le_refl _, rfl⟩
    · simp only []
      split
      · exact ⟨by simpa using hstep, rfl⟩
      · split
        · exact ⟨by simpa using hstep, rfl⟩
        · exact ⟨by simpa using hstep, rfl⟩
  · have hr : (c.ReadRenderedImage readback).timeElapsed_ = c.timeElapsed_ ∧
        (c.ReadRenderedImage readback).frameNumber_ = c.frameNumber_ := by
      unfold ReadRenderedImage
      simp only []
      split <;> exact ⟨rfl, rfl⟩
    unfold HandleEndRendering
    simp only []
    by_cases hm : (c.ReadRenderedImage readback).IsMultiFrame = true <;>
    simp only [hm, if_true, if_false, Bool.false_eq_true] <;>
    (split <;> split <;> (try split) <;>
      simp [NotifyImageReady, MarkComplete, hr.1, hr.2])

/-- Counterexample to claim C30 as stated: a capture with elapsed time 1 has elapsed time
0 after `SetDelay(0)`. -/
theorem counters_monotone_counterexample :
    ((singleFrameCapture 0).Update 1).timeElapsed_ = 1 ∧
      (((singleFrameCapture 0).Update 1).SetDelay 0).timeElapsed_ = 0 := by
  decide!

theorem applyAll_append (c : VisualTestCapture) (operations : List CaptureOperation)
    (operation : CaptureOperation) :
    c.applyAll (operations ++ [operation]) = (c.applyAll operations).apply operation := by
  simp [applyAll, List.foldl_append]

/-- A property that holds of a capture and is kept by every operation of a list holds
after the operations of the list. -/
theorem applyAll_induction (P : VisualTestCapture → Prop) (c : VisualTestCapture)
    (operations : List CaptureOperation) (hstart : P c)
    (hstep : ∀ (x : VisualTestCapture) (operation : CaptureOperation),
      operation ∈ operations → P x → P (x.apply operation)) :
    P (c.applyAll operations) := by
  induction operations using List.reverseRecOn with
  | nil => exact hstart
  | append_singleton rest operation ih =>
    rw [applyAll_append]
    exact hstep _ operation (by simp)
      (ih (fun x op hmem hx => hstep x op (List.mem_append_left _ hmem) hx))

/-- What `Update` leaves unchanged. -/
theorem Update_fields (c : VisualTestCapture) (timeStep : ℚ) :
    (c.Update timeStep).state_ = c.state_ ∧ (c.Update timeStep).delay_ = c.delay_ ∧
      (c.Update timeStep).duration_ = c.duration_ ∧
      (c.Update timeStep).frequency_ = c.frequency_ ∧
      (c.Update timeStep).frameNumber_ = c.frameNumber_ ∧
      (c.Update timeStep).viewport_ = c.viewport_ ∧
      (c.Update timeStep).texture_ = c.texture_ ∧
      (c.Update timeStep).image_ = c.image_ ∧
      (c.Update timeStep).subscribedEndRendering = c.subscribedEndRendering := by
  unfold Update
  split
  · exact ⟨rfl, rfl, rfl, rfl, rfl, rfl, rfl, rfl, rfl⟩
  · simp only []
    split
    · exact ⟨rfl, rfl, rfl, rfl, rfl, rfl, rfl, rfl, rfl⟩
    · split <;> exact ⟨rfl, rfl, rfl, rfl, rfl, rfl, rfl, rfl, rfl⟩

/-- The two outcomes of `QueueRender`. -/
theorem QueueRender_cases (c : VisualTestCapture) :
    (∃ reason : String, c.QueueRender = c.MarkFailed reason) ∨
      ∃ (viewport : Viewport) (texture : Texture2D),
        c.QueueRender =
          { c with
            viewport_ := some viewport
            texture_ := some texture
            state_ := VisualTestCaptureState.Queued
            subscribedEndRendering := true
            trace := c.trace ++ [CaptureEvent.viewportQueued texture viewport] } := by
  unfold QueueRender
  split
  · exact Or.inl ⟨_, rfl⟩
  · split
    · exact Or.inl ⟨_, rfl⟩
    · split
      · exact Or.inl ⟨_, rfl⟩
      · exact Or.inr ⟨_, _, rfl⟩

/-- The two outcomes of the end-of-render handler. -/
theorem HandleEndRendering_cases (c : VisualTestCapture) (readback : Option Image) :
    (∃ (texture : Texture2D) (image : Image), c.texture_ = some texture ∧
        readback = some image ∧
        c.HandleEndRendering readback =
          { c with
            viewport_ := none
            texture_ := none
            image_ := some image
            subscribedEndRendering := false
            frameNumber_ := if c.duration_ > 0 then c.frameNumber_ + 1 else c.frameNumber_
            state_ :=
              if c.IsDone = false ∧ c.timeElapsed_ ≥ c.duration_ + c.delay_ then
                VisualTestCaptureState.Complete
              else c.state_
            trace :=
              c.trace ++
                [CaptureEvent.imageReady
                  (VisualTestCapture.GetImageFileName
                    { c with
                      frameNumber_ :=
                        if c.duration_ > 0 then c.frameNumber_ + 1 else c.frameNumber_ })] ++
                (if c.IsDone = false ∧ c.timeElapsed_ ≥ c.duration_ + c.delay_ then
                  [CaptureEvent.captureComplete] else []) }) ∨
      ((c.texture_ = none ∨ readback = none) ∧
        c.HandleEndRendering readback =
          { c with
            viewport_ := none
            texture_ := none
            image_ := none
            subscribedEndRendering := false
            frameNumber_ := if c.duration_ > 0 then c.frameNumber_ + 1 else c.frameNumber_
            state_ := VisualTestCaptureState.Failed
            trace := c.trace ++ [CaptureEvent.captureFailed "Texture read failed"] }) := by
  cases ht : c.texture_ with
  | none => exact Or.inr ⟨Or.inl rfl, HandleEndRendering_of_failure c readback (Or.inl ht)⟩
  | some texture =>
    cases readback with
    | none => exact Or.inr ⟨Or.inr rfl, HandleEndRendering_of_failure c none (Or.inr rfl)⟩
    | some image =>
      exact Or.inl ⟨texture, image, rfl, rfl, HandleEndRendering_of_readback c texture image ht⟩

/-- The delay of a capture is never negative. -/
theorem delay_nonneg (siblingCamera : Option Camera) (nodeScene : ℕ)
    (operations : List CaptureOperation) :
    0 ≤ ((newCapture siblingCamera nodeScene).applyAll operations).delay_ := by
  refine applyAll_induction (fun x => 0 ≤ x.delay_) _ operations (le_refl _) ?_
  intro x operation _ hx
  cases operation with
  | SetDelay seconds => exact le_max_right _ _
  | Update timeStep =>
    show 0 ≤ (x.Update timeStep).delay_
    rw [(Update_fields x timeStep).2.1]
    exact hx
  | QueueRender =>
    show 0 ≤ x.QueueRender.delay_
    rcases QueueRender_cases x with ⟨reason, h⟩ | ⟨viewport, texture, h⟩ <;> rw [h] <;> exact hx
  | HandleRenderSurfaceUpdate =>
    show 0 ≤ x.QueueRender.delay_
    rcases QueueRender_cases x with ⟨reason, h⟩ | ⟨viewport, texture, h⟩ <;> rw [h] <;> exact hx
  | HandleEndRendering readback =>
    show 0 ≤ (x.HandleEndRendering readback).delay_
    rcases HandleEndRendering_cases x readback with ⟨_, _, _, _, h⟩ | ⟨_, h⟩ <;> rw [h] <;>
      exact hx
  | _ => exact hx

/-- Claim C31, evaluated where the code departs from it: on a newly constructed capture
`SetDuration(-1)` leaves the duration -1 and `SetFrequency(-1)` leaves the frequency -1,
both negative, while `SetDelay(-1)` leaves the delay 0. -/
theorem timing_parameters_negative :
    ((newCapture none 0).applyAll [CaptureOperation.SetDuration (-1)]).duration_ = -1 ∧
      ((newCapture none 0).applyAll [CaptureOperation.SetDuration (-1)]).duration_ < 0 ∧
      ((newCapture none 0).applyAll [CaptureOperation.SetFrequency (-1)]).frequency_ = -1 ∧
      ((newCapture none 0).applyAll [CaptureOperation.SetFrequency (-1)]).frequency_ < 0 ∧
      ((newCapture none 0).applyAll [CaptureOperation.SetDelay (-1)]).delay_ = 0 := by
  decide!

/-- The render target and the viewport are held only while subscribed to the end of
rendering. -/
theorem resources_outstanding (siblingCamera : Option Camera) (nodeScene : ℕ)
    (operations : List CaptureOperation) :
    (((newCapture siblingCamera nodeScene).applyAll operations).texture_.isSome = true →
        ((newCapture siblingCamera nodeScene).applyAll operations).subscribedEndRendering
          = true) ∧
      (((newCapture siblingCamera nodeScene).applyAll operations).viewport_.isSome = true →
        ((newCapture siblingCamera nodeScene).applyAll operations).subscribedEndRendering
          = true) := by
  refine applyAll_induction
    (fun x => (x.texture_.isSome = true → x.subscribedEndRendering = true) ∧
      (x.viewport_.isSome = true → x.subscribedEndRendering = true)) _ operations
    ⟨fun h => (by cases h), fun h => (by cases h)⟩ ?_
  intro x operation _ hx
  cases operation with
  | Update timeStep =>
    show ((x.Update timeStep).texture_.isSome = true →
        (x.Update timeStep).subscribedEndRendering = true) ∧
      ((x.Update timeStep).viewport_.isSome = true →
        (x.Update timeStep).subscribedEndRendering = true)
    obtain ⟨_, _, _, _, _, h6, h7, _, h9⟩ := Update_fields x timeStep
    rw [h6, h7, h9]
    exact hx
  | QueueRender =>
    show (x.QueueRender.texture_.isSome = true → x.QueueRender.subscribedEndRendering = true) ∧
      (x.QueueRender.viewport_.isSome = true → x.QueueRender.subscribedEndRendering = true)
    rcases QueueRender_cases x with ⟨reason, h⟩ | ⟨viewport, texture, h⟩ <;> rw [h]
    · exact hx
    · exact ⟨fun _ => rfl, fun _ => rfl⟩
  | HandleRenderSurfaceUpdate =>
    show (x.QueueRender.texture_.isSome = true → x.QueueRender.subscribedEndRendering = true) ∧
      (x.QueueRender.viewport_.isSome = true → x.QueueRender.subscribedEndRendering = true)
    rcases QueueRender_cases x with ⟨reason, h⟩ | ⟨viewport, texture, h⟩ <;> rw [h]
    · exact hx
    · exact ⟨fun _ => rfl, fun _ => rfl⟩
  | HandleEndRendering readback =>
    show ((x.HandleEndRendering readback).texture_.isSome = true →
        (x.HandleEndRendering readback).subscribedEndRendering = true) ∧
      ((x.HandleEndRendering readback).viewport_.isSome = true →
        (x.HandleEndRendering readback).subscribedEndRendering = true)
    rcases HandleEndRendering_cases x readback with ⟨_, _, _, _, h⟩ | ⟨_, h⟩ <;> rw [h] <;>
      exact ⟨fun h => (by cases h), fun h => (by cases h)⟩
  | _ => exact hx

/-- Claim C32, as amended: in every state a capture reaches from a newly constructed one
the render target and the viewport are non-null only while a render request is
outstanding (the capture is subscribed to the end of rendering, from a successful
`QueueRender` to the end-of-render handler); after the end-of-render handler the capture
holds no render target and no viewport, on both paths. The produced image is held from a
successful readback on: after the handler it is the image read back, or null when the
readback failed, and no other operation changes it. -/
theorem render_resources (siblingCamera : Option Camera) (nodeScene : ℕ)
    (operations : List CaptureOperation) :
    (((newCapture siblingCamera nodeScene).applyAll operations).texture_.isSome = true ∨
        ((newCapture siblingCamera nodeScene).applyAll operations).viewport_.isSome = true →
        ((newCapture siblingCamera nodeScene).applyAll operations).subscribedEndRendering
          = true) ∧
      (∀ readback : Option Image,
        (((newCapture siblingCamera nodeScene).applyAll operations).HandleEndRendering
          readback).texture_ = none ∧
        (((newCapture siblingCamera nodeScene).applyAll operations).HandleEndRendering
          readback).viewport_ = none ∧
        (((newCapture siblingCamera nodeScene).applyAll operations).HandleEndRendering
          readback).subscribedEndRendering = false ∧
        (((newCapture siblingCamera nodeScene).applyAll operations).HandleEndRendering
          readback).image_ =
          if ((newCapture siblingCamera nodeScene).applyAll operations).texture_.isSome
            then readback else none) ∧
      (∀ operation : CaptureOperation,
        (∀ readback : Option Image, operation ≠ CaptureOperation.HandleEndRendering readback) →
        (((newCapture siblingCamera nodeScene).applyAll operations).apply operation).image_ =
          ((newCapture siblingCamera nodeScene).applyAll operations).image_) := by
  have hres := resources_outstanding siblingCamera nodeScene operations
  refine ⟨fun h => h.elim hres.1 hres.2, fun readback => ?_, fun operation hop => ?_⟩
  · rcases HandleEndRendering_cases ((newCapture siblingCamera nodeScene).applyAll operations)
      readback with ⟨texture, image, ht, hr, h⟩ | ⟨hf, h⟩
    · rw [h, ht, hr]
      exact ⟨rfl, rfl, rfl, rfl⟩
    · rw [h]
      refine ⟨rfl, rfl, rfl, ?_⟩
      rcases hf with hf | hf
      · rw [hf]
        rfl
      · rw [hf]
        simp
  · cases operation with
    | Update timeStep => exact (Update_fields _ timeStep).2.2.2.2.2.2.2.1
    | QueueRender =>
      show (VisualTestCapture.QueueRender _).image_ = _
      rcases QueueRender_cases ((newCapture siblingCamera nodeScene).applyAll operations) with
        ⟨reason, h⟩ | ⟨viewport, texture, h⟩
      · rw [h]
        rfl
      · rw [h]
    | HandleRenderSurfaceUpdate =>
      show (VisualTestCapture.QueueRender _).image_ = _
      rcases QueueRender_cases ((newCapture siblingCamera nodeScene).applyAll operations) with
        ⟨reason, h⟩ | ⟨viewport, texture, h⟩
      · rw [h]
        rfl
      · rw [h]
    | HandleEndRendering readback => exact absurd rfl (hop readback)
    | _ => rfl

/-- Counterexample to claim C32 as stated: after the frame in which its render is
requested, queued and read back, the single-frame capture is Complete, has no render
request outstanding and no render target or viewport, and still holds the produced
image. -/
theorem render_resources_counterexample :
    singleFrameCapture 0 =
        (newCapture (some ⟨0⟩) 0).applyAll
          [CaptureOperation.SetName "capture", CaptureOperation.SetImageSize (1, 1)] ∧
      (frame (Image.solid Color.BLACK) 1 (singleFrameCapture 0)).state_ =
        VisualTestCaptureState.Complete ∧
      (frame (Image.solid Color.BLACK) 1 (singleFrameCapture 0)).subscribedEndRendering =
        false ∧
      (frame (Image.solid Color.BLACK) 1 (singleFrameCapture 0)).subscribedRenderSurfaceUpdate =
        false ∧
      (frame (Image.solid Color.BLACK) 1 (singleFrameCapture 0)).texture_ = none ∧
      (frame (Image.solid Color.BLACK) 1 (singleFrameCapture 0)).viewport_ = none ∧
      (frame (Image.solid Color.BLACK) 1 (singleFrameCapture 0)).GetImage.isSome = true := by
  refine ⟨rfl, ?_, ?_, ?_, ?_, ?_, ?_⟩ <;> decide!

/-- A completed capture holds an image and, when multi-frame, has a positive frame
index. -/
theorem complete_invariant (c : VisualTestCapture) (operations : List CaptureOperation)
    (hfresh : c.Fresh) (hops : ∀ operation ∈ operations, operation.isSetter = false) :
    0 ≤ (c.applyAll operations).frameNumber_ ∧
      ((c.applyAll operations).state_ = VisualTestCaptureState.Complete →
        (c.applyAll operations).image_.isSome = true ∧
        ((c.applyAll operations).duration_ > 0 → 1 ≤ (c.applyAll operations).frameNumber_)) := by
  have hstate : c.state_ = VisualTestCaptureState.Pending := by
    have := congrArg VisualTestCapture.state_ hfresh
    simpa [running] using this
  have hframe : c.frameNumber_ = 0 := by
    have := congrArg VisualTestCapture.frameNumber_ hfresh
    simpa [running] using this
  refine applyAll_induction
    (fun x => 0 ≤ x.frameNumber_ ∧
      (x.state_ = VisualTestCaptureState.Complete →
        x.image_.isSome = true ∧ (x.duration_ > 0 → 1 ≤ x.frameNumber_))) c operations
    ⟨by rw [hframe], fun h => by rw [hstate] at h; cases h⟩ ?_
  intro x operation hmem hx
  have hset := hops operation hmem
  cases operation with
  | Update timeStep =>
    show 0 ≤ (x.Update timeStep).frameNumber_ ∧
      ((x.Update timeStep).state_ = VisualTestCaptureState.Complete →
        (x.Update timeStep).image_.isSome = true ∧
        ((x.Update timeStep).duration_ > 0 → 1 ≤ (x.Update timeStep).frameNumber_))
    obtain ⟨h1, _, h3, _, h5, _, _, h8, _⟩ := Update_fields x timeStep
    rw [h1, h3, h5, h8]
    exact hx
  | QueueRender =>
    show 0 ≤ x.QueueRender.frameNumber_ ∧
      (x.QueueRender.state_ = VisualTestCaptureState.Complete →
        x.QueueRender.image_.isSome = true ∧
        (x.QueueRender.duration_ > 0 → 1 ≤ x.QueueRender.frameNumber_))
    rcases QueueRender_cases x with ⟨reason, h⟩ | ⟨viewport, texture, h⟩ <;> rw [h] <;>
      exact ⟨hx.1, fun hc => by cases hc⟩
  | HandleRenderSurfaceUpdate =>
    show 0 ≤ x.QueueRender.frameNumber_ ∧
      (x.QueueRender.state_ = VisualTestCaptureState.Complete →
        x.QueueRender.image_.isSome = true ∧
        (x.QueueRender.duration_ > 0 → 1 ≤ x.QueueRender.frameNumber_))
    rcases QueueRender_cases x with ⟨reason, h⟩ | ⟨viewport, texture, h⟩ <;> rw [h] <;>
      exact ⟨hx.1, fun hc => by cases hc⟩
  | HandleEndRendering readback =>
    show 0 ≤ (x.HandleEndRendering readback).frameNumber_ ∧
      ((x.HandleEndRendering readback).state_ = VisualTestCaptureState.Complete →
        (x.HandleEndRendering readback).image_.isSome = true ∧
        ((x.HandleEndRendering readback).duration_ > 0 →
          1 ≤ (x.HandleEndRendering readback).frameNumber_))
    rcases HandleEndRendering_cases x readback with ⟨_, _, _, _, h⟩ | ⟨_, h⟩ <;> rw [h]
    · refine ⟨?_, fun _ => ⟨rfl, fun hd => ?_⟩⟩
      · show 0 ≤ (if x.duration_ > 0 then x.frameNumber_ + 1 else x.frameNumber_)
        split
        · have := hx.1
          omega
        · exact hx.1
      · show 1 ≤ (if x.duration_ > 0 then x.frameNumber_ + 1 else x.frameNumber_)
        rw [if_pos hd]
        have := hx.1
        omega
    · refine ⟨?_, fun hc => by cases hc⟩
      show 0 ≤ (if x.duration_ > 0 then x.frameNumber_ + 1 else x.frameNumber_)
      split
      · have := hx.1
        omega
      · exact hx.1
  | _ => cases hset

/-- Claim C37: in every state a configured new capture reaches through `Update`,
`QueueRender` and the renderer handlers, a Complete capture holds a produced image and,
when its duration is positive, has a frame index of at least 1. A capture that is not
Complete is not Complete after `Update` or `QueueRender`, and is Complete after the
end-of-render handler only when it held a render target whose readback succeeded. -/
theorem complete_has_image (c : VisualTestCapture) (operations : List CaptureOperation)
    (hfresh : c.Fresh) (hops : ∀ operation ∈ operations, operation.isSetter = false) :
    ((c.applyAll operations).state_ = VisualTestCaptureState.Complete →
        (c.applyAll operations).GetImage.isSome = true ∧
        ((c.applyAll operations).duration_ > 0 → 1 ≤ (c.applyAll operations).frameNumber_)) ∧
      (∀ x : VisualTestCapture, x.state_ ≠ VisualTestCaptureState.Complete →
        (∀ timeStep : ℚ, (x.Update timeStep).state_ ≠ VisualTestCaptureState.Complete) ∧
        x.QueueRender.state_ ≠ VisualTestCaptureState.Complete ∧
        x.HandleRenderSurfaceUpdate.state_ ≠ VisualTestCaptureState.Complete ∧
        ∀ readback : Option Image,
          (x.HandleEndRendering readback).state_ = VisualTestCaptureState.Complete →
          x.texture_.isSome = true ∧ readback.isSome = true ∧
          (x.HandleEndRendering readback).GetImage = readback) := by
  refine ⟨(complete_invariant c operations hfresh hops).2, fun x hx => ⟨fun timeStep => ?_, ?_, ?_, ?_⟩⟩
  · rw [(Update_fields x timeStep).1]
    exact hx
  · rcases QueueRender_cases x with ⟨reason, h⟩ | ⟨viewport, texture, h⟩ <;> rw [h] <;>
      exact fun hc => by cases hc
  · show x.QueueRender.state_ ≠ VisualTestCaptureState.Complete
    rcases QueueRender_cases x with ⟨reason, h⟩ | ⟨viewport, texture, h⟩ <;> rw [h] <;>
      exact fun hc => by cases hc
  · intro readback hc
    rcases HandleEndRendering_cases x readback with ⟨texture, image, ht, hr, h⟩ | ⟨_, h⟩
    · rw [h, ht, hr]
      exact ⟨rfl, rfl, rfl⟩
    · rw [h] at hc
      cases hc

/-- Witness of claim C37: the single-frame capture is Complete after an `Update`, the
queueing of its render and a successful readback, and holds the image. -/
theorem complete_has_image_witness :
    (singleFrameCapture 0).Fresh ∧
      ((singleFrameCapture 0).applyAll
        [CaptureOperation.Update 1, CaptureOperation.HandleRenderSurfaceUpdate,
          CaptureOperation.HandleEndRendering (some (Image.solid Color.BLACK))]).state_ =
        VisualTestCaptureState.Complete ∧
      ((singleFrameCapture 0).applyAll
        [CaptureOperation.Update 1, CaptureOperation.HandleRenderSurfaceUpdate,
          CaptureOperation.HandleEndRendering (some (Image.solid Color.BLACK))]).GetImage.isSome
        = true := by
  have hstate : ((singleFrameCapture 0).applyAll
      [CaptureOperation.Update 1, CaptureOperation.HandleRenderSurfaceUpdate,
        CaptureOperation.HandleEndRendering (some (Image.solid Color.BLACK))]).state_ =
      VisualTestCaptureState.Complete := by decide!
  have h := (complete_has_image (singleFrameCapture 0)
    [CaptureOperation.Update 1, CaptureOperation.HandleRenderSurfaceUpdate,
      CaptureOperation.HandleEndRendering (some (Image.solid Color.BLACK))] rfl
    (by simp [CaptureOperation.isSetter])).1 hstate
  exact ⟨rfl, hstate, h.1⟩

/-- The four courses of a frame that starts with no render request outstanding: the
capture is done; it is not done and requests nothing; it requests a render that is queued
and read back; it requests a render that cannot be queued. -/
theorem frame_cases (image : Image) (s : ℚ) (c : VisualTestCapture) (hidle : c.Idle) :
    (c.IsDone = true ∧ frame image s c = c) ∨
      (c.IsDone = false ∧
        (c.timeElapsed_ + s < c.delay_ ∨
          (c.duration_ > 0 ∧ c.frameNumber_ > 0 ∧
            c.timeElapsed_ + s - c.timeLastCapture_ < c.frequency_)) ∧
        frame image s c = { c with timeElapsed_ := c.timeElapsed_ + s }) ∨
      (c.IsDone = false ∧ c.delay_ ≤ c.timeElapsed_ + s ∧
        ¬ (c.duration_ > 0 ∧ c.frameNumber_ > 0 ∧
          c.timeElapsed_ + s - c.timeLastCapture_ < c.frequency_) ∧
        ((∃ camera : Camera, c.GetCamera = some camera ∧ 0 < c.imageSize_.1 ∧
            0 < c.imageSize_.2 ∧ c.name_.isEmpty = false ∧
            frame image s c = captured image s c camera) ∨
          (¬ (c.GetCamera.isSome = true ∧ 0 < c.imageSize_.1 ∧ 0 < c.imageSize_.2 ∧
              c.name_.isEmpty = false) ∧
            ∃ reason : String,
              frame image s c =
                { c with
                  timeElapsed_ := c.timeElapsed_ + s
                  timeLastCapture_ := c.timeElapsed_ + s
                  state_ := VisualTestCaptureState.Failed
                  subscribedRenderSurfaceUpdate := false
                  trace := c.trace ++
                    [CaptureEvent.renderRequested (c.timeElapsed_ + s),
                      CaptureEvent.captureFailed reason] }))) := by
  have hidle2 := hidle
  obtain ⟨h1, h2⟩ := hidle2
  by_cases hdone : c.IsDone = true
  · exact Or.inl ⟨hdone, frame_of_done image s c hdone hidle⟩
  · have hdone2 : c.IsDone = false := by simpa using hdone
    by_cases hlt : c.timeElapsed_ + s < c.delay_
    · exact Or.inr (Or.inl ⟨hdone2, Or.inl hlt, frame_of_waiting image s c hdone2 hidle hlt⟩)
    · have hge : c.delay_ ≤ c.timeElapsed_ + s := not_lt.mp hlt
      by_cases hq : c.duration_ > 0 ∧ c.frameNumber_ > 0 ∧
          c.timeElapsed_ + s - c.timeLastCapture_ < c.frequency_
      · exact Or.inr (Or.inl ⟨hdone2, Or.inr hq, frame_of_skip image s c hdone2 hidle hge hq⟩)
      · refine Or.inr (Or.inr ⟨hdone2, hge, hq, ?_⟩)
        have hst : c.state_ ≠ VisualTestCaptureState.Failed ∧
            c.state_ ≠ VisualTestCaptureState.Complete := by
          simpa [IsDone, IsFailed, IsComplete, IsState] using hdone2
        obtain ⟨hst1, hst2⟩ := hst
        have hq2 : VisualTestCapture.queueForRender
            { c with
              timeElapsed_ := c.timeElapsed_ + s
              subscribedRenderSurfaceUpdate := false
              subscribedEndRendering := false } = true := by
          unfold queueForRender
          by_cases q1 : c.duration_ > 0 ∧ c.frameNumber_ > 0
          · have q3 : ¬ (c.timeElapsed_ + s - c.timeLastCapture_ < c.frequency_) :=
              fun h => hq ⟨q1.1, q1.2, h⟩
            simp [q1, q3]
          · simp [q1]
        cases hcam : c.GetCamera with
        | none =>
          have hcam2 := hcam
          simp only [GetCamera] at hcam2
          refine Or.inr ⟨by simp, "No camera assigned for capture", ?_⟩
          simp [frame, Update, hdone2, hst1, hst2, h1, h2, hlt, hq2, HandleRenderSurfaceUpdate,
            QueueRender, GetCamera, hcam2, MarkFailed]
        | some camera =>
          have hcam2 := hcam
          simp only [GetCamera] at hcam2
          by_cases hsize : c.imageSize_.1 ≤ 0 ∨ c.imageSize_.2 ≤ 0
          · refine Or.inr ⟨?_, "Invalid image size", ?_⟩
            · rintro ⟨_, hw, hh, _⟩
              rcases hsize with h | h <;> omega
            · simp [frame, Update, hdone2, hst1, hst2, h1, h2, hlt, hq2,
                HandleRenderSurfaceUpdate, QueueRender, GetCamera, hcam2, hsize, MarkFailed]
          · by_cases hname : c.name_.isEmpty = true
            · refine Or.inr ⟨?_, "No name provided for capture", ?_⟩
              · rintro ⟨_, _, _, hn⟩
                rw [hname] at hn
                cases hn
              · simp [frame, Update, hdone2, hst1, hst2, h1, h2, hlt, hq2,
                  HandleRenderSurfaceUpdate, QueueRender, GetCamera, hcam2, hsize, hname,
                  MarkFailed]
            · have hname2 : c.name_.isEmpty = false := by simpa using hname
              push_neg at hsize
              exact Or.inl ⟨camera, rfl, hsize.1, hsize.2, hname2,
                frame_of_capture image s c camera hdone2 hidle hge hq hcam hsize.1 hsize.2
                  hname2⟩

/-- A frame keeps the configuration of a capture. -/
theorem frame_SameConfiguration (image : Image) (s : ℚ) (c : VisualTestCapture)
    (hidle : c.Idle) : SameConfiguration c (frame image s c) := by
  rcases frame_cases image s c hidle with ⟨_, h⟩ | ⟨_, _, h⟩ | ⟨_, _, _, h⟩
  · rw [h]
    exact ⟨rfl, rfl, rfl, rfl, rfl, rfl⟩
  · rw [h]
    exact ⟨rfl, rfl, rfl, rfl, rfl, rfl⟩
  · rcases h with ⟨camera, _, _, _, _, h⟩ | ⟨_, reason, h⟩ <;> rw [h] <;>
      exact ⟨rfl, rfl, rfl, rfl, rfl, rfl⟩

theorem renderRequests_captured (image : Image) (s : ℚ) (c : VisualTestCapture)
    (camera : Camera) :
    renderRequests (captured image s c camera).trace =
      renderRequests c.trace ++ [c.timeElapsed_ + s] := by
  simp only [captured]
  split <;> simp [renderRequests_append, renderRequests]

/-- A frame keeps the invariant of the render requests of a multi-frame capture. -/
theorem Cadence_frame (image : Image) (s : ℚ) (k : ℕ) (x : VisualTestCapture) (hs : 0 < s)
    (hduration : 0 < x.duration_)
    (hkmin : ∀ j : ℕ, 1 ≤ j → x.frequency_ ≤ j * s → k ≤ j) (hk : 1 ≤ k)
    (hkf : x.frequency_ ≤ k * s) (hx : Cadence s k x) :
    Cadence s k (frame image s x) := by
  obtain ⟨hidle, hchain, hrun⟩ := hx
  rcases frame_cases image s x hidle with ⟨hd, h⟩ | ⟨hd, hno, h⟩ | ⟨hd, hge, hq, h⟩
  · rw [h]
    exact ⟨hidle, hchain, hrun⟩
  · rw [h]
    refine ⟨hidle, hchain, fun _ => ?_⟩
    rcases hrun hd with ⟨hR, hf⟩ | ⟨hf, hlast, hdel, j, hj, he⟩
    · exact Or.inl ⟨hR, hf⟩
    · have hskip : x.timeElapsed_ + s - x.timeLastCapture_ < x.frequency_ := by
        rcases hno with hlt | ⟨_, _, hskip⟩
        · exfalso
          linarith
        · exact hskip
      refine Or.inr ⟨hf, hlast, ?_, j + 1, ?_, ?_⟩
      · show x.delay_ ≤ x.timeElapsed_ + s
        linarith
      · by_contra hnot
        have hle : k ≤ j + 1 := by omega
        have hle2 : (k : ℚ) ≤ (j : ℚ) + 1 := by exact_mod_cast hle
        have hmul : (k : ℚ) * s ≤ ((j : ℚ) + 1) * s := mul_le_mul_of_nonneg_right hle2 hs.le
        rw [he] at hskip
        have : x.timeLastCapture_ + (j : ℚ) * s + s - x.timeLastCapture_ = ((j : ℚ) + 1) * s := by
          ring
        rw [this] at hskip
        linarith
      · show x.timeElapsed_ + s = x.timeLastCapture_ + ((j + 1 : ℕ) : ℚ) * s
        push_cast
        rw [he]
        ring
  · have hext : ∀ a ∈ (renderRequests x.trace).getLast?, x.timeElapsed_ + s - a = k * s := by
      intro a ha
      rcases hrun hd with ⟨hR, _⟩ | ⟨hf, hlast, hdel, j, hj, he⟩
      · rw [hR] at ha
        simp at ha
      · rw [hlast] at ha
        have ha2 : x.timeLastCapture_ = a := by simpa using ha
        subst ha2
        have hfreq : x.frequency_ ≤ x.timeElapsed_ + s - x.timeLastCapture_ := by
          by_contra hlt
          exact hq ⟨hduration, hf, not_le.mp hlt⟩
        have hdiff : x.timeElapsed_ + s - x.timeLastCapture_ = ((j + 1 : ℕ) : ℚ) * s := by
          push_cast
          rw [he]
          ring
        rw [hdiff] at hfreq ⊢
        have hkj : k ≤ j + 1 := hkmin (j + 1) (by omega) hfreq
        have hkeq : k = j + 1 := by omega
        rw [hkeq]
    have hchain2 : List.Chain' (fun t1 t2 : ℚ => t2 - t1 = k * s)
        (renderRequests x.trace ++ [x.timeElapsed_ + s]) := by
      rw [List.chain'_append]
      refine ⟨hchain, List.chain'_singleton _, fun a ha b hb => ?_⟩
      have hb2 : x.timeElapsed_ + s = b := by simpa using hb
      rw [← hb2]
      exact hext a ha
    have hframe : 0 ≤ x.frameNumber_ := by
      rcases hrun hd with ⟨_, hf⟩ | ⟨hf, _⟩
      · rw [hf]
      · exact le_of_lt hf
    rcases h with ⟨camera, _, _, _, _, h⟩ | ⟨_, reason, h⟩
    · rw [h]
      refine ⟨⟨rfl, rfl⟩, ?_, fun _ => Or.inr ⟨?_, ?_, hge, 0, by omega, ?_⟩⟩
      · rw [renderRequests_captured]
        exact hchain2
      · show 0 < (if x.duration_ > 0 then x.frameNumber_ + 1 else x.frameNumber_)
        rw [if_pos hduration]
        omega
      · rw [renderRequests_captured]
        simp [captured]
      · show x.timeElapsed_ + s = x.timeElapsed_ + s + ((0 : ℕ) : ℚ) * s
        simp
    · rw [h]
      refine ⟨⟨rfl, hidle.2⟩, ?_, fun hdone => ?_⟩
      · have : renderRequests (x.trace ++
            [CaptureEvent.renderRequested (x.timeElapsed_ + s),
              CaptureEvent.captureFailed reason]) =
            renderRequests x.trace ++ [x.timeElapsed_ + s] := by
          simp [renderRequests_append, renderRequests]
        show List.Chain' _ (renderRequests (x.trace ++ _))
        rw [this]
        exact hchain2
      · simp [IsDone, IsFailed, IsState] at hdone

/-- The number of steps between consecutive requests: the least positive `k` with
`frequency ≤ k * s`. -/
theorem exists_cadence (f s : ℚ) (hf : 0 ≤ f) (hs : 0 < s) :
    ∃ k : ℕ, 1 ≤ k ∧ f ≤ k * s ∧ (∀ j : ℕ, 1 ≤ j → f ≤ j * s → k ≤ j) ∧
      (k : ℚ) * s ≤ f + s := by
  have ha : 0 ≤ f / s := div_nonneg hf hs.le
  refine ⟨max 1 ⌈f / s⌉₊, le_max_left _ _, ?_, ?_, ?_⟩
  · have h1 : f / s ≤ (⌈f / s⌉₊ : ℚ) := Nat.le_ceil _
    have h2 : (⌈f / s⌉₊ : ℚ) ≤ ((max 1 ⌈f / s⌉₊ : ℕ) : ℚ) := by
      exact_mod_cast le_max_right _ _
    have h3 : f / s ≤ ((max 1 ⌈f / s⌉₊ : ℕ) : ℚ) := le_trans h1 h2
    exact (div_le_iff₀ hs).mp h3
  · intro j hj hfj
    have h1 : f / s ≤ (j : ℚ) := (div_le_iff₀ hs).mpr hfj
    have h2 : ⌈f / s⌉₊ ≤ j := Nat.ceil_le.mpr h1
    exact max_le hj h2
  · have h1 : (⌈f / s⌉₊ : ℚ) < f / s + 1 := Nat.ceil_lt_add_one ha
    have h2 : ((max 1 ⌈f / s⌉₊ : ℕ) : ℚ) ≤ f / s + 1 := by
      rcases le_total 1 ⌈f / s⌉₊ with h | h
      · rw [max_eq_right h]
        exact h1.le
      · rw [max_eq_left h]
        simpa using ha
    have h3 : ((max 1 ⌈f / s⌉₊ : ℕ) : ℚ) * s ≤ (f / s + 1) * s :=
      mul_le_mul_of_nonneg_right h2 hs.le
    have h4 : (f / s + 1) * s = f + s := by
      field_simp
    rw [h4] at h3
    exact h3

theorem run_SameConfiguration (image : Image) (s : ℚ) (c : VisualTestCapture) (hidle : c.Idle)
    (n : ℕ) : SameConfiguration c (run image s n c) := by
  induction n with
  | zero => exact ⟨rfl, rfl, rfl, rfl, rfl, rfl⟩
  | succ m ih =>
    rw [run_succ]
    obtain ⟨h1, h2, h3, h4, h5, h6⟩ :=
      frame_SameConfiguration image s (run image s m c) (run_idle image s c hidle m).1
    obtain ⟨i1, i2, i3, i4, i5, i6⟩ := ih
    exact ⟨h1.trans i1, h2.trans i2, h3.trans i3, h4.trans i4, h5.trans i5, h6.trans i6⟩

theorem Fresh_fields (c : VisualTestCapture) (hfresh : c.Fresh) :
    c.Idle ∧ c.state_ = VisualTestCaptureState.Pending ∧ c.timeElapsed_ = 0 ∧
      c.frameNumber_ = 0 ∧ c.trace = [] := by
  refine ⟨⟨?_, ?_⟩, ?_, ?_, ?_, ?_⟩
  · have := congrArg VisualTestCapture.subscribedRenderSurfaceUpdate hfresh
    simpa [running] using this
  · have := congrArg VisualTestCapture.subscribedEndRendering hfresh
    simpa [running] using this
  · have := congrArg VisualTestCapture.state_ hfresh
    simpa [running] using this
  · have := congrArg VisualTestCapture.timeElapsed_ hfresh
    simpa [running] using this
  · have := congrArg VisualTestCapture.frameNumber_ hfresh
    simpa [running] using this
  · have := congrArg VisualTestCapture.trace hfresh
    simpa [running] using this

theorem run_Cadence (image : Image) (s : ℚ) (k : ℕ) (c : VisualTestCapture)
    (hfresh : c.Fresh) (hs : 0 < s) (hduration : 0 < c.duration_)
    (hkmin : ∀ j : ℕ, 1 ≤ j → c.frequency_ ≤ j * s → k ≤ j) (hk : 1 ≤ k)
    (hkf : c.frequency_ ≤ k * s) (n : ℕ) : Cadence s k (run image s n c) := by
  obtain ⟨hidle, _, _, hframe, htrace⟩ := Fresh_fields c hfresh
  induction n with
  | zero =>
    refine ⟨hidle, ?_, fun _ => Or.inl ⟨?_, hframe⟩⟩
    · show List.Chain' _ (renderRequests c.trace)
      rw [htrace]
      exact List.chain'_nil
    · show renderRequests c.trace = []
      rw [htrace]
      rfl
  | succ m ih =>
    rw [run_succ]
    obtain ⟨_, h2, h3, _⟩ := run_SameConfiguration image s c hidle m
    refine Cadence_frame image s k _ hs ?_ ?_ hk ?_ ih
    · rw [h2]
      exact hduration
    · rw [h3]
      exact hkmin
    · rw [h3]
      exact hkf

/-- Claim C38: a configured new multi-frame capture (duration > 0) with frequency `f ≥ 0`
is driven by frames of a fixed step `s > 0`, each requested render read back before the
next tick. With `k` the least positive number of steps such that `k * s ≥ f`, the elapsed
times of any two consecutive render requests differ by exactly `k * s`, which is at least
`f` and at most `f + s`. -/
theorem capture_spacing (image : Image) (s : ℚ) (c : VisualTestCapture) (hfresh : c.Fresh)
    (hduration : 0 < c.duration_) (hfrequency : 0 ≤ c.frequency_) (hs : 0 < s) :
    ∃ k : ℕ, 1 ≤ k ∧ c.frequency_ ≤ k * s ∧
      (∀ j : ℕ, 1 ≤ j → c.frequency_ ≤ j * s → k ≤ j) ∧
      (k : ℚ) * s ≤ c.frequency_ + s ∧
      ∀ n : ℕ,
        List.Chain' (fun t1 t2 : ℚ => t2 - t1 = k * s)
          (renderRequests (run image s n c).trace) := by
  obtain ⟨k, hk, hkf, hkmin, hkle⟩ := exists_cadence c.frequency_ s hfrequency hs
  exact ⟨k, hk, hkf, hkmin, hkle,
    fun n => (run_Cadence image s k c hfresh hs hduration hkmin hk hkf n).2.1⟩

/-- Witness of claim C38: the capture with duration 1 and frequency 0.25 driven at the
step 0.1 requests its renders at 0.1, 0.4, 0.7 and 1.0, three steps apart. -/
theorem capture_spacing_witness :
    renderRequests
        (run (Image.solid Color.BLACK) (1 / 10) 10 (multiFrameCapture 1 (1 / 4))).trace =
        [1 / 10, 2 / 5, 7 / 10, 1] ∧
      ∃ k : ℕ, 1 ≤ k ∧ (1 / 4 : ℚ) ≤ k * (1 / 10) ∧ (k : ℚ) * (1 / 10) ≤ 1 / 4 + 1 / 10 ∧
        List.Chain' (fun t1 t2 : ℚ => t2 - t1 = k * (1 / 10))
          (renderRequests
            (run (Image.solid Color.BLACK) (1 / 10) 10 (multiFrameCapture 1 (1 / 4))).trace) := by
  obtain ⟨k, h1, h2, _, h4, h5⟩ := capture_spacing (Image.solid Color.BLACK) (1 / 10)
    (multiFrameCapture 1 (1 / 4)) rfl (by decide!) (by decide!) (by decide!)
  exact ⟨by decide!, k, h1, h2, h4, h5 10⟩

/-- A capture that is not done is neither Failed nor Complete. -/
theorem state_of_not_done (x : VisualTestCapture) (hd : x.IsDone = false) :
    x.state_ ≠ VisualTestCaptureState.Failed ∧ x.state_ ≠ VisualTestCaptureState.Complete := by
  simpa [IsDone, IsFailed, IsComplete, IsState] using hd

/-- A frame keeps the invariant of the progress of a valid capture. -/
theorem Progress_frame (image : Image) (s : ℚ) (n : ℕ) (x : VisualTestCapture) (hs : 0 < s)
    (hdelay : 0 ≤ x.delay_) (hduration : 0 ≤ x.duration_) (hfrequency : 0 ≤ x.frequency_)
    (hvalid : x.GetCamera.isSome = true ∧ 0 < x.imageSize_.1 ∧ 0 < x.imageSize_.2 ∧
      x.name_.isEmpty = false)
    (hx : Progress s n x) : Progress s (n + 1) (frame image s x) := by
  obtain ⟨hidle, hnf, hcomp, hrun⟩ := hx
  rcases frame_cases image s x hidle with ⟨hd, h⟩ | ⟨hd, hno, h⟩ | ⟨hd, hge, hq, h⟩
  · rw [h]
    refine ⟨hidle, hnf, hcomp, fun hnd => ?_⟩
    rw [hd] at hnd
    cases hnd
  · rw [h]
    obtain ⟨he, hcase⟩ := hrun hd
    refine ⟨hidle, hnf, fun hc => absurd hc (state_of_not_done x hd).2, fun _ => ⟨?_, ?_⟩⟩
    · show x.timeElapsed_ + s = ((n + 1 : ℕ) : ℚ) * s
      push_cast
      rw [he]
      ring
    · rcases hcase with ⟨hf0, hw⟩ | ⟨hfpos, hdur, hdel, hlast, hD⟩
      · rcases hno with hlt | ⟨_, hfp, _⟩
        · exact Or.inl ⟨hf0, Or.inl hlt⟩
        · exfalso
          omega
      · rcases hno with hlt | ⟨_, _, hskip⟩
        · exfalso
          linarith
        · refine Or.inr ⟨hfpos, hdur, ?_, Or.inl hskip, hD⟩
          show x.delay_ ≤ x.timeElapsed_ + s
          linarith
  · rcases h with ⟨camera, _, _, _, _, h⟩ | ⟨hinv, _⟩
    · obtain ⟨he, hcase⟩ := hrun hd
      have hbound : x.timeElapsed_ + s ≤ x.delay_ + x.duration_ + x.frequency_ + s := by
        rcases hcase with ⟨_, hw | hw⟩ | ⟨_, _, _, hlast | hlast, hD⟩ <;> linarith
      have hframe : 0 ≤ x.frameNumber_ := by
        rcases hcase with ⟨hf0, _⟩ | ⟨hfpos, _⟩
        · rw [hf0]
        · exact le_of_lt hfpos
      rw [h]
      refine ⟨⟨rfl, rfl⟩, ?_, fun _ => hbound, fun hnd => ?_⟩
      · show (if x.timeElapsed_ + s ≥ x.duration_ + x.delay_ then VisualTestCaptureState.Complete
          else VisualTestCaptureState.Queued) ≠ VisualTestCaptureState.Failed
        split <;> exact fun hc => by cases hc
      · have hlt : x.timeElapsed_ + s < x.duration_ + x.delay_ := by
          by_contra hfin
          have hfin2 : x.timeElapsed_ + s ≥ x.duration_ + x.delay_ := not_lt.mp hfin
          simp [captured, IsDone, IsFailed, IsComplete, IsState, hfin2] at hnd
        have hdur : 0 < x.duration_ := by linarith
        refine ⟨?_, Or.inr ⟨?_, hdur, hge, Or.inr rfl, ?_⟩⟩
        · show x.timeElapsed_ + s = ((n + 1 : ℕ) : ℚ) * s
          push_cast
          rw [he]
          ring
        · show 0 < (if x.duration_ > 0 then x.frameNumber_ + 1 else x.frameNumber_)
          rw [if_pos hdur]
          omega
        · show x.timeElapsed_ + s < x.delay_ + x.duration_
          linarith
    · exact absurd hvalid hinv

theorem run_Progress (image : Image) (s : ℚ) (c : VisualTestCapture) (hfresh : c.Fresh)
    (hs : 0 < s) (hdelay : 0 ≤ c.delay_) (hduration : 0 ≤ c.duration_)
    (hfrequency : 0 ≤ c.frequency_)
    (hvalid : c.GetCamera.isSome = true ∧ 0 < c.imageSize_.1 ∧ 0 < c.imageSize_.2 ∧
      c.name_.isEmpty = false) (n : ℕ) : Progress s n (run image s n c) := by
  obtain ⟨hidle, hstate, helapsed, hframe, _⟩ := Fresh_fields c hfresh
  induction n with
  | zero =>
    refine ⟨hidle, ?_, ?_, fun _ => ⟨?_, Or.inl ⟨hframe, Or.inr helapsed⟩⟩⟩
    · show c.state_ ≠ VisualTestCaptureState.Failed
      rw [hstate]
      exact fun h => by cases h
    · intro h
      have h2 : c.state_ = VisualTestCaptureState.Complete := h
      rw [hstate] at h2
      cases h2
    · show c.timeElapsed_ = ((0 : ℕ) : ℚ) * s
      rw [helapsed]
      simp
  | succ m ih =>
    rw [run_succ]
    obtain ⟨h1, h2, h3, h4, h5, h6⟩ := run_SameConfiguration image s c hidle m
    refine Progress_frame image s m _ hs ?_ ?_ ?_ ?_ ih
    · rw [h1]
      exact hdelay
    · rw [h2]
      exact hduration
    · rw [h3]
      exact hfrequency
    · rw [h4, h5, h6]
      exact hvalid

/-- Claim C39: a configured new capture with a resolvable camera, a non-empty name, a
positive image size and non-negative delay, duration and frequency is driven by frames of
a fixed step `s > 0`, each requested render read back before the next tick. There is a
number of ticks after which the capture is Complete and before which it is not; its
elapsed time is then at most `delay + duration + frequency + s`, and it does not change
any more. -/
theorem capture_completes (image : Image) (s : ℚ) (c : VisualTestCapture) (hfresh : c.Fresh)
    (hcamera : c.GetCamera.isSome = true) (hname : c.name_.isEmpty = false)
    (hwidth : 0 < c.imageSize_.1) (hheight : 0 < c.imageSize_.2) (hdelay : 0 ≤ c.delay_)
    (hduration : 0 ≤ c.duration_) (hfrequency : 0 ≤ c.frequency_) (hs : 0 < s) :
    ∃ n : ℕ, (run image s n c).state_ = VisualTestCaptureState.Complete ∧
      (run image s n c).timeElapsed_ ≤ c.delay_ + c.duration_ + c.frequency_ + s ∧
      (∀ m : ℕ, m < n → (run image s m c).state_ ≠ VisualTestCaptureState.Complete) ∧
      ∀ m : ℕ, n ≤ m → run image s m c = run image s n c := by
  have hidle := (Fresh_fields c hfresh).1
  have hprog := run_Progress image s c hfresh hs hdelay hduration hfrequency
    ⟨hcamera, hwidth, hheight, hname⟩
  have hconf := run_SameConfiguration image s c hidle
  have hcomplete : ∀ n : ℕ, c.delay_ + c.duration_ + c.frequency_ < n * s →
      (run image s n c).state_ = VisualTestCaptureState.Complete := by
    intro n hn
    obtain ⟨_, hnf, _, hrun⟩ := hprog n
    obtain ⟨h1, h2, h3, _⟩ := hconf n
    by_contra hnc
    have hnd : (run image s n c).IsDone = false := by
      simp [IsDone, IsFailed, IsComplete, IsState, hnf, hnc]
    obtain ⟨he, hcase⟩ := hrun hnd
    rw [h1, h2, h3] at hcase
    rw [← he] at hn
    rcases hcase with ⟨_, hw | hw⟩ | ⟨_, _, _, hlast | hlast, hD⟩ <;> linarith
  have hex : ∃ n : ℕ, (run image s n c).state_ = VisualTestCaptureState.Complete := by
    obtain ⟨N, hN⟩ := exists_nat_gt ((c.delay_ + c.duration_ + c.frequency_) / s)
    exact ⟨N, hcomplete N ((div_lt_iff₀ hs).mp hN)⟩
  refine ⟨Nat.find hex, Nat.find_spec hex, ?_, fun m hm => Nat.find_min hex hm, ?_⟩
  · obtain ⟨_, _, hcomp, _⟩ := hprog (Nat.find hex)
    obtain ⟨h1, h2, h3, _⟩ := hconf (Nat.find hex)
    have := hcomp (Nat.find_spec hex)
    rw [h1, h2, h3] at this
    exact this
  · intro m hm
    obtain ⟨j, rfl⟩ : ∃ j, m = Nat.find hex + j := ⟨m - Nat.find hex, by omega⟩
    rw [run_add]
    refine run_of_done image s _ ?_ (hprog (Nat.find hex)).1 j
    simp [IsDone, IsComplete, IsState, Nat.find_spec hex]

/-- Witness of claim C39: the single-frame capture without delay driven at the step 1 is
Complete after its first tick, at the elapsed time 1. -/
theorem capture_completes_witness :
    (run (Image.solid Color.BLACK) 1 1 (singleFrameCapture 0)).state_ =
        VisualTestCaptureState.Complete ∧
      ∃ n : ℕ,
        (run (Image.solid Color.BLACK) 1 n (singleFrameCapture 0)).state_ =
          VisualTestCaptureState.Complete ∧
        (run (Image.solid Color.BLACK) 1 n (singleFrameCapture 0)).timeElapsed_ ≤
          (singleFrameCapture 0).delay_ + (singleFrameCapture 0).duration_ +
            (singleFrameCapture 0).frequency_ + 1 := by
  obtain ⟨n, h1, h2, _⟩ := capture_completes (Image.solid Color.BLACK) 1 (singleFrameCapture 0)
    rfl (by decide) (by decide) (by decide) (by decide) (by decide!) (by decide!) (by decide!)
    (by decide!)
  exact ⟨by decide!, n, h1, h2⟩

theorem ticksFloat32_succ (timeStep : ℚ) (n : ℕ) (c : VisualTestCapture) :
    ticksFloat32 timeStep (n + 1) c = UpdateFloat32 (ticksFloat32 timeStep n c) timeStep := by
  simp only [ticksFloat32, Function.iterate_succ_apply']

/-- One tick of step 1 of the capture with delay 2^25 in single precision: the elapsed
time goes up by 1 until it is 2^24, and stays there. -/
theorem UpdateFloat32_stall (k : ℕ) (hk : k ≤ 2 ^ 24) :
    UpdateFloat32 { singleFrameCapture 33554432 with timeElapsed_ := (k : ℚ) } 1 =
      { singleFrameCapture 33554432 with timeElapsed_ := ((min (k + 1) (2 ^ 24) : ℕ) : ℚ) } := by
  have hround : roundFloat32 ((k : ℚ) + 1) = ((min (k + 1) (2 ^ 24) : ℕ) : ℚ) := by
    rcases Nat.lt_or_ge (k + 1) (2 ^ 24) with h | h
    · rw [min_eq_left h.le]
      have := roundFloat32_nat (k + 1) (by omega) h
      push_cast at this ⊢
      exact this
    · rw [min_eq_right h]
      rcases Nat.eq_or_lt_of_le h with h2 | h2
      · have hk2 : (k : ℚ) + 1 = 16777216 := by
          have : ((k + 1 : ℕ) : ℚ) = ((2 ^ 24 : ℕ) : ℚ) := by rw [← h2]
          push_cast at this
          rw [this]
        rw [hk2]
        have : roundFloat32 16777216 = 16777216 := by decide!
        rw [this]
        norm_num
      · have hk3 : k = 2 ^ 24 := by omega
        have hk2 : (k : ℚ) + 1 = 16777217 := by
          rw [hk3]
          norm_num
        rw [hk2]
        have : roundFloat32 16777217 = 16777216 := by decide!
        rw [this]
        norm_num
  have hlt : ((min (k + 1) (2 ^ 24) : ℕ) : ℚ) < 33554432 := by
    have h1 : min (k + 1) (2 ^ 24) ≤ 2 ^ 24 := min_le_right _ _
    have h2 : ((min (k + 1) (2 ^ 24) : ℕ) : ℚ) ≤ ((2 ^ 24 : ℕ) : ℚ) := by exact_mod_cast h1
    have h3 : ((2 ^ 24 : ℕ) : ℚ) = 16777216 := by norm_num
    rw [h3] at h2
    linarith
  have hdone : IsDone { singleFrameCapture 33554432 with timeElapsed_ := (k : ℚ) } = false := by
    rfl
  have hdelay : (singleFrameCapture 33554432).delay_ = 33554432 := rfl
  unfold UpdateFloat32
  rw [hdone]
  simp only [Bool.false_eq_true, if_false, hround]
  rw [if_pos (by rw [hdelay]; exact hlt)]

/-- In single precision the capture with delay 2^25 driven at the step 1 only waits: its
elapsed time never exceeds 2^24. -/
theorem ticksFloat32_stall (n : ℕ) :
    ticksFloat32 1 n (singleFrameCapture 33554432) =
      { singleFrameCapture 33554432 with timeElapsed_ := ((min n (2 ^ 24) : ℕ) : ℚ) } := by
  induction n with
  | zero =>
    show singleFrameCapture 33554432 = _
    simp [singleFrameCapture]
  | succ m ih =>
    rw [ticksFloat32_succ, ih, UpdateFloat32_stall _ (min_le_right _ _)]
    rcases Nat.lt_or_ge m (2 ^ 24) with h | h
    · rw [min_eq_left h.le, min_eq_left (by omega : m + 1 ≤ 2 ^ 24)]
    · rw [min_eq_right h, min_eq_right (by omega : 2 ^ 24 ≤ m + 1)]
      rfl

/-- Counterexample to claim C8 as stated, where the code accumulates the elapsed time in
single precision. The capture with delay 1 is driven at the step 1/60 (as a `float`): its
60th tick is the first whose elapsed time, 60 steps, is at least 1, and in exact
arithmetic the capture is Complete after it; the accumulated `float` is 0.9999997 there,
no render has been requested, and the render is requested on the 61st tick. The capture
with delay 2^25 driven at the step 1 never requests a render: its accumulated elapsed
time stops at 2^24, where adding 1 is rounded away, and it stays Pending. -/
theorem single_frame_delay_gating_counterexample :
    (59 * roundFloat32 (1 / 60) < 1 ∧ 1 ≤ 60 * roundFloat32 (1 / 60)) ∧
      (run (Image.solid Color.BLACK) (roundFloat32 (1 / 60)) 60 (singleFrameCapture 1)).state_ =
        VisualTestCaptureState.Complete ∧
      (ticksFloat32 (roundFloat32 (1 / 60)) 60 (singleFrameCapture 1)).timeElapsed_ =
        16777211 / 16777216 ∧
      (ticksFloat32 (roundFloat32 (1 / 60)) 60 (singleFrameCapture 1)).state_ =
        VisualTestCaptureState.Pending ∧
      renderRequests (ticksFloat32 (roundFloat32 (1 / 60)) 60 (singleFrameCapture 1)).trace =
        [] ∧
      renderRequests (ticksFloat32 (roundFloat32 (1 / 60)) 61 (singleFrameCapture 1)).trace =
        [266513 / 262144] ∧
      ∀ n : ℕ,
        renderRequests (ticksFloat32 1 n (singleFrameCapture 33554432)).trace = [] ∧
        (ticksFloat32 1 n (singleFrameCapture 33554432)).state_ =
          VisualTestCaptureState.Pending ∧
        (ticksFloat32 1 n (singleFrameCapture 33554432)).timeElapsed_ ≤ 16777216 ∧
        (ticksFloat32 1 n (singleFrameCapture 33554432)).timeElapsed_ <
          (singleFrameCapture 33554432).delay_ := by
  refine ⟨by decide!, by decide!, by decide!, by decide!, by decide!, by decide!, fun n => ?_⟩
  rw [ticksFloat32_stall]
  have h1 : min n (2 ^ 24) ≤ 2 ^ 24 := min_le_right _ _
  have h2 : ((min n (2 ^ 24) : ℕ) : ℚ) ≤ ((2 ^ 24 : ℕ) : ℚ) := by exact_mod_cast h1
  have h3 : ((2 ^ 24 : ℕ) : ℚ) = 16777216 := by norm_num
  rw [h3] at h2
  have hdelay : (singleFrameCapture 33554432).delay_ = 33554432 := rfl
  refine ⟨rfl, rfl, h2, ?_⟩
  show ((min n (2 ^ 24) : ℕ) : ℚ) < (singleFrameCapture 33554432).delay_
  rw [hdelay]
  linarith

end VisualTestCapture

/-! ## Properties of the test controller -/

namespace VisualTest

theorem outputPath_not_empty (root name : String) : (root ++ "/" ++ name).isEmpty = false := by
  cases h : (root ++ "/" ++ name).isEmpty with
  | false => rfl
  | true =>
    have h1 := (String.isEmpty_iff _).mp h
    have h2 := congrArg String.length h1
    simp only [String.length_append] at h2
    have h3 : "/".length = 1 := by decide
    rw [h3] at h2
    have h4 : "".length = 0 := by decide
    rw [h4] at h2
    omega

/-- The test and the context `Fail` leaves. -/
theorem Fail_eq (t : VisualTest) (ctx : Context) (message : String) :
    t.Fail ctx message =
      ({ t with
          state_ := VisualTestState.Failed
          scene_ := none
          subscribedSceneUpdate := false
          subscribedCaptureFailed := false
          subscribedCaptureImageReady := false
          calls := t.calls ++ [TestCall.OnFail message, TestCall.OnFinish] },
        { ctx with harness := ctx.harness.Error (t.name_ ++ " Failed: " ++ message) }) := by
  simp [Fail, FailInternal, OnFail, Finish, OnFinish]

theorem Fail_state (t : VisualTest) (ctx : Context) (message : String) :
    (t.Fail ctx message).1.state_ = VisualTestState.Failed := by
  rw [Fail_eq]

/-- Claim C17, as amended: for a test that is Passed or Failed the frame-end completion
check leaves the test unchanged; `Fail` and the default capture-failed and
capture-image-ready handlers leave a Failed test Failed. -/
theorem terminal_states (sqrt : ℚ → ℚ) (t : VisualTest) (ctx : Context)
    (hterminal : t.state_ = VisualTestState.Passed ∨ t.state_ = VisualTestState.Failed) :
    t.HandleFrameEnd = t ∧ t.CheckComplete = t ∧
      (t.state_ = VisualTestState.Failed →
        (∀ message : String, (t.Fail ctx message).1.state_ = t.state_) ∧
        (∀ (capture : VisualTestCapture) (reason : String),
          (t.HandleCaptureFailed ctx capture reason).1.state_ = t.state_) ∧
        (∀ capture : VisualTestCapture,
          (HandleCaptureReady sqrt t ctx capture).1.state_ = t.state_)) := by
  refine ⟨?_, ?_, ?_⟩
  · rcases hterminal with h | h <;>
    simp [HandleFrameEnd, IsComplete, IsFailed, IsPassed, IsState, h]
  · rcases hterminal with h | h <;> simp [CheckComplete, IsState, h]
  · intro hf
    refine ⟨fun message => ?_, fun capture reason => ?_, fun capture => ?_⟩
    · rw [Fail_state, hf]
    · rw [HandleCaptureFailed, OnCaptureFailed, Fail_state, hf]
    · unfold HandleCaptureReady OnCaptureImageReady CompareCaptureImage
      simp only []
      split
      · exact rfl
      · split
        · rw [Fail_state, hf]
        · exact rfl

/-- Witness of claim C17's theorem: the test failed by its scene loader stays Failed under
the frame-end check and a second `Fail`. -/
theorem terminal_states_witness :
    failedTest.state_ = VisualTestState.Failed ∧
      failedTest.HandleFrameEnd.state_ = VisualTestState.Failed ∧
      (failedTest.Fail outputContext "again").1.state_ = VisualTestState.Failed := by
  have h := terminal_states Rat.sqrt failedTest outputContext (Or.inr (by decide!))
  rw [h.1, (h.2.2 (by decide!)).1 "again"]
  exact ⟨by decide!, by decide!, by decide!⟩

/-- Counterexample to claim C17 as stated: the test "T" has passed; `Start` puts it back
to Running, and `Fail` and the capture-failed handler make it Failed; a test failed by
`Fail` is put to Running by `Start`. -/
theorem terminal_states_counterexample :
    passedTest.state_ = VisualTestState.Passed ∧
      (passedTest.Start outputContext).1.state_ = VisualTestState.Running ∧
      (passedTest.Fail outputContext "late failure").1.state_ = VisualTestState.Failed ∧
      (passedTest.HandleCaptureFailed outputContext (singleFrameCapture 0)
        "Texture read failed").1.state_ = VisualTestState.Failed ∧
      ((namedTest emptySceneLoader).Fail outputContext "early failure").1.state_ =
        VisualTestState.Failed ∧
      (VisualTest.Start ((namedTest emptySceneLoader).Fail outputContext "early failure").1
        outputContext).1.state_ = VisualTestState.Running := by
  decide!

theorem applyLoaderFailures_nil (t : VisualTest) (ctx : Context) :
    applyLoaderFailures t ctx [] = (t, ctx) := rfl

theorem applyLoaderFailures_state (failures : List String) (t : VisualTest) (ctx : Context)
    (hne : failures ≠ []) :
    (applyLoaderFailures t ctx failures).1.state_ = VisualTestState.Failed := by
  induction failures generalizing t ctx with
  | nil => exact absurd rfl hne
  | cons message rest ih =>
    cases rest with
    | nil => simp [applyLoaderFailures, Fail_state]
    | cons m2 rest2 =>
      rw [applyLoaderFailures]
      exact ih _ _ (by simp)

theorem Ensure_starting (t : VisualTest) (ctx : Context) (s : VisualTestState) :
    EnsureOutputDirectoryExists { t with state_ := s } ctx = t.EnsureOutputDirectoryExists ctx :=
  rfl

theorem Clean_starting (t : VisualTest) (ctx : Context) (s : VisualTestState) :
    CleanOutputDirectory { t with state_ := s } ctx = t.CleanOutputDirectory ctx := by
  have h : ∀ files fs, deleteFiles { t with state_ := s } ctx files fs = deleteFiles t ctx files fs := by
    intro files
    induction files with
    | nil => intro fs; rfl
    | cons file rest ih =>
      intro fs
      simp only [deleteFiles]
      rw [ih]
      rfl
  simp only [CleanOutputDirectory, h]
  rfl

theorem GetOutputPath_root (t : VisualTest) (ctx : Context) :
    (t.GetOutputPath ctx "").isEmpty = false := by
  have h : t.GetOutputPath ctx "" = ctx.harness.outputRoot_ ++ "/" ++ t.name_ := by
    have he : "".isEmpty = true := by decide
    simp [GetOutputPath, VisualTestHarness.GetOutputPath, he]
  rw [h]
  exact outputPath_not_empty _ _

/-- `Start` as a chain of its checks. -/
theorem Start_eq (t : VisualTest) (ctx : Context) :
    t.Start ctx =
      (let t1 : VisualTest := { t with state_ := VisualTestState.Starting }
      if t.name_.isEmpty = true then t1.Fail ctx "No name assigned for test"
      else if (t.EnsureOutputDirectoryExists ctx).1 = false then
        t1.Fail (t.EnsureOutputDirectoryExists ctx).2 "Couldn't create output directory"
      else if (t.CleanOutputDirectory (t.EnsureOutputDirectoryExists ctx).2).1 = false then
        t1.Fail (t.CleanOutputDirectory (t.EnsureOutputDirectoryExists ctx).2).2
          "Couldn't clean output directory"
      else
        match t.sceneLoader_ with
        | none =>
          t1.Fail (t.CleanOutputDirectory (t.EnsureOutputDirectoryExists ctx).2).2
            "No scene loader assigned for test"
        | some sceneLoader =>
          let loaded := applyLoaderFailures { t1 with calls := t.calls ++ [TestCall.sceneLoader] }
            (t.CleanOutputDirectory (t.EnsureOutputDirectoryExists ctx).2).2
            (sceneLoader t.name_ t.variables_).failures
          let t2 : VisualTest := { loaded.1 with scene_ := (sceneLoader t.name_ t.variables_).scene }
          if t2.state_ = VisualTestState.Failed then (t2, loaded.2)
          else
            match (sceneLoader t.name_ t.variables_).scene with
            | none => t2.Fail loaded.2 "No scene loaded"
            | some _ =>
              (VisualTest.OnStartup
                { t2 with
                  subscribedCaptureFailed := true
                  subscribedCaptureImageReady := true
                  subscribedSceneUpdate := true
                  subscribedEndFrame := true
                  state_ := VisualTestState.Running }, loaded.2)) := by
  have hp := GetOutputPath_root { t with state_ := VisualTestState.Starting } ctx
  unfold Start
  simp only [hp, Ensure_starting, Clean_starting, IsFailed, IsState]
  by_cases hname : t.name_.isEmpty = true
  · simp [hname]
  · by_cases hens : (t.EnsureOutputDirectoryExists ctx).1 = false
    · simp [hname, hens]
    · by_cases hcl : (t.CleanOutputDirectory (t.EnsureOutputDirectoryExists ctx).2).1 = false
      · simp [hname, hens, hcl]
      · cases hl : t.sceneLoader_ with
        | none => simp [hname, hens, hcl]
        | some sceneLoader =>
          cases hsc : (sceneLoader t.name_ t.variables_).scene <;>
          simp [hname, hens, hcl, hsc]

/-- Claim C18: `Start()` ends Failed or Running. It ends Failed, having called neither
the scene loader nor the startup hook and without the subscriptions of a running test, if
the name is empty, the output directory cannot be created or cannot be cleaned, or no
scene loader is configured; it ends Failed if the loader returns no scene; and it ends
Running, holding the scene the loader returned, when all checks pass and the loader
returns a scene without failing the test. -/
theorem start_outcome (t : VisualTest) (ctx : Context) :
    ((t.Start ctx).1.state_ = VisualTestState.Failed ∨
        (t.Start ctx).1.state_ = VisualTestState.Running) ∧
      ((t.name_.isEmpty = true ∨ (t.EnsureOutputDirectoryExists ctx).1 = false ∨
          (t.CleanOutputDirectory (t.EnsureOutputDirectoryExists ctx).2).1 = false ∨
          t.sceneLoader_ = none) →
        ∃ reason : String,
          (t.Start ctx).1 =
            { t with
              state_ := VisualTestState.Failed
              scene_ := none
              subscribedSceneUpdate := false
              subscribedCaptureFailed := false
              subscribedCaptureImageReady := false
              calls := t.calls ++ [TestCall.OnFail reason, TestCall.OnFinish] }) ∧
      (∀ sceneLoader : SceneLoader, t.sceneLoader_ = some sceneLoader →
        (sceneLoader t.name_ t.variables_).scene = none →
        (t.Start ctx).1.state_ = VisualTestState.Failed) ∧
      (∀ (sceneLoader : SceneLoader) (scene : Scene), t.name_.isEmpty = false →
        (t.EnsureOutputDirectoryExists ctx).1 = true →
        (t.CleanOutputDirectory (t.EnsureOutputDirectoryExists ctx).2).1 = true →
        t.sceneLoader_ = some sceneLoader →
        (sceneLoader t.name_ t.variables_).failures = [] →
        (sceneLoader t.name_ t.variables_).scene = some scene →
        (t.Start ctx).1.state_ = VisualTestState.Running ∧
          (t.Start ctx).1.scene_ = some scene ∧
          (t.Start ctx).1.calls = t.calls ++ [TestCall.sceneLoader, TestCall.OnStartup]) := by
  rw [Start_eq]
  by_cases hname : t.name_.isEmpty = true
  · simp [hname, Fail_eq]
  · by_cases hens : (t.EnsureOutputDirectoryExists ctx).1 = false
    · simp [hname, hens, Fail_eq]
    · by_cases hcl : (t.CleanOutputDirectory (t.EnsureOutputDirectoryExists ctx).2).1 = false
      · simp [hname, hens, hcl, Fail_eq]
      · cases hl : t.sceneLoader_ with
        | none => simp [hname, hens, hcl, Fail_eq]
        | some sceneLoader =>
          simp only [hname, hens, hcl, Bool.false_eq_true, if_false, false_or, or_false,
            false_implies, true_and, Option.some.injEq, forall_eq', Bool.not_eq_false,
            forall_const, not_true_eq_false, not_false_eq_true]
          cases hfl : (sceneLoader t.name_ t.variables_).failures with
          | nil =>
            cases hsc : (sceneLoader t.name_ t.variables_).scene with
            | none =>
              simp [applyLoaderFailures_nil, Fail_eq]
              rintro l s rfl _ h
              rw [hsc] at h
              cases h
            | some scene =>
              simp [applyLoaderFailures_nil, OnStartup]
              rintro l s rfl _ h
              rw [hsc] at h
              exact Option.some.inj h
          | cons message rest =>
            have hs := fun t1 ctx1 =>
              applyLoaderFailures_state (message :: rest) t1 ctx1 (by simp)
            simp [hs]
            rintro l s rfl h
            rw [hfl] at h
            cases h

/-- Witness of claim C18: the test "T" with a loader that returns a scene starts running;
without a name, or with an output directory that cannot be created, it fails. -/
theorem start_outcome_witness :
    ((namedTest emptySceneLoader).Start outputContext).1.state_ = VisualTestState.Running ∧
      (VisualTest.Start { sceneLoader_ := some emptySceneLoader } outputContext).1.state_ =
        VisualTestState.Failed ∧
      ((namedTest emptySceneLoader).Start
        { fileSystem := { creatable := fun _ => false } }).1.state_ =
        VisualTestState.Failed := by
  have h1 := ((start_outcome (namedTest emptySceneLoader) outputContext).2.2.2
    emptySceneLoader ⟨1, []⟩ (by decide!) (by decide!) (by decide!) rfl rfl rfl).1
  exact ⟨h1, by decide!, by decide!⟩

/-- `Start` with a scene loader that is reached (name, output directory and loader are
in order) and fails the test: the test is Failed and its scene member holds whatever the
loader returned. -/
theorem Start_of_loader_failure (t : VisualTest) (ctx : Context) (sceneLoader : SceneLoader)
    (hname : t.name_.isEmpty = false)
    (hensure : (t.EnsureOutputDirectoryExists ctx).1 = true)
    (hclean : (t.CleanOutputDirectory (t.EnsureOutputDirectoryExists ctx).2).1 = true)
    (hloader : t.sceneLoader_ = some sceneLoader)
    (hfail : (sceneLoader t.name_ t.variables_).failures ≠ []) :
    (t.Start ctx).1.state_ = VisualTestState.Failed ∧
      (t.Start ctx).1.scene_ = (sceneLoader t.name_ t.variables_).scene := by
  rw [Start_eq]
  simp only [hname, hensure, hclean, hloader, Bool.false_eq_true, if_false]
  have hs := fun t1 ctx1 =>
    applyLoaderFailures_state (sceneLoader t.name_ t.variables_).failures t1 ctx1 hfail
  simp [hs]

/-- Claim C19, evaluated where the code departs from it: the scene loader fails the test
and returns a scene; after `Start()` the test is Failed and `GetScene()` is the returned
scene, not null. -/
theorem start_loader_failure_keeps_scene :
    ((namedTest failingSceneLoader).Start outputContext).1.state_ = VisualTestState.Failed ∧
      ((namedTest failingSceneLoader).Start outputContext).1.GetScene.isSome = true := by
  decide!

theorem HasCapturesRemaining_eq_false (t : VisualTest) :
    t.HasCapturesRemaining = false ↔
      ∀ scene, t.scene_ = some scene → ∀ capture ∈ scene.captures, capture.IsDone = true := by
  unfold HasCapturesRemaining
  cases h : t.scene_ with
  | none => simp
  | some scene => simp

/-- Claim C20: the frame-end completion check changes a test exactly when it is Running
and every capture of its scene is done; the test then is Passed, has run its teardown
hook and holds no scene. A Running test with a capture that is not done and a test in any
other state are left unchanged. A Running test whose scene has no capture passes. -/
theorem frame_end_check (t : VisualTest) :
    t.HandleFrameEnd = t.CheckComplete ∧
      ((t.state_ = VisualTestState.Running ∧
          ∀ scene, t.scene_ = some scene → ∀ capture ∈ scene.captures, capture.IsDone = true) →
        t.HandleFrameEnd =
          { t with
            state_ := VisualTestState.Passed
            scene_ := none
            subscribedSceneUpdate := false
            subscribedCaptureFailed := false
            subscribedCaptureImageReady := false
            calls := t.calls ++ [TestCall.OnFinish] }) ∧
      ((t.state_ = VisualTestState.Running ∧
          ∃ scene, t.scene_ = some scene ∧ ∃ capture ∈ scene.captures, capture.IsDone = false) →
        t.HandleFrameEnd = t) ∧
      (t.state_ ≠ VisualTestState.Running → t.HandleFrameEnd = t) ∧
      (∀ scene, t.state_ = VisualTestState.Running → t.scene_ = some scene →
        scene.captures = [] → t.HandleFrameEnd.state_ = VisualTestState.Passed) := by
  have hpass : (t.state_ = VisualTestState.Running ∧
      ∀ scene, t.scene_ = some scene → ∀ capture ∈ scene.captures, capture.IsDone = true) →
      t.HandleFrameEnd =
        { t with
          state_ := VisualTestState.Passed
          scene_ := none
          subscribedSceneUpdate := false
          subscribedCaptureFailed := false
          subscribedCaptureImageReady := false
          calls := t.calls ++ [TestCall.OnFinish] } := by
    rintro ⟨hrun, hall⟩
    have hrem := (HasCapturesRemaining_eq_false t).mpr hall
    simp [HandleFrameEnd, CheckComplete, IsComplete, IsFailed, IsPassed, IsState, hrun, hrem,
      Finish, OnFinish]
  refine ⟨?_, hpass, ?_, ?_, ?_⟩
  · by_cases hf : t.state_ = VisualTestState.Failed
    · simp [HandleFrameEnd, CheckComplete, IsComplete, IsFailed, IsPassed, IsState, hf]
    · by_cases hp : t.state_ = VisualTestState.Passed
      · simp [HandleFrameEnd, CheckComplete, IsComplete, IsFailed, IsPassed, IsState, hp]
      · simp [HandleFrameEnd, IsComplete, IsFailed, IsPassed, IsState, hf, hp]
  · rintro ⟨hrun, scene, hscene, capture, hmem, hnd⟩
    have hrem : t.HasCapturesRemaining = true := by
      cases h : t.HasCapturesRemaining with
      | true => rfl
      | false =>
        have := (HasCapturesRemaining_eq_false t).mp h scene hscene capture hmem
        rw [hnd] at this
        cases this
    simp [HandleFrameEnd, CheckComplete, IsComplete, IsFailed, IsPassed, IsState, hrun, hrem]
  · intro hnr
    by_cases hf : t.state_ = VisualTestState.Failed
    · simp [HandleFrameEnd, IsComplete, IsFailed, IsPassed, IsState, hf]
    · by_cases hp : t.state_ = VisualTestState.Passed
      · simp [HandleFrameEnd, IsComplete, IsFailed, IsPassed, IsState, hp]
      · simp [HandleFrameEnd, CheckComplete, IsComplete, IsFailed, IsPassed, IsState, hf, hp,
          hnr]
  · intro scene hrun hscene hempty
    rw [hpass ⟨hrun, ?_⟩]
    intro scene2 hscene2 capture hmem
    rw [hscene] at hscene2
    cases hscene2
    rw [hempty] at hmem
    cases hmem

/-- Witness of claim C20: the running test with a pending capture is left unchanged, the
running test without captures passes and releases its scene. -/
theorem frame_end_check_witness :
    runningTest.state_ = VisualTestState.Running ∧
      runningTest.HandleFrameEnd.state_ = VisualTestState.Running ∧
      runningTest.HandleFrameEnd.GetScene.isSome = true ∧
      ((namedTest emptySceneLoader).Start outputContext).1.state_ = VisualTestState.Running ∧
      passedTest.state_ = VisualTestState.Passed ∧
      passedTest.GetScene.isSome = false := by
  have h1 := (frame_end_check runningTest).2.2.1 ⟨by decide!, ⟨1, [singleFrameCapture 0]⟩,
    rfl, singleFrameCapture 0, by simp, by decide!⟩
  have h2 := (frame_end_check ((namedTest emptySceneLoader).Start outputContext).1).2.2.2.2
    ⟨1, []⟩ (by decide!) rfl rfl
  rw [h1]
  exact ⟨by decide!, by decide!, by decide!, by decide!, h2, by decide!⟩

/-- The default capture-failed handler fails the test with a message made of the name of
the test and the name of the capture. -/
theorem HandleCaptureFailed_eq (t : VisualTest) (ctx : Context) (capture : VisualTestCapture)
    (reason : String) :
    t.HandleCaptureFailed ctx capture reason =
      t.Fail ctx ("Capture (" ++ t.name_ ++ ") failed, " ++ capture.name_) := rfl

/-- Claim C21, evaluated where the code departs from it: the running test "T" is told that
its capture "capture" failed for the reason "Texture read failed". The test becomes Failed
and releases its scene, and the message reported to the harness names the test and the
capture, but the reason string is not part of it. -/
theorem capture_failed_drops_reason :
    runningTest.state_ = VisualTestState.Running ∧
      (runningTest.HandleCaptureFailed outputContext (singleFrameCapture 0)
        "Texture read failed").1.state_ = VisualTestState.Failed ∧
      (runningTest.HandleCaptureFailed outputContext (singleFrameCapture 0)
        "Texture read failed").1.GetScene.isSome = false ∧
      (runningTest.HandleCaptureFailed outputContext (singleFrameCapture 0)
        "Texture read failed").2.harness.errors = ["T Failed: Capture (T) failed, capture"] ∧
      "capture".data <:+: "T Failed: Capture (T) failed, capture".data ∧
      ¬ ("Texture read failed".data <:+: "T Failed: Capture (T) failed, capture".data) := by
  decide!

theorem GetGoldenImage_saved (t : VisualTest) (ctx : Context) (capture : VisualTestCapture)
    (imageFileName : String) :
    t.GetGoldenImage (t.SaveCaptureImageToFile ctx capture) imageFileName =
      t.GetGoldenImage ctx imageFileName := by
  unfold SaveCaptureImageToFile GetGoldenImage
  simp only []
  split
  · rfl
  · split <;> rfl

/-- Claim C22: a Running test handles a capture-image-ready notification with the default
handler. If no golden image is found under the file name of the capture, the test is
unchanged and an error is reported to the harness. If a golden image is found, the test
becomes Failed exactly when the match fraction `CompareImages` returns for the capture
image and the golden image is below 1, and is unchanged (Running) otherwise. -/
theorem capture_ready_outcome (sqrt : ℚ → ℚ) (t : VisualTest) (ctx : Context)
    (capture : VisualTestCapture) (hrunning : t.state_ = VisualTestState.Running) :
    (t.GetGoldenImage ctx capture.GetImageFileName = none →
        (HandleCaptureReady sqrt t ctx capture).1 = t ∧
        (HandleCaptureReady sqrt t ctx capture).2.harness.errors =
          (t.SaveCaptureImageToFile ctx capture).harness.errors ++
            ["Capture (" ++ t.name_ ++ "/" ++ capture.GetImageFileName ++
              ") doesn't have a golden image for comparison"]) ∧
      (∀ golden : Image, t.GetGoldenImage ctx capture.GetImageFileName = some golden →
        ((HandleCaptureReady sqrt t ctx capture).1.state_ = VisualTestState.Failed ↔
          (CompareImages sqrt {} capture.GetImage (some golden)).pixelMatchPercent_.ltConst 1
            = true) ∧
        ((CompareImages sqrt {} capture.GetImage (some golden)).pixelMatchPercent_.ltConst 1
            = false →
          (HandleCaptureReady sqrt t ctx capture).1 = t ∧
          (HandleCaptureReady sqrt t ctx capture).1.state_ = VisualTestState.Running)) := by
  have hg := GetGoldenImage_saved t ctx capture capture.GetImageFileName
  refine ⟨fun hnone => ?_, fun golden hsome => ?_⟩
  · rw [← hg] at hnone
    simp [HandleCaptureReady, OnCaptureImageReady, CompareCaptureImage, hnone,
      VisualTestHarness.Error]
  · rw [← hg] at hsome
    cases hlt : (CompareImages sqrt {} capture.GetImage (some golden)).pixelMatchPercent_.ltConst 1
    · simp [HandleCaptureReady, OnCaptureImageReady, CompareCaptureImage, hsome, hlt, hrunning]
    · simp [HandleCaptureReady, OnCaptureImageReady, CompareCaptureImage, hsome, hlt, Fail_state]

/-- Witness of claim C22: the running test "T" receives the image of its capture
"capture". With an equal golden image it stays Running, with a different golden image it
becomes Failed, and without a golden image it stays Running. -/
theorem capture_ready_outcome_witness :
    runningTest.state_ = VisualTestState.Running ∧
      (HandleCaptureReady Rat.sqrt runningTest (goldenContext (Image.solid Color.BLACK))
        (readCapture (Image.solid Color.BLACK))).1.state_ = VisualTestState.Running ∧
      (HandleCaptureReady Rat.sqrt runningTest (goldenContext (Image.solid (Color.rgb 1 0 0)))
        (readCapture (Image.solid Color.BLACK))).1.state_ = VisualTestState.Failed ∧
      (HandleCaptureReady Rat.sqrt runningTest outputContext
        (readCapture (Image.solid Color.BLACK))).1 = runningTest := by
  have hrun : runningTest.state_ = VisualTestState.Running := by decide!
  have hfile : ∀ ctx : Context,
      runningTest.GetGoldenPath ctx (readCapture (Image.solid Color.BLACK)).GetImageFileName =
        "T/capture.png" := fun ctx => by
    have hn : (readCapture (Image.solid Color.BLACK)).GetImageFileName = "capture.png" := by
      decide!
    have ht : runningTest.name_ = "T" := by decide!
    rw [hn, GetGoldenPath, VisualTestHarness.GetGoldenPath, ht]
    decide
  have hgolden : ∀ golden : Image,
      runningTest.GetGoldenImage (goldenContext golden)
        (readCapture (Image.solid Color.BLACK)).GetImageFileName = some golden := fun golden => by
    unfold GetGoldenImage
    rw [hfile]
    simp [goldenContext]
  have h1 := ((capture_ready_outcome Rat.sqrt runningTest (goldenContext (Image.solid Color.BLACK))
    (readCapture (Image.solid Color.BLACK)) hrun).2 (Image.solid Color.BLACK) (hgolden _)).2
      (by decide!)
  have h2 := ((capture_ready_outcome Rat.sqrt runningTest
    (goldenContext (Image.solid (Color.rgb 1 0 0)))
    (readCapture (Image.solid Color.BLACK)) hrun).2 (Image.solid (Color.rgb 1 0 0))
      (hgolden _)).1.mpr (by decide!)
  have h3 := ((capture_ready_outcome Rat.sqrt runningTest outputContext
    (readCapture (Image.solid Color.BLACK)) hrun).1 rfl).1
  exact ⟨hrun, h1.2, h2, h3⟩

/-- Claim C23, as amended: `Finish()` runs the teardown hook, ends the subscriptions to
the three notifications of the scene (capture-failed, capture-image-ready, scene-update)
and releases the scene; everything else, the subscription to the frame-end signal
included, is left as it was. This holds where `Finish()` is reached from a failure and
where it is reached from passing. -/
theorem finish_effects (t : VisualTest) :
    t.Finish =
        { t with
          scene_ := none
          subscribedSceneUpdate := false
          subscribedCaptureFailed := false
          subscribedCaptureImageReady := false
          calls := t.calls ++ [TestCall.OnFinish] } ∧
      t.Finish.subscribedEndFrame = t.subscribedEndFrame ∧
      (∀ (ctx : Context) (message : String),
        (t.Fail ctx message).1 =
          VisualTest.Finish
            { t with
              state_ := VisualTestState.Failed
              calls := t.calls ++ [TestCall.OnFail message] }) ∧
      (t.state_ = VisualTestState.Running → t.HasCapturesRemaining = false →
        t.CheckComplete = VisualTest.Finish { t with state_ := VisualTestState.Passed }) := by
  refine ⟨rfl, rfl, fun ctx message => rfl, fun hrun hrem => ?_⟩
  simp [CheckComplete, IsState, hrun, hrem]

/-- Counterexample to claim C23 as stated: the test "T" has passed through `Finish()` at
the end of a frame and is still subscribed to the frame-end signal; so is the running test
"T" after `Finish()` and after a failure. -/
theorem finish_effects_counterexample :
    passedTest.state_ = VisualTestState.Passed ∧
      passedTest.subscribedEndFrame = true ∧
      runningTest.Finish.subscribedEndFrame = true ∧
      (runningTest.Fail outputContext "failure").1.subscribedEndFrame = true := by
  decide!

theorem GetSwitch_setVariables (values : List (String × Variant)) (t : VisualTest)
    (name : String) (hname : name ∉ values.map Prod.fst) :
    (t.setVariables values).GetSwitch name = t.GetSwitch name := by
  induction values generalizing t with
  | nil => rfl
  | cons value rest ih =>
    simp only [List.map_cons, List.mem_cons, not_or] at hname
    have h := ih (t.SetVariable value.1 value.2) hname.2
    simp only [setVariables, List.foldl_cons] at h ⊢
    rw [h]
    simp [GetSwitch, GetVariable, SetVariable, hname.1]

/-- Claim C24: after `SetSwitch(n, b)`, `GetSwitch(n)` is `b` and `GetVariable(n)` is the
boolean value `b`; the switch and the variable of every other name are unchanged, and so
are all other members of the test; `GetSwitch(n)` is false for a name absent from the
variables, in particular for every name that no call of `SetVariable` (or `SetSwitch`) on
a new test has set. -/
theorem switch_view (t : VisualTest) (n : String) (b : Bool) :
    (t.SetSwitch n b).GetSwitch n = b ∧
      (t.SetSwitch n b).GetVariable n = Variant.ofBool b ∧
      (∀ m : String, m ≠ n →
        (t.SetSwitch n b).GetSwitch m = t.GetSwitch m ∧
        (t.SetSwitch n b).GetVariable m = t.GetVariable m) ∧
      t.SetSwitch n b = { t with variables_ := (t.SetSwitch n b).variables_ } ∧
      (t.variables_ n = none → t.GetSwitch n = false) ∧
      (∀ values : List (String × Variant), n ∉ values.map Prod.fst →
        (VisualTest.setVariables {} values).GetSwitch n = false) := by
  refine ⟨?_, ?_, ?_, rfl, ?_, ?_⟩
  · simp [SetSwitch, SetVariable, GetSwitch, GetVariable, Variant.GetBool]
  · simp [SetSwitch, SetVariable, GetVariable]
  · intro m hm
    simp [SetSwitch, SetVariable, GetSwitch, GetVariable, hm]
  · intro h
    simp [GetSwitch, GetVariable, h, Variant.GetBool]
  · intro values hn
    rw [GetSwitch_setVariables values {} n hn]
    rfl

/-- Claim C27: the output path of a test is `<outputRoot>/<testName>` for the empty
subpath and `<outputRoot>/<testName>/<subpath>` for any other; the golden path is
`<testName>/<subpath>`, whatever the output root and the golden root (and everything else
the context holds). -/
theorem test_paths (t : VisualTest) (ctx : Context) (subpath : String) :
    (subpath = "" → t.GetOutputPath ctx subpath = ctx.harness.outputRoot_ ++ "/" ++ t.name_) ∧
      (subpath ≠ "" →
        t.GetOutputPath ctx subpath =
          ctx.harness.outputRoot_ ++ "/" ++ t.name_ ++ "/" ++ subpath) ∧
      t.GetGoldenPath ctx subpath = t.name_ ++ "/" ++ subpath ∧
      (∀ ctx2 : Context, t.GetGoldenPath ctx2 subpath = t.GetGoldenPath ctx subpath) := by
  refine ⟨?_, ?_, rfl, fun ctx2 => rfl⟩
  · intro h
    have he : subpath.isEmpty = true := (String.isEmpty_iff _).mpr h
    simp [GetOutputPath, VisualTestHarness.GetOutputPath, he]
  · intro h
    have he : subpath.isEmpty = false := by
      cases hs : subpath.isEmpty with
      | false => rfl
      | true => exact absurd ((String.isEmpty_iff _).mp hs) h
    simp [GetOutputPath, VisualTestHarness.GetOutputPathSub, he]

/-- The file name of the image of a capture is not empty. -/
theorem GetImageFileName_not_empty (capture : VisualTestCapture) :
    capture.GetImageFileName ≠ "" := by
  intro h
  have h1 := congrArg String.length h
  have h2 : "".length = 0 := by decide
  have h3 : ".".length = 1 := by decide
  rw [h2] at h1
  unfold VisualTestCapture.GetImageFileName at h1
  simp only [] at h1
  split at h1 <;> simp only [String.length_append, h3] at h1 <;> omega

/-- Claim C36: the output path the harness gives a test is never empty, it contains the
separator "/", whatever the output root and the name of the test; so is the output path
of a test for the empty subpath, and `Start()` fails for an empty name or goes on to the
output directory: its branch "No output path for test" is never taken. -/
theorem output_path_not_empty (t : VisualTest) (ctx : Context) :
    (∀ (h : VisualTestHarness) (testName : String),
        (h.GetOutputPath testName).isEmpty = false ∧
        "/".data <:+: (h.GetOutputPath testName).data) ∧
      (t.GetOutputPath ctx "").isEmpty = false ∧
      "/".data <:+: (t.GetOutputPath ctx "").data ∧
      t.Start ctx =
        (if t.name_.isEmpty then
          VisualTest.Fail { t with state_ := VisualTestState.Starting } ctx
            "No name assigned for test"
        else
          VisualTest.startFromOutputDirectory { t with state_ := VisualTestState.Starting }
            ctx) := by
  have hharness : ∀ (h : VisualTestHarness) (testName : String),
      (h.GetOutputPath testName).isEmpty = false ∧
      "/".data <:+: (h.GetOutputPath testName).data := fun h testName =>
    ⟨outputPath_not_empty _ _,
      ⟨h.outputRoot_.data, testName.data, by simp [VisualTestHarness.GetOutputPath]⟩⟩
  have hpath : t.GetOutputPath ctx "" = ctx.harness.GetOutputPath t.name_ := by
    have he : "".isEmpty = true := by decide
    simp [GetOutputPath, he]
  refine ⟨hharness, ?_, ?_, ?_⟩
  · rw [hpath]
    exact (hharness _ _).1
  · rw [hpath]
    exact (hharness _ _).2
  · have hp := GetOutputPath_root { t with state_ := VisualTestState.Starting } ctx
    unfold Start startFromOutputDirectory
    simp only [hp, Bool.false_eq_true, if_false]

/-- Claim C40: for a non-empty subpath the output path of a test is its output root, the
separator "/" and its golden path; the file name of a capture is never empty, so the file
its image is written to and the golden image looked up for it have the same path
relative to the output root and to the golden root. -/
theorem output_mirrors_golden (t : VisualTest) (ctx : Context) (subpath : String)
    (hsubpath : subpath ≠ "") :
    t.GetOutputPath ctx subpath = ctx.harness.outputRoot_ ++ "/" ++ t.GetGoldenPath ctx subpath ∧
      (∀ capture : VisualTestCapture,
        t.GetOutputPath ctx capture.GetImageFileName =
          ctx.harness.outputRoot_ ++ "/" ++ t.GetGoldenPath ctx capture.GetImageFileName ∧
        t.GetGoldenImage ctx capture.GetImageFileName =
          ctx.resources (t.GetGoldenPath ctx capture.GetImageFileName)) := by
  have hpath : ∀ s : String, s ≠ "" →
      t.GetOutputPath ctx s = ctx.harness.outputRoot_ ++ "/" ++ t.GetGoldenPath ctx s := by
    intro s hs
    have he : s.isEmpty = false := by
      cases h : s.isEmpty with
      | false => rfl
      | true => exact absurd ((String.isEmpty_iff _).mp h) hs
    simp [GetOutputPath, GetGoldenPath, VisualTestHarness.GetOutputPathSub,
      VisualTestHarness.GetGoldenPath, he, String.append_assoc]
  exact ⟨hpath subpath hsubpath,
    fun capture => ⟨hpath _ (GetImageFileName_not_empty capture), rfl⟩⟩

/-- Witness of claim C40: the image "capture.png" of the test "T" is written to
"Output/T/capture.png" and its golden image is looked up under "T/capture.png". -/
theorem output_mirrors_golden_witness :
    (namedTest emptySceneLoader).GetOutputPath outputContext "capture.png" =
        "Output/T/capture.png" ∧
      (namedTest emptySceneLoader).GetGoldenPath outputContext "capture.png" =
        "T/capture.png" := by
  have h := (output_mirrors_golden (namedTest emptySceneLoader) outputContext "capture.png"
    (by decide)).1
  rw [h]
  exact ⟨by decide!, by decide!⟩

end VisualTest

/-! ## Properties of the harness -/

namespace VisualTestHarness

/-- Claim C28: a newly constructed harness has the engine time step 1/60;
`SetEngineTimeStep(step)` stores `max(0.0001, step)`, which is at least 0.0001; for
`fps > 0`, `SetEngineFPS(fps)` stores `max(0.0001, 1/fps)`, and `SetEngineFPS(60)` gives
the step of a new harness. Both setters change no other member. -/
theorem engine_time_step (h : VisualTestHarness) :
    GetEngineTimeStep {} = 1 / 60 ∧
      (∀ step : ℚ,
        (h.SetEngineTimeStep step).GetEngineTimeStep = max (1 / 10000) step ∧
        1 / 10000 ≤ (h.SetEngineTimeStep step).GetEngineTimeStep ∧
        h.SetEngineTimeStep step = { h with timeStep_ := max (1 / 10000) step }) ∧
      (∀ fps : ℤ, 0 < fps →
        (h.SetEngineFPS fps).GetEngineTimeStep = max (1 / 10000) (1 / (fps : ℚ)) ∧
        1 / 10000 ≤ (h.SetEngineFPS fps).GetEngineTimeStep ∧
        h.SetEngineFPS fps = { h with timeStep_ := max (1 / 10000) (1 / (fps : ℚ)) }) ∧
      (h.SetEngineFPS 60).GetEngineTimeStep = GetEngineTimeStep {} := by
  refine ⟨rfl, fun step => ⟨rfl, le_max_left _ _, rfl⟩, fun fps _ => ⟨rfl, le_max_left _ _, rfl⟩, ?_⟩
  simp only [SetEngineFPS, SetEngineTimeStep, GetEngineTimeStep]
  norm_num

end VisualTestHarness

namespace HarnessRun

theorem IsComplete_iff (t : VisualTest) :
    t.IsComplete = true ↔
      t.state_ = VisualTestState.Passed ∨ t.state_ = VisualTestState.Failed := by
  simp [VisualTest.IsComplete, VisualTest.IsFailed, VisualTest.IsPassed, VisualTest.IsState,
    or_comm]

theorem stepUntilComplete_of_complete (engine : EngineFrame) (test : ℕ) (fuel : ℕ)
    (r : HarnessRun) (hcomplete : (r.tests test).IsComplete = true) :
    stepUntilComplete engine test fuel r = some r := by
  cases fuel <;> simp [stepUntilComplete, hcomplete]

theorem stepUntilComplete_some (engine : EngineFrame) (test : ℕ) (fuel : ℕ) :
    ∀ r r3 : HarnessRun, stepUntilComplete engine test fuel r = some r3 →
      (r3.tests test).IsComplete = true ∧ r3.allTests_ = r.allTests_ ∧
      ∃ steps : List ℚ, r3.calls = r.calls ++ steps.map HarnessCall.StepEngine := by
  induction fuel with
  | zero =>
    intro r r3 h
    by_cases hc : (r.tests test).IsComplete = true
    · simp [stepUntilComplete, hc] at h
      subst h
      exact ⟨hc, rfl, [], by simp⟩
    · simp [stepUntilComplete, hc] at h
  | succ n ih =>
    intro r r3 h
    by_cases hc : (r.tests test).IsComplete = true
    · simp [stepUntilComplete, hc] at h
      subst h
      exact ⟨hc, rfl, [], by simp⟩
    · simp only [stepUntilComplete, hc, Bool.false_eq_true, if_false] at h
      obtain ⟨h1, h2, steps, h3⟩ := ih _ _ h
      refine ⟨h1, h2, r.ctx.harness.timeStep_ :: steps, ?_⟩
      rw [h3]
      simp [StepEngine]

theorem stepUntilComplete_mono (engine : EngineFrame) (test : ℕ) (fuel : ℕ) :
    ∀ (r r3 : HarnessRun) (fuel2 : ℕ), fuel ≤ fuel2 →
      stepUntilComplete engine test fuel r = some r3 →
      stepUntilComplete engine test fuel2 r = some r3 := by
  induction fuel with
  | zero =>
    intro r r3 fuel2 _ h
    by_cases hc : (r.tests test).IsComplete = true
    · simp [stepUntilComplete, hc] at h
      subst h
      exact stepUntilComplete_of_complete engine test fuel2 r hc
    · simp [stepUntilComplete, hc] at h
  | succ n ih =>
    intro r r3 fuel2 hle h
    by_cases hc : (r.tests test).IsComplete = true
    · simp [stepUntilComplete, hc] at h
      subst h
      exact stepUntilComplete_of_complete engine test fuel2 r hc
    · simp only [stepUntilComplete, hc, Bool.false_eq_true, if_false] at h
      obtain ⟨m, rfl⟩ : ∃ m, fuel2 = m + 1 := ⟨fuel2 - 1, by omega⟩
      simp only [stepUntilComplete, hc, Bool.false_eq_true, if_false]
      exact ih _ _ m (by omega) h

/-- `RunOneTest` on a test it rejects. -/
theorem RunOneTest_rejected (engine : EngineFrame) (fuel : ℕ) (r : HarnessRun) (test : ℕ)
    (hreject : (r.tests test).name_.isEmpty = true ∨
      (r.tests test).state_ ≠ VisualTestState.NotStarted) :
    ∃ message : String,
      r.RunOneTest engine fuel test =
        some { r with
          ctx := { r.ctx with harness := r.ctx.harness.Error message }
          calls := r.calls ++ [HarnessCall.RunOneTest test, HarnessCall.Returned test] } := by
  by_cases hname : (r.tests test).name_.isEmpty = true
  · exact ⟨"Can't run unnamed test", by simp [RunOneTest, hname]⟩
  · have hstate : (r.tests test).state_ ≠ VisualTestState.NotStarted := by
      rcases hreject with h | h
      · exact absurd h hname
      · exact h
    exact ⟨"Test ({}) in invalid state, skipping",
      by simp [RunOneTest, hname, VisualTest.IsState, hstate]⟩

/-- `RunOneTest` on a test it accepts, as `Start` followed by the loop of engine steps. -/
theorem RunOneTest_accepted (engine : EngineFrame) (fuel : ℕ) (r : HarnessRun) (test : ℕ)
    (hname : (r.tests test).name_.isEmpty = false)
    (hstate : (r.tests test).state_ = VisualTestState.NotStarted) :
    r.RunOneTest engine fuel test =
      (stepUntilComplete engine test fuel
        { r with
          tests := Function.update r.tests test ((r.tests test).Start r.ctx).1
          ctx := ((r.tests test).Start r.ctx).2
          calls := r.calls ++ [HarnessCall.RunOneTest test, HarnessCall.Start test] }).map
        (fun r3 => { r3 with calls := r3.calls ++ [HarnessCall.Returned test] }) := by
  simp only [RunOneTest, hname, VisualTest.IsState, hstate, Bool.false_eq_true, if_false,
    decide_True, Bool.not_true, List.append_assoc, List.singleton_append]
  cases stepUntilComplete engine test fuel _ <;> rfl

/-- The calls recorded by a call of `RunOneTest` that returns. -/
theorem RunOneTest_calls (engine : EngineFrame) (fuel : ℕ) (r r1 : HarnessRun) (test : ℕ)
    (h : r.RunOneTest engine fuel test = some r1) :
    r1.allTests_ = r.allTests_ ∧
      r1.calls.filter HarnessCall.isInvocation =
        r.calls.filter HarnessCall.isInvocation ++
          [HarnessCall.RunOneTest test, HarnessCall.Returned test] := by
  by_cases hreject : (r.tests test).name_.isEmpty = true ∨
      (r.tests test).state_ ≠ VisualTestState.NotStarted
  · obtain ⟨message, hm⟩ := RunOneTest_rejected engine fuel r test hreject
    rw [hm] at h
    cases h
    simp [HarnessCall.isInvocation]
  · push_neg at hreject
    have hname : (r.tests test).name_.isEmpty = false := by simpa using hreject.1
    rw [RunOneTest_accepted engine fuel r test hname hreject.2] at h
    cases hs : stepUntilComplete engine test fuel
        { r with
          tests := Function.update r.tests test ((r.tests test).Start r.ctx).1
          ctx := ((r.tests test).Start r.ctx).2
          calls := r.calls ++ [HarnessCall.RunOneTest test, HarnessCall.Start test] } with
    | none => rw [hs] at h; cases h
    | some r3 =>
      rw [hs] at h
      cases h
      obtain ⟨_, h2, steps, h3⟩ := stepUntilComplete_some engine test fuel _ _ hs
      refine ⟨h2, ?_⟩
      simp only [h3]
      have hsteps : (steps.map HarnessCall.StepEngine).filter HarnessCall.isInvocation = [] := by
        induction steps with
        | nil => rfl
        | cons step rest ih => simp [HarnessCall.isInvocation, ih]
      simp [List.filter_append, hsteps, HarnessCall.isInvocation]

/-- Claim C25: `RunOneTest(test)` rejects a test whose name is empty or whose state is
not NotStarted: it returns, having reported an error, with the test objects unchanged and
neither `Start` nor an engine step among its calls. It starts any other test exactly
once; when it returns, the test is Passed or Failed, and between `Start` and the return
there are only engine steps; the result does not depend on how many more steps would
have been allowed; and when `Start` itself ends in Failed it returns without an engine
step. -/
theorem run_one_test (engine : EngineFrame) (fuel : ℕ) (r : HarnessRun) (test : ℕ) :
    (((r.tests test).name_.isEmpty = true ∨
          (r.tests test).state_ ≠ VisualTestState.NotStarted) →
        ∃ message : String,
          r.RunOneTest engine fuel test =
            some { r with
              ctx := { r.ctx with harness := r.ctx.harness.Error message }
              calls := r.calls ++ [HarnessCall.RunOneTest test, HarnessCall.Returned test] }) ∧
      ((r.tests test).name_.isEmpty = false →
        (r.tests test).state_ = VisualTestState.NotStarted →
        (∀ r1 : HarnessRun, r.RunOneTest engine fuel test = some r1 →
          ((r1.tests test).state_ = VisualTestState.Passed ∨
            (r1.tests test).state_ = VisualTestState.Failed) ∧
          (∃ steps : List ℚ,
            r1.calls =
              r.calls ++ [HarnessCall.RunOneTest test, HarnessCall.Start test] ++
                steps.map HarnessCall.StepEngine ++ [HarnessCall.Returned test]) ∧
          ∀ fuel2 : ℕ, fuel ≤ fuel2 → r.RunOneTest engine fuel2 test = some r1) ∧
        (((r.tests test).Start r.ctx).1.state_ = VisualTestState.Failed →
          r.RunOneTest engine fuel test =
            some { r with
              tests := Function.update r.tests test ((r.tests test).Start r.ctx).1
              ctx := ((r.tests test).Start r.ctx).2
              calls := r.calls ++
                [HarnessCall.RunOneTest test, HarnessCall.Start test,
                  HarnessCall.Returned test] })) := by
  refine ⟨RunOneTest_rejected engine fuel r test, fun hname hstate => ⟨fun r1 h => ?_, fun hf => ?_⟩⟩
  · rw [RunOneTest_accepted engine fuel r test hname hstate] at h
    cases hs : stepUntilComplete engine test fuel
        { r with
          tests := Function.update r.tests test ((r.tests test).Start r.ctx).1
          ctx := ((r.tests test).Start r.ctx).2
          calls := r.calls ++ [HarnessCall.RunOneTest test, HarnessCall.Start test] } with
    | none => rw [hs] at h; cases h
    | some r3 =>
      rw [hs] at h
      cases h
      obtain ⟨h1, _, steps, h3⟩ := stepUntilComplete_some engine test fuel _ _ hs
      refine ⟨(IsComplete_iff _).mp h1, ⟨steps, by simp [h3]⟩, fun fuel2 hle => ?_⟩
      rw [RunOneTest_accepted engine fuel2 r test hname hstate,
        stepUntilComplete_mono engine test fuel _ _ fuel2 hle hs]
      rfl
  · rw [RunOneTest_accepted engine fuel r test hname hstate,
      stepUntilComplete_of_complete]
    · simp
    · simp [IsComplete_iff, hf]

/-- Witness of claim C25: with an engine that sends the frame-end signal, the test at
address 0 is started, passes at the first engine step and `RunOneTest` returns; the test
at address 1 fails in `Start` and `RunOneTest` returns without an engine step; run again,
the passed test is rejected. -/
theorem run_one_test_witness :
    ((twoTestRun.RunOneTest frameEndEngine 1 0).map (fun r => (r.tests 0).state_)) =
        some VisualTestState.Passed ∧
      ((twoTestRun.RunOneTest frameEndEngine 1 0).map (fun r => r.calls)) =
        some [HarnessCall.RunOneTest 0, HarnessCall.Start 0, HarnessCall.StepEngine (1 / 60),
          HarnessCall.Returned 0] ∧
      ((twoTestRun.RunOneTest frameEndEngine 0 1).map (fun r => r.calls)) =
        some [HarnessCall.RunOneTest 1, HarnessCall.Start 1, HarnessCall.Returned 1] ∧
      (((twoTestRun.RunOneTest frameEndEngine 1 0).bind
          (fun r => r.RunOneTest frameEndEngine 1 0)).map (fun r => r.calls.drop 4)) =
        some [HarnessCall.RunOneTest 0, HarnessCall.Returned 0] := by
  have h := ((run_one_test frameEndEngine 0 twoTestRun 1).2 (by decide!) (by decide!)).2
    (by decide!)
  rw [h]
  exact ⟨by decide!, by decide!, by decide!, by decide!⟩

theorem register_allTests (registrations : List Registration) (r : HarnessRun) :
    (r.register registrations).allTests_ =
        r.allTests_ ++ registrations.map Registration.test ∧
      (r.register registrations).calls = r.calls := by
  induction registrations generalizing r with
  | nil => simp [register]
  | cons registration rest ih =>
    have h := ih (match registration with
      | Registration.AddTest test => r.AddTest test
      | Registration.CreateTest address => r.CreateTest address)
    simp only [register, List.foldl_cons] at h ⊢
    rw [h.1, h.2]
    cases registration <;> simp [AddTest, CreateTest, Registration.test]

theorem runTests_calls (engine : EngineFrame) (fuel : ℕ) (tests : List ℕ) :
    ∀ r r1 : HarnessRun, runTests engine fuel tests r = some r1 →
      r1.calls.filter HarnessCall.isInvocation =
        r.calls.filter HarnessCall.isInvocation ++
          (tests.map
            (fun test => [HarnessCall.RunOneTest test, HarnessCall.Returned test])).flatten := by
  induction tests with
  | nil =>
    intro r r1 h
    simp [runTests] at h
    subst h
    simp
  | cons test rest ih =>
    intro r r1 h
    simp only [runTests] at h
    cases h1 : r.RunOneTest engine fuel test with
    | none => rw [h1] at h; cases h
    | some r2 =>
      rw [h1] at h
      rw [ih r2 r1 h, (RunOneTest_calls engine fuel r r2 test h1).2]
      simp

theorem runTests_none (engine : EngineFrame) (fuel : ℕ) (tests : List ℕ) :
    ∀ r : HarnessRun, runTests engine fuel tests r = none →
      ∃ test ∈ tests, ∃ r1 : HarnessRun, r1.RunOneTest engine fuel test = none := by
  induction tests with
  | nil =>
    intro r h
    simp [runTests] at h
  | cons test rest ih =>
    intro r h
    simp only [runTests] at h
    cases h1 : r.RunOneTest engine fuel test with
    | none => exact ⟨test, List.mem_cons_self _ _, r, h1⟩
    | some r2 =>
      rw [h1] at h
      obtain ⟨test2, hmem, r3, h3⟩ := ih r2 h
      exact ⟨test2, List.mem_cons_of_mem _ hmem, r3, h3⟩

/-- Claim C26: after any sequence of `AddTest` and `CreateTest` calls the harness holds
the registered tests in registration order. When `RunAllTests` returns, the calls of
`RunOneTest` it has made are one per registered test, in registration order, each
returned before the next begins; and it returns unless one of those calls of
`RunOneTest` does not return. -/
theorem run_all_tests (engine : EngineFrame) (fuel : ℕ) (r : HarnessRun)
    (registrations : List Registration) :
    (r.register registrations).allTests_ =
        r.allTests_ ++ registrations.map Registration.test ∧
      (∀ r1 : HarnessRun, (r.register registrations).RunAllTests engine fuel = some r1 →
        r1.calls.filter HarnessCall.isInvocation =
          r.calls.filter HarnessCall.isInvocation ++
            ((r.allTests_ ++ registrations.map Registration.test).map
              (fun test => [HarnessCall.RunOneTest test, HarnessCall.Returned test])).flatten) ∧
      ((r.register registrations).RunAllTests engine fuel = none →
        ∃ test ∈ r.allTests_ ++ registrations.map Registration.test,
          ∃ r1 : HarnessRun, r1.RunOneTest engine fuel test = none) := by
  have hreg := register_allTests registrations r
  refine ⟨hreg.1, fun r1 h => ?_, fun h => ?_⟩
  · have h2 := runTests_calls engine fuel _ _ _ h
    rw [hreg.1, hreg.2] at h2
    exact h2
  · have h2 := runTests_none engine fuel _ _ h
    rw [hreg.1] at h2
    exact h2

/-- Witness of claim C26: the harness with the tests at the addresses 0 and 1 registered
in this order runs the test at 0 to its end (one engine step) and then the test at 1
(which fails in `Start`). -/
theorem run_all_tests_witness :
    twoTestRun.allTests_ = [0, 1] ∧
      ((twoTestRun.RunAllTests frameEndEngine 1).map (fun r => r.calls)) =
        some [HarnessCall.RunOneTest 0, HarnessCall.Start 0, HarnessCall.StepEngine (1 / 60),
          HarnessCall.Returned 0, HarnessCall.RunOneTest 1, HarnessCall.Start 1,
          HarnessCall.Returned 1] ∧
      ((twoTestRun.RunAllTests frameEndEngine 1).map
          (fun r => ((r.tests 0).state_, (r.tests 1).state_))) =
        some (VisualTestState.Passed, VisualTestState.Failed) := by
  have h := (run_all_tests frameEndEngine 1 {
      tests := fun test =>
        if test = 0 then namedTest emptySceneLoader
        else if test = 1 then namedTest failingSceneLoader
        else {}
      ctx := outputContext } [Registration.AddTest 0, Registration.AddTest 1]).1
  exact ⟨h, by decide!, by decide!⟩

end HarnessRun

end Urho3D
